import Mathlib

/-!
# Well-test fitting core: parameter store, residuals, Levenberg–Marquardt controller

A shallow embedding of the fitting core of `wt_fittingwidget.cpp` and
`fittingparameterchart.cpp`, and the properties of it that are checked.

Modelling conventions.

* A C++ `double` is a rational number (`ℚ`): arithmetic is exact, there is no
  rounding, no `NaN` and no infinity.  Division is Lean's total division.
* The functions of `libm` and Eigen the code calls (`log`, `log10`, `pow`, the
  `ldlt().solve` of the linear solver) are not part of the repository; they are
  the fields of `Numerics` and every result holds for all of them.
* The forward model (`ModelManager::calculateTheoreticalCurve`) is a field of
  `ModelManager`: an arbitrary deterministic function of the precision mode, the
  model type, the parameter map and the optional time sequence.
* A `QMap<QString, T>` is the list of its entries in iteration order (ascending
  key); `QMap.insert` keeps that order.
* What the code does to the outside (signals, calls of the forward model,
  switches of the precision mode) is recorded as a list of `Event`s, in program
  order, together with three marker events for the control flow of the
  optimizer (Jacobian build, trial step, accepted step).
* `m_stopRequested` is written by another thread; the optimizer sees it through
  `stop : Nat → Bool`, the value read at the top of outer iteration `iter`.
-/

namespace WT

/-! ## QMap -/

/-- A `QMap<QString, T>`, as the sequence of its entries in iteration order. -/
abbrev QMap (β : Type) := List (String × β)

namespace QMap

/-- The method `QMap::insert`: replaces the value of an existing key, otherwise adds
the entry at its place in ascending key order (keys compare character by character). -/
def insert {β : Type} : QMap β → String → β → QMap β
  | [], k, v => [(k, v)]
  | (k', v') :: rest, k, v =>
    if k < k' then (k, v) :: (k', v') :: rest
    else if k = k' then (k, v) :: rest
    else (k', v') :: insert rest k v

/-- The method `QMap::contains`. -/
def contains {β : Type} (m : QMap β) (k : String) : Bool :=
  (List.lookup k m).isSome

/-- The method `QMap::value` (and a read through `operator[]` of a key that is present):
the value of the key, the default-constructed `0.0` when the key is absent. -/
def value (m : QMap ℚ) (k : String) : ℚ :=
  (List.lookup k m).getD 0

/-- The keys of the map in iteration order. -/
def keys {β : Type} (m : QMap β) : List String :=
  m.map Prod.fst

end QMap

/-! ## Data model -/

/-- The enum `ModelManager::ModelType`, as its integer value. -/
abbrev ModelType := Nat

/-- The tuple `ModelCurveData`: time, pressure and derivative sequences. -/
abbrev ModelCurveData := List ℚ × List ℚ × List ℚ

/-- The struct `FitParameter` of `fittingparameterchart.h`, with its default member values. -/
structure FitParameter where
  name : String := ""
  displayName : String := ""
  value : ℚ := 0
  isFit : Bool := false
  min : ℚ := 0
  max : ℚ := 100
  isVisible : Bool := true
  step : ℚ := 0.1
  deriving DecidableEq, Inhabited

/-- The part of `ModelManager` the fitting core consumes.  The first argument of
`calculateTheoreticalCurve` is the precision mode the manager is in
(`setHighPrecision`), the last one the optional time sequence. -/
structure ModelManager where
  calculateTheoreticalCurve : Bool → ModelType → QMap ℚ → Option (List ℚ) → ModelCurveData
  /-- The method `getDefaultParameters(type)`: the default map of a model type. -/
  getDefaultParameters : ModelType → QMap ℚ := fun _ => []

/-- The library functions the numeric code calls. -/
structure Numerics where
  log : ℚ → ℚ
  log10 : ℚ → ℚ
  pow : ℚ → ℚ → ℚ
  ldltSolve : List (List ℚ) → List ℚ → List ℚ

/-- What the code does to the outside, in program order.  `jacobian`, `trialStep` and
`stepAccepted` are markers of the optimizer's control flow. -/
inductive Event where
  /-- The call `m_modelManager->setHighPrecision(b)`. -/
  | setHighPrecision (b : Bool)
  /-- A call of `calculateTheoreticalCurve` in precision mode `hp`. -/
  | forwardModel (hp : Bool) (params : QMap ℚ) (time : Option (List ℚ))
  /-- The signal `sigIterationUpdated(err, params, t, p, d)`: a snapshot. -/
  | iterationUpdated (err : ℚ) (params : QMap ℚ) (curve : ModelCurveData)
  /-- The signal `sigProgress(pct)`. -/
  | progress (pct : Nat)
  /-- Marker: `computeJacobian` is entered in outer iteration `iter`. -/
  | jacobian (iter : Nat)
  /-- Marker: trial step `tryIter` of outer iteration `iter` evaluated `trialMap`. -/
  | trialStep (iter tryIter : Nat) (trialMap : QMap ℚ) (newSSE : ℚ)
  /-- Marker: the trial step was accepted (`newSSE < currentSSE`). -/
  | stepAccepted (iter tryIter : Nat) (sse : ℚ) (params : QMap ℚ) (residuals : List ℚ)
  /-- The queued call of `onFitFinished`. -/
  | fitFinished
  /-- A member call through the null `m_modelManager`. -/
  | nullDeref
  deriving DecidableEq

/-- A row of the parameter table: the items of column 1 (its `UserRole` data, the
parameter name) and of column 2 (its text); `none` is a null item. -/
structure TableRow where
  key : Option String
  text : Option String
  deriving DecidableEq

/-- The state of `FittingParameterChart`: the table (`none` for a null `m_table`),
`m_params` and `m_modelManager`. -/
structure FittingParameterChart where
  table : Option (List TableRow)
  params : List FitParameter
  modelManager : Option ModelManager := none

/-- A graph of the plot: its legend name, its pen (the index of the colour in the
palette of `updateModelCurve` and whether the line is dashed; `none` for the pen a new
graph comes with) and the key and value vectors last handed to `setData`, in the order
they were handed over. -/
structure Graph where
  name : String := ""
  pen : Option (Nat × Bool) := none
  keys : List ℚ := []
  values : List ℚ := []
  deriving DecidableEq

/-- The text of `label_Error`, before formatting: not set by the fitting core, the
sensitivity-mode notice (key and number of values), or the mean squared error. -/
inductive ErrorLabel where
  | unset
  | sensitivity (key : String) (count : Nat)
  | mse (value : ℚ)
  deriving DecidableEq

/-- The state of `FittingWidget` the fitting core reads and writes. -/
structure FittingWidget where
  modelManager : Option ModelManager
  highPrecision : Bool
  obsTime : List ℚ
  obsDeltaP : List ℚ
  obsDerivative : List ℚ
  isFitting : Bool
  stopRequested : Bool
  currentModelType : ModelType
  sliderWeight : Int
  btnRunFitEnabled : Bool
  paramChart : FittingParameterChart
  /-- The graphs of `m_plot`, by index. -/
  plot : List Graph := []
  labelError : ErrorLabel := ErrorLabel.unset

/-! ## Residual evaluator -/

/-- One of the two loops of `calculateResiduals`,
`for(int i = 0; i < count; ++i) r.append(...)`; the first number is `count - i`. -/
def residualLoop (logf : ℚ → ℚ) (obs cal : List ℚ) (wt : ℚ) : Nat → Nat → List ℚ → List ℚ
  | 0, _, r => r
  | n + 1, i, r =>
    residualLoop logf obs cal wt n (i + 1)
      (r ++ [if obs.getD i 0 > 1e-10 ∧ cal.getD i 0 > 1e-10
             then (logf (obs.getD i 0) - logf (cal.getD i 0)) * wt else 0])

/-- The function `FittingWidget::calculateResiduals`: the residual vector, and the calls
of the forward model it made. -/
def calculateResiduals (num : Numerics) (w : FittingWidget) (params : QMap ℚ)
    (modelType : ModelType) (weight : ℚ) : List ℚ × List Event :=
  match w.modelManager with
  | none => ([], [])
  | some mm =>
    if w.obsTime.isEmpty then ([], [])
    else
      let res := mm.calculateTheoreticalCurve w.highPrecision modelType params (some w.obsTime)
      let pCal := res.2.1
      let dpCal := res.2.2
      let wp := weight
      let wd := 1 - weight
      let count := Nat.min w.obsDeltaP.length pCal.length
      let r := residualLoop num.log w.obsDeltaP pCal wp count 0 []
      let dCount := Nat.min (Nat.min w.obsDerivative.length dpCal.length) count
      let r := residualLoop num.log w.obsDerivative dpCal wd dCount 0 r
      (r, [Event.forwardModel w.highPrecision params (some w.obsTime)])

/-- The function `FittingWidget::calculateSumSquaredError`. -/
def calculateSumSquaredError (residuals : List ℚ) : ℚ :=
  residuals.foldl (fun sse v => sse + v * v) 0

/-! ## Derived parameters -/

/-- The recomputation of the derived parameter, written in `computeJacobian` as the lambda
`updateDeps` and inline, with the same text, at three places of
`runLevenbergMarquardtOptimization`:
`if(map.contains("L") && map.contains("Lf") && map["L"] > 1e-9) map["LfD"] = map["Lf"] / map["L"];` -/
def updateDeps (map : QMap ℚ) : QMap ℚ :=
  if QMap.contains map "L" && QMap.contains map "Lf" && decide (QMap.value map "L" > 1e-9)
  then QMap.insert map "LfD" (QMap.value map "Lf" / QMap.value map "L")
  else map

/-! ## Jacobian builder -/

/-- The perturbation mode test of `computeJacobian` and of the trial step:
`val > 1e-12 && pName != "S" && pName != "nf"`. -/
def isLogMode (val : ℚ) (pName : String) : Bool :=
  decide (val > 1e-12) && pName != "S" && pName != "nf"

/-- The body of the loop over `j` of `computeJacobian` for the active parameter at
position `idx` of the parameter list: the column (all zeros when a perturbed residual
vector has another length than the base one) and the forward-model calls made. -/
def jacobianColumn (num : Numerics) (w : FittingWidget) (params : QMap ℚ) (nRes : Nat)
    (modelType : ModelType) (currentFitParams : List FitParameter) (weight : ℚ)
    (idx : Nat) : List ℚ × List Event :=
  let pName := (currentFitParams.getD idx default).name
  let val := QMap.value params pName
  let isLog := isLogMode val pName
  let h : ℚ := if isLog then 0.01 else 1e-4
  let pPlus := if isLog then QMap.insert params pName (num.pow 10 (num.log10 val + h))
               else QMap.insert params pName (val + h)
  let pMinus := if isLog then QMap.insert params pName (num.pow 10 (num.log10 val - h))
                else QMap.insert params pName (val - h)
  let pPlus := if pName = "L" ∨ pName = "Lf" then updateDeps pPlus else pPlus
  let pMinus := if pName = "L" ∨ pName = "Lf" then updateDeps pMinus else pMinus
  let rPlus := calculateResiduals num w pPlus modelType weight
  let rMinus := calculateResiduals num w pMinus modelType weight
  let col :=
    if rPlus.1.length = nRes ∧ rMinus.1.length = nRes
    then (List.range nRes).map (fun i => (rPlus.1.getD i 0 - rMinus.1.getD i 0) / (2 * h))
    else List.replicate nRes 0
  (col, rPlus.2 ++ rMinus.2)

/-- The function `FittingWidget::computeJacobian`: the matrix `J[i][j]`, `nRes` rows of
`nParams` entries, and the forward-model calls made, in order. -/
def computeJacobian (num : Numerics) (w : FittingWidget) (params : QMap ℚ)
    (baseResiduals : List ℚ) (fitIndices : List Nat) (modelType : ModelType)
    (currentFitParams : List FitParameter) (weight : ℚ) : List (List ℚ) × List Event :=
  let nRes := baseResiduals.length
  let cols := fitIndices.map
    (fun idx => jacobianColumn num w params nRes modelType currentFitParams weight idx)
  ((List.range nRes).map (fun i => cols.map (fun c => c.1.getD i 0)),
   (cols.map (fun c => c.2)).flatten)

/-! ## Linear solver -/

/-- The function `FittingWidget::solveLinearSystem`: empty for an empty right-hand side,
otherwise the `n` entries of the solution Eigen returns. -/
def solveLinearSystem (num : Numerics) (A : List (List ℚ)) (b : List ℚ) : List ℚ :=
  let n := b.length
  if n = 0 then []
  else (List.range n).map (fun i => (num.ldltSolve A b).getD i 0)

/-! ## Levenberg–Marquardt controller -/

/-- The functions `qMin` and `qMax` of Qt. -/
def qMin (a b : ℚ) : ℚ := if a < b then a else b

/-- The function `qMax` of Qt. -/
def qMax (a b : ℚ) : ℚ := if a < b then b else a

/-- The entry `J[k][i]`. -/
def matEntry (J : List (List ℚ)) (k i : Nat) : ℚ := (J.getD k []).getD i 0

/-- The vector `g` after the accumulation loop: `g[i] += J[k][i] * residuals[k]` for
`k = 0 .. nRes - 1`. -/
def gradient (J : List (List ℚ)) (residuals : List ℚ) (nRes nParams : Nat) : List ℚ :=
  (List.range nParams).map (fun i =>
    (List.range nRes).foldl (fun acc k => acc + matEntry J k i * residuals.getD k 0) 0)

/-- The matrix `H` after the accumulation loop (`H[i][j] += J[k][i] * J[k][j]` for
`j <= i`) and the mirror loop (`H[i][j] = H[j][i]` for `j > i`). -/
def normalMatrix (J : List (List ℚ)) (nRes nParams : Nat) : List (List ℚ) :=
  (List.range nParams).map (fun i => (List.range nParams).map (fun j =>
    if j ≤ i
    then (List.range nRes).foldl (fun acc k => acc + matEntry J k i * matEntry J k j) 0
    else (List.range nRes).foldl (fun acc k => acc + matEntry J k j * matEntry J k i) 0))

/-- The damped matrix `H_lm`: a copy of `H` with
`H_lm[i][i] += lambda * (1.0 + std::abs(H[i][i]))`. -/
def dampedMatrix (H : List (List ℚ)) (lambda : ℚ) (nParams : Nat) : List (List ℚ) :=
  (List.range nParams).map (fun i => (List.range nParams).map (fun j =>
    if i = j then matEntry H i i + lambda * (1 + |matEntry H i i|) else matEntry H i j))

/-- The matrix `matA` that `solveLinearSystem` hands to Eigen in a trial step, for the
Jacobian `J` and the damping `lambda`: the entries `H_lm[i][j]` of the damped matrix, for
`i, j` below the number of active parameters. -/
def dampedSystem (J : List (List ℚ)) (nRes nParams : Nat) (lambda : ℚ) :
    Matrix (Fin nParams) (Fin nParams) ℚ :=
  Matrix.of (fun i j =>
    matEntry (dampedMatrix (normalMatrix J nRes nParams) lambda nParams) i.val j.val)

/-- The loop over the active parameters of a trial step: the update of each active
parameter of `trialMap` (a copy of `currentParamMap`) by its entry of `delta`, in log
space or linearly, clipped to the bounds of the parameter. -/
def applyDelta (num : Numerics) (params : List FitParameter) (fitIndices : List Nat)
    (currentParamMap : QMap ℚ) (delta : List ℚ) : QMap ℚ :=
  (List.range fitIndices.length).foldl (fun trialMap i =>
    let pIdx := fitIndices.getD i 0
    let p := params.getD pIdx default
    let pName := p.name
    let oldVal := QMap.value currentParamMap pName
    let isLog := isLogMode oldVal pName
    let newVal := if isLog then num.pow 10 (num.log10 oldVal + delta.getD i 0)
                  else oldVal + delta.getD i 0
    let newVal := qMax p.min (qMin newVal p.max)
    QMap.insert trialMap pName newVal) currentParamMap

/-- The variables of `runLevenbergMarquardtOptimization` that live across iterations. -/
structure LMState where
  lambda : ℚ
  currentSSE : ℚ
  currentParamMap : QMap ℚ
  residuals : List ℚ

/-- The increment `delta` of a trial step: the damped matrix `H_lm` and the right-hand
side `negG` are built and `solveLinearSystem(H_lm, negG)` is called. -/
def trialDelta (num : Numerics) (fitIndices : List Nat) (H : List (List ℚ)) (g : List ℚ)
    (lambda : ℚ) : List ℚ :=
  let nParams := fitIndices.length
  let H_lm := dampedMatrix H lambda nParams
  let negG := (List.range nParams).map (fun i => - g.getD i 0)
  solveLinearSystem num H_lm negG

/-- The map `trialMap` of a trial step: the active parameters updated by `delta` and
clipped, then the derived parameter recomputed. -/
def trialMapOf (num : Numerics) (params : List FitParameter) (fitIndices : List Nat)
    (H : List (List ℚ)) (g : List ℚ) (st : LMState) : QMap ℚ :=
  updateDeps (applyDelta num params fitIndices st.currentParamMap
    (trialDelta num fitIndices H g st.lambda))

/-- The trial loop `for(int tryIter = 0; tryIter < 5; ++tryIter)` of outer iteration
`iter`; the first number is `5 - tryIter`.  Returns the events, the state after the loop
and `stepAccepted`. -/
def trialLoop (num : Numerics) (w : FittingWidget) (mm : ModelManager) (modelType : ModelType)
    (params : List FitParameter) (weight : ℚ) (fitIndices : List Nat)
    (H : List (List ℚ)) (g : List ℚ) (nRes iter : Nat) :
    Nat → Nat → LMState → List Event × LMState × Bool
  | 0, _, st => ([], st, false)
  | n + 1, tryIter, st =>
    let trialMap := trialMapOf num params fitIndices H g st
    let newRes := calculateResiduals num w trialMap modelType weight
    let newSSE := calculateSumSquaredError newRes.1
    if newSSE < st.currentSSE then
      let iterCurve := mm.calculateTheoreticalCurve w.highPrecision modelType trialMap none
      (newRes.2 ++
        [Event.trialStep iter tryIter trialMap newSSE,
         Event.stepAccepted iter tryIter newSSE trialMap newRes.1,
         Event.forwardModel w.highPrecision trialMap none,
         Event.iterationUpdated (newSSE / nRes) trialMap iterCurve],
       { lambda := st.lambda / 10, currentSSE := newSSE, currentParamMap := trialMap,
         residuals := newRes.1 },
       true)
    else
      let rest := trialLoop num w mm modelType params weight fitIndices H g nRes iter n
        (tryIter + 1) { st with lambda := st.lambda * 10 }
      (newRes.2 ++ Event.trialStep iter tryIter trialMap newSSE :: rest.1, rest.2)

/-- The outer loop `for(int iter = 0; iter < maxIter; ++iter)`; the first number is
`maxIter - iter`.  Returns the events and the state at loop exit. -/
def outerLoop (num : Numerics) (w : FittingWidget) (mm : ModelManager) (stop : Nat → Bool)
    (modelType : ModelType) (params : List FitParameter) (weight : ℚ) (fitIndices : List Nat)
    (maxIter : Nat) : Nat → Nat → LMState → List Event × LMState
  | 0, _, st => ([], st)
  | n + 1, iter, st =>
    if stop iter then ([], st)
    else if !st.residuals.isEmpty && decide (st.currentSSE / st.residuals.length < 3e-3)
    then ([], st)
    else
      let nParams := fitIndices.length
      let J := computeJacobian num w st.currentParamMap st.residuals fitIndices modelType
        params weight
      let nRes := st.residuals.length
      let g := gradient J.1 st.residuals nRes nParams
      let H := normalMatrix J.1 nRes nParams
      let tr := trialLoop num w mm modelType params weight fitIndices H g nRes iter 5 0 st
      let head := Event.progress (iter * 100 / maxIter) :: Event.jacobian iter :: (J.2 ++ tr.1)
      if !tr.2.2 && decide (tr.2.1.lambda > 1e10) then (head, tr.2.1)
      else
        let rest := outerLoop num w mm stop modelType params weight fitIndices maxIter n
          (iter + 1) tr.2.1
        (head ++ rest.1, rest.2)

/-- The indices `fitIndices` of the parameters with `isFit`, in list order. -/
def fitIndicesOf (params : List FitParameter) : List Nat :=
  (List.range params.length).filter (fun i => (params.getD i default).isFit)

/-- The initial `currentParamMap`: every parameter inserted under its name, then the
derived parameter recomputed. -/
def initialParamMap (params : List FitParameter) : QMap ℚ :=
  updateDeps (params.foldl (fun m p => QMap.insert m p.name p.value) [])

/-- The widget after `setHighPrecision(false)`. -/
def lowPrecision (w : FittingWidget) : FittingWidget := { w with highPrecision := false }

/-- The state before the first outer iteration: `lambda = 0.01`, the initial parameter
map, its residuals and their SSE. -/
def initialState (num : Numerics) (w : FittingWidget) (modelType : ModelType)
    (params : List FitParameter) (weight : ℚ) : LMState :=
  let currentParamMap := initialParamMap params
  let residuals := calculateResiduals num w currentParamMap modelType weight
  { lambda := 0.01, currentSSE := calculateSumSquaredError residuals.1,
    currentParamMap := currentParamMap, residuals := residuals.1 }

/-- The outer loop as `runLevenbergMarquardtOptimization` runs it: `maxIter = 50`, from
`iter = 0` and the initial state, in low precision. -/
def fitLoop (num : Numerics) (w : FittingWidget) (mm : ModelManager) (stop : Nat → Bool)
    (modelType : ModelType) (params : List FitParameter) (weight : ℚ) : List Event × LMState :=
  outerLoop num (lowPrecision w) mm stop modelType params weight (fitIndicesOf params) 50 50 0
    (initialState num (lowPrecision w) modelType params weight)

/-- The function `FittingWidget::runLevenbergMarquardtOptimization`: the events it
produces, in order. -/
def runLevenbergMarquardtOptimization (num : Numerics) (w : FittingWidget) (stop : Nat → Bool)
    (modelType : ModelType) (params : List FitParameter) (weight : ℚ) : List Event :=
  let pre := match w.modelManager with
    | some _ => [Event.setHighPrecision false]
    | none => []
  let fitIndices := fitIndicesOf params
  let nParams := fitIndices.length
  if nParams = 0 then pre ++ [Event.fitFinished]
  else
    let st0 := initialState num (lowPrecision w) modelType params weight
    let resEvents :=
      (calculateResiduals num (lowPrecision w) st0.currentParamMap modelType weight).2
    match w.modelManager with
    | none => pre ++ resEvents ++ [Event.nullDeref]
    | some mm =>
      let curve := mm.calculateTheoreticalCurve false modelType st0.currentParamMap none
      let loop := fitLoop num w mm stop modelType params weight
      let finalMap := updateDeps loop.2.currentParamMap
      let finalCurve := mm.calculateTheoreticalCurve true modelType finalMap none
      pre ++ resEvents ++
        [Event.forwardModel false st0.currentParamMap none,
         Event.iterationUpdated (st0.currentSSE / st0.residuals.length) st0.currentParamMap
           curve] ++
        loop.1 ++
        [Event.setHighPrecision true,
         Event.forwardModel true finalMap none,
         Event.iterationUpdated (loop.2.currentSSE / loop.2.residuals.length) finalMap
           finalCurve,
         Event.fitFinished]

/-! ## Projections of the event list -/

/-- The SSE of an accepted step. -/
def Event.acceptedSSE? : Event → Option ℚ
  | .stepAccepted _ _ sse _ _ => some sse
  | _ => none

/-- The parameter map of an accepted step. -/
def Event.acceptedMap? : Event → Option (QMap ℚ)
  | .stepAccepted _ _ _ m _ => some m
  | _ => none

/-- The outer iteration of a Jacobian build. -/
def Event.jacobianIter? : Event → Option Nat
  | .jacobian iter => some iter
  | _ => none

/-- The outer iteration of a trial step. -/
def Event.trialIter? : Event → Option Nat
  | .trialStep iter _ _ _ => some iter
  | _ => none

/-- The parameter map of a forward-model call. -/
def Event.modelMap? : Event → Option (QMap ℚ)
  | .forwardModel _ m _ => some m
  | _ => none

/-- Whether the event is a snapshot (`sigIterationUpdated`). -/
def Event.isSnapshot : Event → Bool
  | .iterationUpdated _ _ _ => true
  | _ => false

/-- Whether the event is a call of the forward model. -/
def Event.isForwardModel : Event → Bool
  | .forwardModel _ _ _ => true
  | _ => false

/-- The normalized error and the parameter map of a snapshot. -/
def Event.snapshot? : Event → Option (ℚ × QMap ℚ)
  | .iterationUpdated err m _ => some (err, m)
  | _ => none

/-- The SSE, the parameter map and the residual vector of an accepted step. -/
def Event.accepted? : Event → Option (ℚ × QMap ℚ × List ℚ)
  | .stepAccepted _ _ sse m r => some (sse, m, r)
  | _ => none

/-- The normalized errors and parameter maps of the snapshots of an event list, in
order. -/
def snapshots (evs : List Event) : List (ℚ × QMap ℚ) := evs.filterMap Event.snapshot?

/-- The accepted steps of an event list, in order. -/
def acceptedSteps (evs : List Event) : List (ℚ × QMap ℚ × List ℚ) :=
  evs.filterMap Event.accepted?

/-- The SSE, parameter map and residual vector that are current after the accepted steps
`l`, from the ones of the state `st`: those of the last accepted step, if any. -/
def currentAfter (st : LMState) (l : List (ℚ × QMap ℚ × List ℚ)) : ℚ × QMap ℚ × List ℚ :=
  l.getLast?.getD (st.currentSSE, st.currentParamMap, st.residuals)

/-- The frame of a run on a parameter map `m`: every parameter that is not fit-enabled and
is not `LfD` has the value of the parameter list, every name of the list is a key, every
key is a name of the list or `LfD`, and `LfD` is a key only when it is a name of the list
or both `L` and `Lf` are. -/
def FrameOk (params : List FitParameter) (m : QMap ℚ) : Prop :=
  (∀ p ∈ params, p.isFit = false → p.name ≠ "LfD" → QMap.value m p.name = p.value) ∧
  (∀ p ∈ params, QMap.contains m p.name = true) ∧
  (∀ k, QMap.contains m k = true → k = "LfD" ∨ k ∈ params.map (fun p => p.name)) ∧
  (QMap.contains m "LfD" = true → "LfD" ∈ params.map (fun p => p.name) ∨
    ("L" ∈ params.map (fun p => p.name) ∧ "Lf" ∈ params.map (fun p => p.name)))

/-- The SSEs of the accepted steps of an event list, in order. -/
def acceptedSSEs (evs : List Event) : List ℚ := evs.filterMap Event.acceptedSSE?

/-- The parameter maps of the accepted steps of an event list, in order. -/
def acceptedMaps (evs : List Event) : List (QMap ℚ) := evs.filterMap Event.acceptedMap?

/-- The outer iterations in which a Jacobian was built, in order. -/
def jacobianIters (evs : List Event) : List Nat := evs.filterMap Event.jacobianIter?

/-- The outer iteration of every trial step, in order. -/
def trialIters (evs : List Event) : List Nat := evs.filterMap Event.trialIter?

/-- The parameter maps passed to the forward model, in order. -/
def modelMaps (evs : List Event) : List (QMap ℚ) := evs.filterMap Event.modelMap?

/-- The SSE of the initial parameter map, `currentSSE` before the first iteration. -/
def initialSSE (num : Numerics) (w : FittingWidget) (modelType : ModelType)
    (params : List FitParameter) (weight : ℚ) : ℚ :=
  (initialState num (lowPrecision w) modelType params weight).currentSSE

/-- The derived-parameter invariant of a parameter map: when `L` and `Lf` are present
and `L > 1e-9`, `LfD` is `Lf / L`. -/
def DerivedOk (m : QMap ℚ) : Prop :=
  QMap.contains m "L" = true → QMap.contains m "Lf" = true → QMap.value m "L" > 1e-9 →
    QMap.value m "LfD" = QMap.value m "Lf" / QMap.value m "L"

instance (m : QMap ℚ) : Decidable (DerivedOk m) :=
  inferInstanceAs (Decidable
    (QMap.contains m "L" = true → QMap.contains m "Lf" = true → QMap.value m "L" > 1e-9 →
      QMap.value m "LfD" = QMap.value m "Lf" / QMap.value m "L"))

/-! ## Sensitivity parser -/

/-- The functions of `QString` that are taken as given: `toDouble` (`none` when the
`ok` flag is false) and `trimmed`. -/
structure QtText where
  toDouble : String → Option ℚ
  trimmed : String → String

/-- The ASCII comma. -/
def asciiComma : Char := Char.ofNat 0x2C

/-- The full-width comma `QChar(0xFF0C)`. -/
def fullWidthComma : Char := Char.ofNat 0xFF0C

/-- The parts `QString::split` cuts a text into at the separator characters, empty
parts kept. -/
def splitParts (isSep : Char → Bool) : List Char → List (List Char)
  | [] => [[]]
  | c :: cs =>
    if isSep c then [] :: splitParts isSep cs
    else match splitParts isSep cs with
      | [] => [[c]]
      | p :: ps => (c :: p) :: ps

/-- The call `QString::split(sep, Qt::SkipEmptyParts)`. -/
def splitSkipEmpty (isSep : Char → Bool) (text : List Char) : List (List Char) :=
  (splitParts isSep text).filter (fun p => !p.isEmpty)

/-- The body of the loop of `parseSensitivityValues` over the parts:
`double v = part.trimmed().toDouble(&ok); if (ok) values.append(v);`. -/
def appendParsed (qt : QtText) (values : List ℚ) (part : List Char) : List ℚ :=
  match qt.toDouble (qt.trimmed (String.mk part)) with
  | some v => values ++ [v]
  | none => values

/-- The function `FittingWidget::parseSensitivityValues`. -/
def parseSensitivityValues (qt : QtText) (text : String) : List ℚ :=
  let cleanText := text.toList.map (fun c => if c = fullWidthComma then asciiComma else c)
  let parts := splitSkipEmpty (fun c => c == asciiComma) cleanText
  parts.foldl (appendParsed qt) []

/-- The fragments of a text as the specification words them: the text split at ASCII
comma or full-width comma, empty fragments skipped. -/
def specFragments (text : String) : List (List Char) :=
  (text.toList.splitOnP (fun c => c == asciiComma || c == fullWidthComma)).filter
    (fun p => p ≠ [])

/-- The parse of a text as the specification words it: the numbers of the trimmed
fragments that parse as a double, in input order. -/
def parseSensitivityValuesSpec (qt : QtText) (text : String) : List ℚ :=
  (specFragments text).filterMap (fun frag => qt.toDouble (qt.trimmed (String.mk frag)))

/-- The locals `sensitivityKey`, `sensitivityValues` and `baseParams` of
`updateModelCurve`. -/
structure SweepScan where
  sensitivityKey : String
  sensitivityValues : List ℚ
  baseParams : QMap ℚ

/-- The body of the loop of `updateModelCurve` over the raw texts. -/
def scanStep (qt : QtText) (st : SweepScan) (it : String × String) : SweepScan :=
  match parseSensitivityValues qt it.2 with
  | [] => { st with baseParams := QMap.insert st.baseParams it.1 0 }
  | v :: vs =>
    if (v :: vs).length > 1 ∧ st.sensitivityKey = "" then
      { sensitivityKey := it.1, sensitivityValues := v :: vs,
        baseParams := QMap.insert st.baseParams it.1 v }
    else { st with baseParams := QMap.insert st.baseParams it.1 v }

/-- The loop of `updateModelCurve` over the raw texts, in the iteration order of the map,
from empty `sensitivityKey`, `sensitivityValues` and `baseParams`. -/
def scanRawTexts (qt : QtText) (rawTexts : QMap String) : SweepScan :=
  rawTexts.foldl (scanStep qt) { sensitivityKey := "", sensitivityValues := [], baseParams := [] }

/-- The local `isSensitivityMode` of `updateModelCurve`. -/
def isSensitivityMode (qt : QtText) (rawTexts : QMap String) : Bool :=
  decide ((scanRawTexts qt rawTexts).sensitivityKey ≠ "")

/-- The function `FittingParameterChart::getRawParamTexts`. -/
def getRawParamTexts (c : FittingParameterChart) : QMap String :=
  match c.table with
  | none => []
  | some rows => rows.foldl (fun rawTexts row =>
      match row.key, row.text with
      | some key, some text => QMap.insert rawTexts key text
      | _, _ => rawTexts) []

/-! ## Parameter table and start of a fit -/

/-- The inner loop of `updateParamsFromTable`: the first parameter named `key` gets the
value. -/
def setFirstNamed (key : String) (val : ℚ) : List FitParameter → List FitParameter
  | [] => []
  | p :: ps => if p.name = key then { p with value := val } :: ps
               else p :: setFirstNamed key val ps

/-- The value `updateParamsFromTable` reads from a cell text; `none` when the code takes
`first()` of an empty list. -/
def cellValue (qt : QtText) (text : String) : Option ℚ :=
  if text.toList.contains asciiComma || text.toList.contains fullWidthComma then
    match splitSkipEmpty (fun c => c == asciiComma || c == fullWidthComma) text.toList with
    | [] => none
    | firstPart :: _ => some ((qt.toDouble (String.mk firstPart)).getD 0)
  else some ((qt.toDouble text).getD 0)

/-- The loop of `updateParamsFromTable` over the rows; `none` when the code reads through
a null item or takes `first()` of an empty list. -/
def updateRows (qt : QtText) : List TableRow → List FitParameter → Option (List FitParameter)
  | [], params => some params
  | row :: rows, params =>
    match row.key with
    | none => updateRows qt rows params
    | some key =>
      match row.text with
      | none => none
      | some text =>
        match cellValue qt text with
        | none => none
        | some val => updateRows qt rows (setFirstNamed key val params)

/-- The function `FittingParameterChart::updateParamsFromTable`. -/
def updateParamsFromTable (qt : QtText) (c : FittingParameterChart) :
    Option FittingParameterChart :=
  match c.table with
  | none => some c
  | some rows => (updateRows qt rows c.params).map (fun ps => { c with params := ps })

/-- The arguments of the optimization task a click starts:
`runOptimizationTask(modelType, paramsCopy, w)`. -/
structure FitTask where
  modelType : ModelType
  paramsCopy : List FitParameter
  w : ℚ

/-- The outcome of `on_btnRunFit_clicked`: the widget afterwards, the task started (if
any) and whether the warning box was shown. -/
structure ClickResult where
  widget : FittingWidget
  task : Option FitTask
  warned : Bool

/-- The slot `FittingWidget::on_btnRunFit_clicked`; `none` when `updateParamsFromTable`
has no defined result. -/
def on_btnRunFit_clicked (qt : QtText) (w : FittingWidget) : Option ClickResult :=
  if w.isFitting then some { widget := w, task := none, warned := false }
  else if w.obsTime.isEmpty then some { widget := w, task := none, warned := true }
  else
    match updateParamsFromTable qt w.paramChart with
    | none => none
    | some chart =>
      some { widget := { w with paramChart := chart, isFitting := true,
                                stopRequested := false, btnRunFitEnabled := false },
             task := some { modelType := w.currentModelType, paramsCopy := chart.params,
                            w := (w.sliderWeight : ℚ) / 100 },
             warned := false }

/-- The maps `pPlus` (`up = true`) and `pMinus` (`up = false`) of the loop body of
`computeJacobian` for the parameter named `pName`: the parameter perturbed by the step
`h` in log space or linearly, and the derived parameter recomputed when `pName` is `L` or
`Lf`. -/
def perturbedParams (num : Numerics) (params : QMap ℚ) (pName : String) (up : Bool) : QMap ℚ :=
  let val := QMap.value params pName
  let isLog := isLogMode val pName
  let h : ℚ := if isLog then 0.01 else 1e-4
  let p :=
    if isLog then
      QMap.insert params pName (num.pow 10 (if up then num.log10 val + h else num.log10 val - h))
    else QMap.insert params pName (if up then val + h else val - h)
  if pName = "L" ∨ pName = "Lf" then updateDeps p else p

/-! ## One outer iteration -/

/-- The Jacobian an outer iteration builds from its state: the call
`computeJacobian(currentParamMap, residuals, fitIndices, modelType, params, weight)`. -/
def iterationJacobian (num : Numerics) (w : FittingWidget) (modelType : ModelType)
    (params : List FitParameter) (weight : ℚ) (fitIndices : List Nat) (st : LMState) :
    List (List ℚ) × List Event :=
  computeJacobian num w st.currentParamMap st.residuals fitIndices modelType params weight

/-- The trial loop an outer iteration runs from its state, with the matrix `H` and the
vector `g` it accumulates from its Jacobian and `nRes = residuals.size()`. -/
def iterationTrials (num : Numerics) (w : FittingWidget) (mm : ModelManager)
    (modelType : ModelType) (params : List FitParameter) (weight : ℚ) (fitIndices : List Nat)
    (iter : Nat) (st : LMState) : List Event × LMState × Bool :=
  trialLoop num w mm modelType params weight fitIndices
    (normalMatrix (iterationJacobian num w modelType params weight fitIndices st).1
      st.residuals.length fitIndices.length)
    (gradient (iterationJacobian num w modelType params weight fitIndices st).1 st.residuals
      st.residuals.length fitIndices.length)
    st.residuals.length iter 5 0 st

/-- The variables of an iteration boundary: the state, and whether the iteration before
ended without an accepted step and with `lambda > 1e10` (false before the first
iteration). -/
abbrev Boundary := LMState × Bool

/-- The boundary after outer iteration `iter`, run from the boundary `b`. -/
def nextBoundary (num : Numerics) (w : FittingWidget) (mm : ModelManager)
    (modelType : ModelType) (params : List FitParameter) (weight : ℚ) (fitIndices : List Nat)
    (iter : Nat) (b : Boundary) : Boundary :=
  let tr := iterationTrials num w mm modelType params weight fitIndices iter b.1
  (tr.2.1, !tr.2.2 && decide (tr.2.1.lambda > 1e10))

/-- The boundary `d` outer iterations after the boundary `b0` of iteration `iter0`. -/
def boundaryFrom (num : Numerics) (w : FittingWidget) (mm : ModelManager)
    (modelType : ModelType) (params : List FitParameter) (weight : ℚ) (fitIndices : List Nat)
    (iter0 : Nat) (b0 : Boundary) : Nat → Boundary
  | 0 => b0
  | d + 1 => nextBoundary num w mm modelType params weight fitIndices (iter0 + d)
      (boundaryFrom num w mm modelType params weight fitIndices iter0 b0 d)

/-- The four conditions under which outer iteration `iter` is started at the boundary
`b`: fewer than `maxIter` iterations have run, the cancellation flag is not set, the
normalized error of a non-empty residual vector is not below `3e-3`, and the iteration
before did not end without acceptance with `lambda > 1e10`. -/
def startsIteration (stop : Nat → Bool) (maxIter iter : Nat) (b : Boundary) : Prop :=
  iter < maxIter ∧ stop iter = false ∧
  ¬ (b.1.residuals ≠ [] ∧ b.1.currentSSE / b.1.residuals.length < 3e-3) ∧
  b.2 = false

/-! ## Model curve and sensitivity sweep -/

/-- The number formats the fitting page uses: `QString::number(v, 'g', 6)` for a table
cell, `QString::arg(double)` for a legend, and the whole text
`QString("%1=%2").arg(key).arg(val)` for a key that itself holds a place marker `%`. -/
structure NumberText where
  g6 : ℚ → String
  arg : ℚ → String
  argMarked : String → ℚ → String := fun _ _ => ""

/-- Applies `f` to the element at an index of a list, when there is one. -/
def modifyAt {α : Type} (f : α → α) : Nat → List α → List α
  | _, [] => []
  | 0, a :: l => f a :: l
  | n + 1, a :: l => a :: modifyAt f n l

/-- The non-const `QMap::operator[]` used as a read: a key that is absent is inserted with
the default-constructed value `0.0`. -/
def QMap.touch (m : QMap ℚ) (k : String) : QMap ℚ :=
  if QMap.contains m k then m else QMap.insert m k 0

/-- The treatment of the derived parameter in the base map of `updateModelCurve`:
`LfD = Lf / L` when `L` and `Lf` are present and `L > 1e-9`, and `LfD = 0.0` otherwise. -/
def baseDeps (baseParams : QMap ℚ) : QMap ℚ :=
  if QMap.contains baseParams "L" && QMap.contains baseParams "Lf" &&
      decide (QMap.value baseParams "L" > 1e-9)
  then QMap.insert baseParams "LfD" (QMap.value baseParams "Lf" / QMap.value baseParams "L")
  else QMap.insert baseParams "LfD" 0

/-- The base parameter map of `updateModelCurve` for a raw-text map. -/
def baseParamsOf (qt : QtText) (rawTexts : QMap String) : QMap ℚ :=
  baseDeps (scanRawTexts qt rawTexts).baseParams

/-- The map `currentParams` of one pass of the sweep loop: a copy of the base map with the
sweep key set to the sweep value and, when the key is `L` or `Lf` and `L > 1e-9`, `LfD`
set to `Lf / L`; the reads `currentParams["L"]` and `currentParams["Lf"]` insert a key
that is absent. -/
def sweepParams (baseParams : QMap ℚ) (sensitivityKey : String) (val : ℚ) : QMap ℚ :=
  let currentParams := QMap.insert baseParams sensitivityKey val
  if sensitivityKey = "L" ∨ sensitivityKey = "Lf" then
    let currentParams := QMap.touch currentParams "L"
    if QMap.value currentParams "L" > 1e-9 then
      let currentParams := QMap.touch currentParams "Lf"
      QMap.insert currentParams "LfD"
        (QMap.value currentParams "Lf" / QMap.value currentParams "L")
    else currentParams
  else currentParams

/-- Whether the loop `for(int i=0; i<t.size(); ++i) if(t[i]>1e-8 && p[i]>1e-8)` of
`plotCurves` and of `setObservedData` stays inside `p`: it reads `p[i]`, without a test of
the index, for every `i` with `t[i] > 1e-8`. -/
def plotReadsInRange (t p : List ℚ) : Bool :=
  (List.range t.length).all (fun i => decide (t.getD i 0 > 1e-8 → i < p.length))

/-- The rows that loop keeps, the indices `i` of `t` with `t[i] > 1e-8` and `p[i] > 1e-8`;
`none` when the loop reads `p` beyond its end. -/
def plotRows (t p : List ℚ) : Option (List Nat) :=
  if plotReadsInRange t p then
    some ((List.range t.length).filter
      (fun i => decide (t.getD i 0 > 1e-8) && decide (p.getD i 0 > 1e-8)))
  else none

/-- The function `FittingWidget::plotCurves` on the list of graphs: for a model curve two
graphs are added, pressure and derivative over the kept rows, a derivative that is
missing or not above `1e-8` being drawn as `1e-10`; `none` when the loop over the rows
reads `p` beyond its end. -/
def plotCurves (plot : List Graph) (t p d : List ℚ) (isModel : Bool) : Option (List Graph) :=
  match plotRows t p with
  | none => none
  | some rows =>
    let vt := rows.map (fun i => t.getD i 0)
    let vp := rows.map (fun i => p.getD i 0)
    let vd := rows.map
      (fun i => if i < d.length ∧ d.getD i 0 > 1e-8 then d.getD i 0 else 1e-10)
    if isModel then some (plot ++ [{ keys := vt, values := vp }, { keys := vt, values := vd }])
    else some plot

/-- The calls `graph(idx)->setName(name); graph(idx)->setPen(pen)`. -/
def styleGraph (plot : List Graph) (idx : Nat) (name : String) (pen : Nat × Bool) :
    List Graph :=
  modifyAt (fun g => { g with name := name, pen := some pen }) idx plot

/-- The time sequence `updateModelCurve` uses without observed data, built by
`for(double e = -4; e <= 4; e += 0.1) targetT.append(pow(10, e))`.  In double arithmetic
the accumulated `e` is above `4` after 80 additions of `0.1`, so the body runs 80 times,
for the exponents from `-4` to `3.9`; they are written here by their nominal values
`-4 + k / 10`. -/
def defaultTargetT (num : Numerics) : List ℚ :=
  (List.range 80).map (fun (k : Nat) => num.pow 10 (-4 + (k : ℚ) * 0.1))

/-- The text `legendSuffix` of a sweep curve, `QString("%1=%2").arg(key).arg(val)`: the
key, `=` and the value, unless the key holds a place marker of its own for the second
`arg` to replace. -/
def legendSuffix (fmt : NumberText) (sensitivityKey : String) (val : ℚ) : String :=
  if sensitivityKey.toList.contains (Char.ofNat 37) then fmt.argMarked sensitivityKey val
  else sensitivityKey ++ "=" ++ fmt.arg val

/-- The sweep loop of `updateModelCurve`, from index `i` over the remaining sweep values:
the plot afterwards and the forward-model calls made; `none` when a call of `plotCurves`
reads beyond the end of the pressure sequence. -/
def sweepLoop (fmt : NumberText) (mm : ModelManager) (hp : Bool) (type : ModelType)
    (baseParams : QMap ℚ) (sensitivityKey : String) (targetT : List ℚ) :
    Nat → List ℚ → List Graph → Option (List Graph × List Event)
  | _, [], plot => some (plot, [])
  | i, val :: rest, plot =>
    let currentParams := sweepParams baseParams sensitivityKey val
    let res := mm.calculateTheoreticalCurve hp type currentParams (some targetT)
    let c := i % 8
    let suffix := legendSuffix fmt sensitivityKey val
    match plotCurves plot res.1 res.2.1 res.2.2 true with
    | none => none
    | some plot =>
      let count := plot.length
      let plot :=
        if count ≥ 2 then
          styleGraph (styleGraph plot (count - 2) ("P: " ++ suffix) (c, false))
            (count - 1) ("P\x27: " ++ suffix) (c, true)
        else plot
      match sweepLoop fmt mm hp type baseParams sensitivityKey targetT (i + 1) rest plot with
      | none => none
      | some next => some (next.1, Event.forwardModel hp currentParams (some targetT) :: next.2)

/-- The standard (single curve) branch of `updateModelCurve`, entered with the old model
graphs removed: the widget afterwards and the forward-model calls made. -/
def standardCurve (num : Numerics) (w : FittingWidget) (mm : ModelManager)
    (baseParams : QMap ℚ) (targetT : List ℚ) : Option (FittingWidget × List Event) :=
  let type := w.currentModelType
  let res := mm.calculateTheoreticalCurve w.highPrecision type baseParams (some targetT)
  match plotCurves w.plot res.1 res.2.1 res.2.2 true with
  | none => none
  | some plot =>
    let plot :=
      if plot.length ≥ 4 then
        styleGraph (styleGraph plot 2 "理论压差" (0, false)) 3 "理论导数" (1, false)
      else plot
    if !w.obsTime.isEmpty then
      let residuals := calculateResiduals num w baseParams type ((w.sliderWeight : ℚ) / 100)
      let sse := calculateSumSquaredError residuals.1
      some ({ w with labelError := ErrorLabel.mse (sse / residuals.1.length), plot := plot },
            Event.forwardModel w.highPrecision baseParams (some targetT) :: residuals.2)
    else
      some ({ w with plot := plot },
            [Event.forwardModel w.highPrecision baseParams (some targetT)])

/-- The function `FittingWidget::updateModelCurve`: the widget afterwards and the
forward-model calls made; `none` when a call of `plotCurves` reads beyond the end of the
pressure sequence.  Without a model manager nothing changes.  Otherwise the fit button is
set to `!isSensitivityMode`, the plot keeps its first two graphs (the observed data), and
the sweep loop or the standard branch draws the model curves. -/
def updateModelCurve (num : Numerics) (qt : QtText) (fmt : NumberText) (w : FittingWidget) :
    Option (FittingWidget × List Event) :=
  match w.modelManager with
  | none => some (w, [])
  | some mm =>
    let rawTexts := getRawParamTexts w.paramChart
    let scan := scanRawTexts qt rawTexts
    let baseParams := baseDeps scan.baseParams
    let type := w.currentModelType
    let targetT := if w.obsTime.isEmpty then defaultTargetT num else w.obsTime
    let isSensitivityMode := decide (scan.sensitivityKey ≠ "")
    let label :=
      if isSensitivityMode then
        ErrorLabel.sensitivity scan.sensitivityKey scan.sensitivityValues.length
      else w.labelError
    let w := { w with btnRunFitEnabled := !isSensitivityMode, labelError := label,
                      plot := w.plot.take 2 }
    if isSensitivityMode then
      match sweepLoop fmt mm w.highPrecision type baseParams scan.sensitivityKey targetT
        0 scan.sensitivityValues w.plot with
      | none => none
      | some sweep => some ({ w with plot := sweep.1 }, sweep.2)
    else standardCurve num w mm baseParams targetT

/-- The two graphs the sweep loop adds for sweep index `i` and sweep value `val` when the
forward model returns the curve `(t, p, d)`: over the rows `r` with `t[r] > 1e-8` and
`p[r] > 1e-8`, the pressure values, solid, and the derivative values (`1e-10` where the
derivative is missing or not above `1e-8`), dashed, both in the palette colour `i mod 8`
and named after the sweep key and value. -/
def sweepPair (fmt : NumberText) (sensitivityKey : String) (i : Nat) (val : ℚ)
    (curve : ModelCurveData) : List Graph :=
  let rows := (List.range curve.1.length).filter
    (fun r => decide (curve.1.getD r 0 > 1e-8) && decide (curve.2.1.getD r 0 > 1e-8))
  [{ name := "P: " ++ legendSuffix fmt sensitivityKey val
     pen := some (i % 8, false)
     keys := rows.map (fun r => curve.1.getD r 0)
     values := rows.map (fun r => curve.2.1.getD r 0) },
   { name := "P\x27: " ++ legendSuffix fmt sensitivityKey val
     pen := some (i % 8, true)
     keys := rows.map (fun r => curve.1.getD r 0)
     values := rows.map (fun r =>
       if r < curve.2.2.length ∧ curve.2.2.getD r 0 > 1e-8 then curve.2.2.getD r 0
       else 1e-10) }]

/-! ## Observed data -/

/-- The data model of the data editor as `MainWindow::transferDataToFitting` reads it:
`data r c` is the value of `index(r, c).data().toDouble()` at a valid index. -/
structure DataModel where
  rowCount : Nat
  columnCount : Nat
  data : Nat → Nat → ℚ

/-- The test `model->index(r, c).isValid()`. -/
def DataModel.indexValid (m : DataModel) (r c : Nat) : Bool :=
  decide (r < m.rowCount) && decide (c < m.columnCount)

/-- The value `model->index(r, c).data().toDouble()`: an invalid index has no data and
reads as `0`. -/
def DataModel.cellDouble (m : DataModel) (r c : Nat) : ℚ :=
  if m.indexValid r c then m.data r c else 0

/-- The state of `MainWindow` that `transferDataToFitting` reads: whether the fitting page
exists, and the data editor (`none` when the pointer is null) with its data model. -/
structure MainWindow where
  hasFittingPage : Bool
  dataEditorWidget : Option (Option DataModel)

/-- The first loop of `transferDataToFitting`: the pressure of the first row whose
pressure exceeds `1e-6` in absolute value, `0.0` when there is none. -/
def initialPressureOf (m : DataModel) : ℚ :=
  match (List.range m.rowCount).find?
      (fun r => m.indexValid r 1 && decide (|m.cellDouble r 1| > 1e-6)) with
  | some r => m.cellDouble r 1
  | none => 0

/-- The body of the second loop of `transferDataToFitting` for row `r`. -/
def transferStep (m : DataModel) (p_initial : ℚ) (acc : List ℚ × List ℚ) (r : Nat) :
    List ℚ × List ℚ :=
  let t := m.cellDouble r 0
  let p_raw := m.cellDouble r 1
  if t > 0 then (acc.1 ++ [t], acc.2 ++ [|p_raw - p_initial|]) else acc

/-- The derivative `transferDataToFitting` computes: `dVec` has the size of `tVec`, is `0`
at both ends, and holds the weighted slope at the interior points when there are more
than two points. -/
def transferDerivative (num : Numerics) (tVec pVec : List ℚ) : List ℚ :=
  (List.range tVec.length).map (fun i =>
    if tVec.length > 2 ∧ 1 ≤ i ∧ i < tVec.length - 1 then
      let lnt1 := num.log (tVec.getD (i - 1) 0)
      let lnt2 := num.log (tVec.getD i 0)
      let lnt3 := num.log (tVec.getD (i + 1) 0)
      if |lnt2 - lnt1| < 1e-9 ∨ |lnt3 - lnt2| < 1e-9 then 0
      else
        let d1 := (pVec.getD i 0 - pVec.getD (i - 1) 0) / (lnt2 - lnt1)
        let d2 := (pVec.getD (i + 1) 0 - pVec.getD i 0) / (lnt3 - lnt2)
        let w1 := (lnt3 - lnt2) / (lnt3 - lnt1)
        let w2 := (lnt2 - lnt1) / (lnt3 - lnt1)
        d1 * w1 + d2 * w2
    else 0)

/-- The function `MainWindow::transferDataToFitting`: the three sequences handed to
`setObservedDataToCurrent`, or `none` when the function returns before the call. -/
def transferDataToFitting (num : Numerics) (mw : MainWindow) :
    Option (List ℚ × List ℚ × List ℚ) :=
  if !mw.hasFittingPage then none
  else match mw.dataEditorWidget with
    | none => none
    | some none => none
    | some (some model) =>
      if model.rowCount = 0 then none
      else
        let p_initial := initialPressureOf model
        let tp := (List.range model.rowCount).foldl (transferStep model p_initial) ([], [])
        some (tp.1, tp.2, transferDerivative num tp.1 tp.2)

/-- The preview model of the data dialog: `item r c` is the text of the item at a row
below `rowCount` and a column, `none` where `QStandardItemModel::item` returns null. -/
structure PreviewModel where
  rowCount : Nat
  item : Nat → Nat → Option String

/-- The call `sourceModel->item(i, c)` with `int` arguments: null for a negative row or
column and for a row beyond the last. -/
def PreviewModel.itemAt (m : PreviewModel) (i c : Int) : Option String :=
  if 0 ≤ i ∧ 0 ≤ c ∧ i < (m.rowCount : Int) then m.item i.toNat c.toNat else none

/-- The fields of `FittingDataSettings` that `on_btnLoadData_clicked` reads;
`isDrawdown` is the test `testType == Test_Drawdown`. -/
structure FittingDataSettings where
  skipRows : Int
  timeColIndex : Int
  pressureColIndex : Int
  derivColIndex : Int
  isDrawdown : Bool
  initialPressure : ℚ
  lSpacing : ℚ
  enableSmoothing : Bool
  smoothingSpan : Int

/-- The derivative calculators `on_btnLoadData_clicked` calls, taken as given. -/
structure DerivativeCalculators where
  calculateBourdetDerivative : List ℚ → List ℚ → ℚ → List ℚ
  smoothData : List ℚ → Int → List ℚ

/-- The call `QVector<double>::resize(n)`. -/
def resizeVec (v : List ℚ) (n : Nat) : List ℚ :=
  v.take n ++ List.replicate (n - v.length) 0

/-- The values `(t, p)` of the row `i` of the preview model when the extraction loop of
`on_btnLoadData_clicked` keeps the row: both items present, both texts numbers, and
`t > 0`. -/
def keptRow (qt : QtText) (settings : FittingDataSettings) (src : PreviewModel) (i : Int) :
    Option (ℚ × ℚ) :=
  match src.itemAt i settings.timeColIndex, src.itemAt i settings.pressureColIndex with
  | some textT, some textP =>
    match qt.toDouble textT, qt.toDouble textP with
    | some t, some p => if t > 0 then some (t, p) else none
    | _, _ => none
  | _, _ => none

/-- The value appended to `finalDeriv` for a kept row when a derivative column is set. -/
def derivCell (qt : QtText) (settings : FittingDataSettings) (src : PreviewModel) (i : Int) :
    ℚ :=
  match src.itemAt i settings.derivColIndex with
  | some textD => (qt.toDouble textD).getD 0
  | none => 0

/-- The body of the extraction loop of `on_btnLoadData_clicked` for row `i`, on
`(rawTime, rawPressureData, finalDeriv)`. -/
def extractStep (qt : QtText) (settings : FittingDataSettings) (src : PreviewModel)
    (acc : List ℚ × List ℚ × List ℚ) (i : Int) : List ℚ × List ℚ × List ℚ :=
  match keptRow qt settings src i with
  | some (t, p) =>
    (acc.1 ++ [t], acc.2.1 ++ [p],
     if settings.derivColIndex ≥ 0 then acc.2.2 ++ [derivCell qt settings src i]
     else acc.2.2)
  | none => acc

/-- The row indices of the loop `for (int i = skip; i < rows; ++i)`. -/
def loadRowIndices (skip : Int) (rows : Nat) : List Int :=
  (List.range ((rows : Int) - skip).toNat).map (fun k => skip + (k : Int))

/-- The pressure change of one raw pressure in `on_btnLoadData_clicked`. -/
def deltaPOf (settings : FittingDataSettings) (p_shutin p : ℚ) : ℚ :=
  if settings.isDrawdown then |settings.initialPressure - p| else |p - p_shutin|

/-- The three sequences `on_btnLoadData_clicked` hands to `setObservedData` for the
settings and the preview model of an accepted dialog, or `none` when the function
returns before the call. -/
def loadedObservedData (qt : QtText) (dc : DerivativeCalculators)
    (settings : FittingDataSettings) (sourceModel : Option PreviewModel) :
    Option (List ℚ × List ℚ × List ℚ) :=
  match sourceModel with
  | none => none
  | some src =>
    if src.rowCount = 0 then none
    else
      let ex := (loadRowIndices settings.skipRows src.rowCount).foldl
        (extractStep qt settings src) ([], [], [])
      let rawTime := ex.1
      let rawPressureData := ex.2.1
      if rawTime.isEmpty then none
      else
        let p_shutin := rawPressureData.headD 0
        let finalDeltaP := rawPressureData.map (deltaPOf settings p_shutin)
        let finalDeriv :=
          if settings.derivColIndex = -1 then
            let d := dc.calculateBourdetDerivative rawTime finalDeltaP settings.lSpacing
            if settings.enableSmoothing then dc.smoothData d settings.smoothingSpan else d
          else
            let d := if settings.enableSmoothing
              then dc.smoothData ex.2.2 settings.smoothingSpan else ex.2.2
            if d.length ≠ rawTime.length then resizeVec d rawTime.length else d
        some (rawTime, finalDeltaP, finalDeriv)

/-- The function `FittingWidget::setObservedData`: the three sequences are stored and the
two data graphs of the plot are given the rows with `t > 1e-8` and `deltaP > 1e-8`;
`none` when the loop over the rows reads `deltaP` beyond its end. -/
def setObservedData (w : FittingWidget) (t deltaP d : List ℚ) : Option FittingWidget :=
  match plotRows t deltaP with
  | none => none
  | some rows =>
    let vt := rows.map (fun i => t.getD i 0)
    let vp := rows.map (fun i => deltaP.getD i 0)
    let vd := rows.map
      (fun i => if i < d.length ∧ d.getD i 0 > 1e-8 then d.getD i 0 else 1e-10)
    let plot := modifyAt (fun g => { g with keys := vt, values := vd }) 1
      (modifyAt (fun g => { g with keys := vt, values := vp }) 0 w.plot)
    some { w with obsTime := t, obsDeltaP := deltaP, obsDerivative := d, plot := plot }

/-- The function `FittingWidget::on_btnLoadData_clicked`; `dlg` is `none` when the dialog
is not accepted and holds the settings and the preview model otherwise. -/
def on_btnLoadData_clicked (qt : QtText) (dc : DerivativeCalculators)
    (dlg : Option (FittingDataSettings × Option PreviewModel)) (w : FittingWidget) :
    Option FittingWidget :=
  match dlg with
  | none => some w
  | some (settings, sourceModel) =>
    match loadedObservedData qt dc settings sourceModel with
    | none => some w
    | some (t, deltaP, d) => setObservedData w t deltaP d

/-! ## Parameter store -/

/-- The step `resetParams` gives a parameter. -/
def defaultStep (name : String) (value : ℚ) : ℚ :=
  if name = "k" ∨ name = "kf" ∨ name = "km" then 1.0
  else if name = "S" then 0.1
  else if name = "C" ∨ name = "cD" then 0.01
  else if name = "phi" then 0.01
  else if value ≠ 0 then |value * 0.1| else 0.1

/-- The display name `getParamDisplayInfo` gives a parameter name. -/
def displayNameOf (name : String) : String :=
  if name = "k" then "渗透率"
  else if name = "h" then "有效厚度"
  else if name = "phi" then "孔隙度"
  else if name = "mu" then "流体粘度"
  else if name = "B" then "体积系数"
  else if name = "Ct" then "综合压缩系数"
  else if name = "rw" then "井筒半径"
  else if name = "q" then "测试产量"
  else if name = "C" then "井筒储存系数"
  else if name = "cD" then "无因次井储"
  else if name = "S" then "表皮系数"
  else if name = "L" then "水平井长"
  else if name = "Lf" then "裂缝半长"
  else if name = "nf" then "裂缝条数"
  else if name = "kf" then "裂缝渗透率"
  else if name = "km" then "基质渗透率"
  else if name = "reD" then "无因次泄油半径"
  else if name = "lambda1" then "窜流系数"
  else if name = "omega1" then "储容比1"
  else if name = "omega2" then "储容比2"
  else if name = "gamaD" then "压敏系数"
  else if name = "rmD" then "无因次内半径"
  else if name = "LfD" then "无因次缝长"
  else name

/-- The parameter the loop body of `resetParams` builds from an entry of the default
map. -/
def defaultParameter (name : String) (value : ℚ) : FitParameter :=
  { name := name
    displayName := displayNameOf name
    value := value
    isFit := false
    min := if value > 0 then value * 0.01 else 0.0
    max := if value > 0 then value * 100.0 else 100.0
    isVisible := true
    step := defaultStep name value }

/-- The row `addRowToTable` adds for a parameter. -/
def tableRowOf (fmt : NumberText) (p : FitParameter) : TableRow :=
  { key := some p.name, text := some (fmt.g6 p.value) }

/-- The function `FittingParameterChart::refreshParamTable`: the visible fit-enabled
parameters first, then the other visible ones. -/
def refreshParamTable (fmt : NumberText) (c : FittingParameterChart) :
    FittingParameterChart :=
  match c.table with
  | none => c
  | some _ =>
    let fitRows := (c.params.filter (fun p => p.isVisible && p.isFit)).map (tableRowOf fmt)
    let otherRows :=
      (c.params.filter (fun p => p.isVisible && !p.isFit)).map (tableRowOf fmt)
    { c with table := some (fitRows ++ otherRows) }

/-- The function `FittingParameterChart::resetParams`. -/
def resetParams (fmt : NumberText) (c : FittingParameterChart) (type : ModelType) :
    FittingParameterChart :=
  match c.modelManager with
  | none => c
  | some mm =>
    let defaults := (mm.getDefaultParameters type).map (fun kv => defaultParameter kv.1 kv.2)
    refreshParamTable fmt { c with params := defaults }

/-- The function `FittingParameterChart::setParameters`. -/
def setParameters (fmt : NumberText) (c : FittingParameterChart)
    (params : List FitParameter) : FittingParameterChart :=
  refreshParamTable fmt { c with params := params }

/-- The function `FittingParameterChart::switchModel`. -/
def switchModel (fmt : NumberText) (c : FittingParameterChart) (newType : ModelType) :
    FittingParameterChart :=
  let oldValues := c.params.foldl (fun m p => QMap.insert m p.name p.value) ([] : QMap ℚ)
  let c1 := resetParams fmt c newType
  let params := c1.params.map (fun p =>
    if QMap.contains oldValues p.name then { p with value := QMap.value oldValues p.name }
    else p)
  refreshParamTable fmt { c1 with params := params }

/-- A wheel event on the viewport of the table: the row and column of the item under the
cursor (`none` when there is none) and `angleDelta().y()`. -/
structure WheelEvent where
  item : Option (Nat × Nat)
  angleDeltaY : Int

/-- The call `item->setText(text)` on the value cell of a row. -/
def setRowText (text : String) (row : TableRow) : TableRow :=
  { row with text := some text }

/-- The function `FittingParameterChart::eventFilter` for a wheel event on the viewport
of the table: the chart afterwards and whether the event was consumed (and
`parameterChangedByWheel` emitted). -/
def eventFilter (qt : QtText) (fmt : NumberText) (c : FittingParameterChart)
    (e : WheelEvent) : FittingParameterChart × Bool :=
  match c.table, e.item with
  | some rows, some (row, column) =>
    if column = 2 then
      match rows.get? row with
      | some r =>
        match r.text, r.key with
        | some currentText, some paramName =>
          match c.params.find? (fun p => p.name == paramName) with
          | some targetParam =>
            if currentText.toList.contains asciiComma
                || currentText.toList.contains fullWidthComma then (c, false)
            else
              match qt.toDouble currentText with
              | some currentVal =>
                let steps := Int.tdiv e.angleDeltaY 120
                let newVal := currentVal + (steps : ℚ) * targetParam.step
                let table := modifyAt (setRowText (fmt.g6 newVal)) row rows
                let params := setFirstNamed paramName newVal c.params
                ({ c with table := some table, params := params }, true)
              | none => (c, false)
          | none => (c, false)
        | _, _ => (c, false)
      | none => (c, false)
    else (c, false)
  | _, _ => (c, false)

/-! ## Saved state -/

/-- An element of the array `parameters` of a saved state, as `loadFittingState` reads
it: the results of `toString`, `toDouble` and `toBool` on the members, and `isVisible`
and `step` only when the object contains them. -/
structure JsonParam where
  name : String
  value : ℚ
  isFit : Bool
  min : ℚ
  max : ℚ
  isVisible : Option Bool
  step : Option ℚ
  deriving DecidableEq

/-- The members of a saved state that concern the parameters: `modelType` and
`parameters`, each only when the root object contains it; `isEmpty` is
`root.isEmpty()`. -/
structure JsonState where
  isEmpty : Bool
  modelType : Option ModelType
  parameters : Option (List JsonParam)

/-- The object `getJsonState` writes for a parameter. -/
def jsonOfParam (p : FitParameter) : JsonParam :=
  { name := p.name, value := p.value, isFit := p.isFit, min := p.min, max := p.max,
    isVisible := some p.isVisible, step := some p.step }

/-- The function `FittingWidget::getJsonState`: the widget afterwards (the parameters are
first updated from the table) and the members of the root object that concern the
parameters; `none` when `updateParamsFromTable` has no defined result. -/
def getJsonState (qt : QtText) (w : FittingWidget) : Option (FittingWidget × JsonState) :=
  match updateParamsFromTable qt w.paramChart with
  | none => none
  | some chart =>
    some ({ w with paramChart := chart },
          { isEmpty := false
            modelType := some w.currentModelType
            parameters := some (chart.params.map jsonOfParam) })

/-- The assignments `loadFittingState` makes to a parameter from the object of the same
name. -/
def assignJson (pObj : JsonParam) (p : FitParameter) : FitParameter :=
  { p with
    value := pObj.value
    isFit := pObj.isFit
    min := pObj.min
    max := pObj.max
    isVisible := match pObj.isVisible with
      | some b => b
      | none => true
    step := match pObj.step with
      | some s => s
      | none => p.step }

/-- The inner loop of `loadFittingState`: the first parameter with the name of the object
takes its members. -/
def loadParam (pObj : JsonParam) : List FitParameter → List FitParameter
  | [] => []
  | p :: ps => if p.name = pObj.name then assignJson pObj p :: ps
               else p :: loadParam pObj ps

/-- The function `FittingWidget::loadFittingState` up to the call of `setParameters`: the
model type and the parameters.  The rest of the function sets the slider, the observed
data, the model curve and the plot range and leaves the parameters as they are. -/
def loadFittingState (fmt : NumberText) (w : FittingWidget) (root : JsonState) :
    FittingWidget :=
  if root.isEmpty then w
  else
    let type := match root.modelType with
      | some t => t
      | none => w.currentModelType
    let chart := resetParams fmt w.paramChart type
    let chart := match root.parameters with
      | some arr =>
        setParameters fmt chart (arr.foldl (fun currentParams pObj =>
          loadParam pObj currentParams) chart.params)
      | none => chart
    { w with currentModelType := type, paramChart := chart }

/-! ## Worked inputs -/

/-- Stand-ins for the library functions in the worked inputs: `log x = x - 1` (so that
`log 1 = 0`), `log10` and `pow 10` inverse to each other, and the exact solution of a
diagonal system for the solver. -/
def exampleNumerics : Numerics :=
  { log := fun x => x - 1
    log10 := fun x => x
    pow := fun _ y => y
    ldltSolve := fun A b => (List.range b.length).map (fun i => b.getD i 0 / matEntry A i i) }

/-- The forward model of the worked inputs: one pressure value, `1` when the skin `S` is
positive and `2` otherwise, and no derivative value. -/
def exampleModel : ModelManager :=
  { calculateTheoreticalCurve := fun _ _ m t =>
      (t.getD [], [if QMap.value m "S" > 0 then 1 else 2], []) }

/-- A parameter list with the derived `LfD` and the skin `S` fit-enabled; every value
lies in the bounds of its parameter. -/
def exampleParams : List FitParameter :=
  [{ name := "L", value := 2 },
   { name := "Lf", value := 1 },
   { name := "LfD", value := 1 / 20, isFit := true, min := 0, max := 1 / 10 },
   { name := "S", value := 0, isFit := true, min := -10, max := 10 }]

/-- A widget with one observation `(t, dp) = (1, 1)` and a model manager. -/
def exampleWidget : FittingWidget :=
  { modelManager := some exampleModel
    highPrecision := true
    obsTime := [1]
    obsDeltaP := [1]
    obsDerivative := [1]
    isFitting := false
    stopRequested := false
    currentModelType := 0
    sliderWeight := 100
    btnRunFitEnabled := true
    paramChart := { table := some [], params := exampleParams } }

/-- The run of the worked input: never cancelled, weight 1. -/
def exampleRun : List Event :=
  runLevenbergMarquardtOptimization exampleNumerics exampleWidget (fun _ => false) 0
    exampleParams 1

/-- A parameter list in which no parameter is fit-enabled. -/
def exampleParamsNoFit : List FitParameter :=
  [{ name := "L", value := 2 }, { name := "S", value := 0, min := -10, max := 10 }]

/-- The run of the worked input without a fit-enabled parameter. -/
def exampleRunNoFit : List Event :=
  runLevenbergMarquardtOptimization exampleNumerics exampleWidget (fun _ => false) 0
    exampleParamsNoFit 1

/-- The map the worked run accepts in its first trial step. -/
def exampleAcceptedMap : QMap ℚ :=
  [("L", 2), ("Lf", 1), ("LfD", 1 / 2), ("S", 500000 / 2525000001)]

/-- The map the Jacobian builder of the worked run passes to the forward model for the
upward perturbation of `LfD`. -/
def examplePerturbedMap : QMap ℚ :=
  [("L", 2), ("Lf", 1), ("LfD", 51 / 100), ("S", 0)]

/-- A stand-in for `QString::toDouble` in the worked inputs: the value of a non-empty
string of decimal digits, failure on any other text. -/
def exampleDigits : Nat → List Char → Option Nat
  | acc, [] => some acc
  | acc, c :: cs =>
    if 48 ≤ c.toNat ∧ c.toNat ≤ 57 then exampleDigits (acc * 10 + (c.toNat - 48)) cs
    else none

/-- Stand-ins for the `QString` functions in the worked inputs: `toDouble` reads
non-empty strings of decimal digits, `trimmed` finds nothing to trim. -/
def exampleQt : QtText :=
  { toDouble := fun s =>
      if s.toList = [] then none else (exampleDigits 0 s.toList).map (fun n => (n : ℚ))
    trimmed := fun s => s }

/-- The worked widget with a table whose only row holds the text `,` for the parameter
`S`: no fit in flight, observed data loaded. -/
def exampleWidgetCommaCell : FittingWidget :=
  { exampleWidget with
    paramChart := { table := some [{ key := some "S", text := some "," }],
                    params := exampleParams } }

/-- The test under which the loop of `updateModelCurve` over the raw texts locks an
entry while `sensitivityKey` is still empty: more than one parsed value, and a key that
is not itself the empty string the loop tests for. -/
def isSweepCandidate (qt : QtText) (it : String × String) : Bool :=
  decide (1 < (parseSensitivityValues qt it.2).length) && decide (it.1 ≠ "")

/-- A forward model that returns no pressure value when the skin `S` is positive, and the
pressure `2` otherwise: its residual vector changes length under the upward perturbation
of `S = 0`. -/
def exampleModelUnstable : ModelManager :=
  { calculateTheoreticalCurve := fun _ _ m t =>
      (t.getD [], if QMap.value m "S" > 0 then [] else [2], []) }

/-- The worked widget with the unstable forward model. -/
def exampleWidgetUnstable : FittingWidget :=
  { exampleWidget with modelManager := some exampleModelUnstable }

/-- The state from which the first outer iteration of the worked run starts. -/
def exampleState : LMState :=
  initialState exampleNumerics (lowPrecision exampleWidget) 0 exampleParams 1

/-- The worked widget with the table of scenario D: the text `1,2,4` on the skin `S`, a
single value on `k`, and the two graphs of the observed data in the plot. -/
def exampleWidgetSweep : FittingWidget :=
  { exampleWidget with
    paramChart := { table := some [{ key := some "S", text := some "1,2,4" },
                                   { key := some "k", text := some "3" }],
                    params := exampleParams }
    plot := [{ name := "obsP" }, { name := "obsD" }] }

/-- Stand-ins for the number formats in the worked inputs. -/
def exampleFmt : NumberText :=
  { g6 := fun _ => "", arg := fun _ => "" }

/-- A data model of three rows `(0, 5)`, `(1, 5)`, `(2, 7)`: time in column 0, pressure
in column 1. -/
def exampleDataModel : DataModel :=
  { rowCount := 3
    columnCount := 2
    data := fun r c => (([[0, 5], [1, 5], [2, 7]] : List (List ℚ)).getD r []).getD c 0 }

/-- A main window with the fitting page and the data model of the worked input. -/
def exampleMainWindow : MainWindow :=
  { hasFittingPage := true, dataEditorWidget := some (some exampleDataModel) }

/-- A preview model of three rows with the texts `0 5`, `1 5`, `x 6`, `2 7`. -/
def examplePreviewModel : PreviewModel :=
  { rowCount := 4
    item := fun r c => (([[some "0", some "5"], [some "1", some "5"],
      [some "x", some "6"], [some "2", some "7"]] : List (List (Option String))).getD r
        []).getD c none }

/-- Settings of the data dialog in the worked input: no row skipped, time in column 0,
pressure in column 1, no derivative column, a build-up test. -/
def exampleSettings : FittingDataSettings :=
  { skipRows := 0, timeColIndex := 0, pressureColIndex := 1, derivColIndex := -1,
    isDrawdown := false, initialPressure := 0, lSpacing := 0, enableSmoothing := false,
    smoothingSpan := 0 }

/-- Stand-ins for the derivative calculators in the worked input. -/
def exampleCalculators : DerivativeCalculators :=
  { calculateBourdetDerivative := fun t _ _ => t.map (fun _ => 0)
    smoothData := fun d _ => d }

/-- A model manager with two model types: type 0 with the defaults `S = -1, k = 1` and
every other type with the defaults `S = 0, k = 5000`. -/
def exampleModelDefaults : ModelManager :=
  { exampleModel with
    getDefaultParameters := fun type =>
      if type = 0 then [("S", -1), ("k", 1)] else [("S", 0), ("k", 5000)] }

/-- A chart with that model manager, an empty table and no parameter yet. -/
def exampleChartEmpty : FittingParameterChart :=
  { table := some [], params := [], modelManager := some exampleModelDefaults }

/-- A chart whose parameters lie in their bounds and whose table holds the text `50` for
the skin `S`, which has the bounds `[-10, 10]`. -/
def exampleChartEdited : FittingParameterChart :=
  { table := some [{ key := some "S", text := some "50" }], params := exampleParams }

/-- A chart with the skin `S` at its upper bound `10`, step `0.1`, and the text `10` in
its value cell. -/
def exampleChartWheel : FittingParameterChart :=
  { table := some [{ key := some "S", text := some "10" }]
    params := [{ name := "S", value := 10, isFit := true, min := -10, max := 10 }] }

/-- The test `min <= value <= max` on a parameter. -/
def inBounds (p : FitParameter) : Bool :=
  decide (p.min ≤ p.value) && decide (p.value ≤ p.max)

/-- A stand-in for `QString::toDouble` on decimal texts: digits, optionally a point and
more digits, with at least one digit in all. -/
def exampleDecimal (s : List Char) : Option ℚ :=
  let intPart := s.takeWhile (fun c => c != Char.ofNat 46)
  let fracPart := (s.dropWhile (fun c => c != Char.ofNat 46)).drop 1
  if intPart = [] ∧ fracPart = [] then none
  else
    match exampleDigits 0 intPart, exampleDigits 0 fracPart with
    | some a, some b => some ((a : ℚ) + (b : ℚ) / 10 ^ fracPart.length)
    | _, _ => none

/-- Stand-ins for the `QString` functions that read decimal texts. -/
def exampleQtDecimal : QtText :=
  { toDouble := fun s => exampleDecimal s.toList
    trimmed := fun s => s }

/-- A stand-in for the number formats in which `QString::number(12.3456789, 'g', 6)` is
the text `12.3457`, its six significant digits. -/
def exampleFmtG6 : NumberText :=
  { g6 := fun v => if v = 12.3456789 then "12.3457" else ""
    arg := fun _ => "" }

/-- A model manager whose default map holds `k = 12.3456789` for every model type. -/
def exampleModelK : ModelManager :=
  { exampleModel with getDefaultParameters := fun _ => [("k", 12.3456789)] }

/-- The worked widget after `resetParams` with that model manager: the parameter `k`
holds `12.3456789` and its table cell shows `12.3457`. -/
def exampleWidgetDigits : FittingWidget :=
  { exampleWidget with
    paramChart :=
      { table := some [{ key := some "k", text := some "12.3457" }]
        params := [defaultParameter "k" 12.3456789]
        modelManager := some exampleModelK } }

/-- A forward model whose pressure sequence changes length with the skin `S`: two values
`2 - S` up to `S = 1/1000`, one value `3/2` above; no derivative value. -/
def exampleModelShrinking : ModelManager :=
  { calculateTheoreticalCurve := fun _ _ m t =>
      (t.getD [],
       if QMap.value m "S" > 1 / 1000 then [3 / 2]
       else [2 - QMap.value m "S", 2 - QMap.value m "S"],
       []) }

/-- A widget with two observations `(1, 1)` and `(2, 1)`, no observed derivative, and the
forward model whose output changes length. -/
def exampleWidgetShrinking : FittingWidget :=
  { exampleWidget with
    modelManager := some exampleModelShrinking
    obsTime := [1, 2]
    obsDeltaP := [1, 1]
    obsDerivative := [] }

/-- A parameter list with the skin `S` alone, fit-enabled. -/
def exampleParamsSkin : List FitParameter :=
  [{ name := "S", value := 0, isFit := true, min := -10, max := 10 }]

/-- The run on the forward model whose output changes length: never cancelled, weight 1. -/
def exampleRunShrinking : List Event :=
  runLevenbergMarquardtOptimization exampleNumerics exampleWidgetShrinking (fun _ => false) 0
    exampleParamsSkin 1

/-- The worked widget with a table that holds the fracture half-length `Lf` alone, with
the text `1,2`: the model has no parameter `L`. -/
def exampleWidgetSweepLf : FittingWidget :=
  { exampleWidget with
    paramChart := { table := some [{ key := some "Lf", text := some "1,2" }],
                    params := [{ name := "Lf", value := 1 }] } }

/-- A parameter table with the rows `k`, text `3,4`, and `S`, text `1,2,4`: two texts
with more than one value. -/
def exampleChartTwoSweeps : FittingParameterChart :=
  { table := some [{ key := some "k", text := some "3,4" },
                   { key := some "S", text := some "1,2,4" }],
    params := exampleParams }

/-- The worked widget with single-valued texts on `S` and `k`, the two graphs of the
observed data in the plot and the fit button disabled. -/
def exampleWidgetSingle : FittingWidget :=
  { exampleWidgetSweep with
    paramChart := { table := some [{ key := some "S", text := some "1" },
                                   { key := some "k", text := some "3" }],
                    params := exampleParams }
    btnRunFitEnabled := false }

/-- A forward model that returns the pressure `2` for every parameter map: no trial step
lowers the SSE. -/
def exampleModelConstant : ModelManager :=
  { calculateTheoreticalCurve := fun _ _ _ t => (t.getD [], [2], []) }

/-- The worked widget with the constant forward model. -/
def exampleWidgetConstant : FittingWidget :=
  { exampleWidget with modelManager := some exampleModelConstant }

/-- The run on the constant forward model with the skin fit-enabled: never cancelled,
weight 1. -/
def exampleRunStalled : List Event :=
  runLevenbergMarquardtOptimization exampleNumerics exampleWidgetConstant (fun _ => false) 0
    exampleParamsSkin 1

/-! # Properties -/

/-! ## QMap lookups -/

theorem QMap.lookup_insert_self {β : Type} (m : QMap β) (k : String) (v : β) :
    List.lookup k (QMap.insert m k v) = some v := by
  induction m with
  | nil => simp [QMap.insert, List.lookup]
  | cons e rest ih =>
    obtain ⟨k', v'⟩ := e
    unfold QMap.insert
    by_cases h1 : k < k'
    · simp [h1, List.lookup]
    · by_cases h2 : k = k'
      · simp [h1, h2, List.lookup]
      · have hb : (k == k') = false := by simpa using h2
        simp [h1, h2, List.lookup, ih, hb]

theorem QMap.lookup_insert_ne {β : Type} (m : QMap β) (k k'' : String) (v : β) (hne : k'' ≠ k) :
    List.lookup k'' (QMap.insert m k v) = List.lookup k'' m := by
  have hb : (k'' == k) = false := by simpa using hne
  induction m with
  | nil => simp [QMap.insert, List.lookup, hb]
  | cons e rest ih =>
    obtain ⟨k', v'⟩ := e
    unfold QMap.insert
    by_cases h1 : k < k'
    · simp [h1, List.lookup, hb]
    · by_cases h2 : k = k'
      · subst h2
        simp [h1, List.lookup, hb]
      · simp only [h1, h2, if_false, List.lookup]
        rw [ih]

theorem QMap.value_insert_self (m : QMap ℚ) (k : String) (v : ℚ) :
    QMap.value (QMap.insert m k v) k = v := by
  simp [QMap.value, QMap.lookup_insert_self]

theorem QMap.value_insert_ne (m : QMap ℚ) (k k'' : String) (v : ℚ) (hne : k'' ≠ k) :
    QMap.value (QMap.insert m k v) k'' = QMap.value m k'' := by
  simp [QMap.value, QMap.lookup_insert_ne m k k'' v hne]

theorem QMap.contains_insert_self {β : Type} (m : QMap β) (k : String) (v : β) :
    QMap.contains (QMap.insert m k v) k = true := by
  simp [QMap.contains, QMap.lookup_insert_self]

theorem QMap.contains_insert_ne {β : Type} (m : QMap β) (k k'' : String) (v : β)
    (hne : k'' ≠ k) :
    QMap.contains (QMap.insert m k v) k'' = QMap.contains m k'' := by
  simp [QMap.contains, QMap.lookup_insert_ne m k k'' v hne]

/-! ## Residual evaluator -/

theorem residualLoop_eq (logf : ℚ → ℚ) (obs cal : List ℚ) (wt : ℚ) (n i : Nat) (r : List ℚ) :
    residualLoop logf obs cal wt n i r =
      r ++ (List.range' i n).map (fun k =>
        if obs.getD k 0 > 1e-10 ∧ cal.getD k 0 > 1e-10
        then (logf (obs.getD k 0) - logf (cal.getD k 0)) * wt else 0) := by
  induction n generalizing i r with
  | zero => simp [residualLoop]
  | succ n ih =>
    simp only [residualLoop, ih, List.range'_succ, List.map_cons, List.append_assoc,
      List.singleton_append]

theorem calculateResiduals_eq (num : Numerics) (w : FittingWidget) (params : QMap ℚ)
    (modelType : ModelType) (weight : ℚ) (mm : ModelManager)
    (hmm : w.modelManager = some mm) (hobs : w.obsTime ≠ []) :
    (calculateResiduals num w params modelType weight).1 =
      (List.range (Nat.min w.obsDeltaP.length
          (mm.calculateTheoreticalCurve w.highPrecision modelType params
            (some w.obsTime)).2.1.length)).map (fun k =>
        if w.obsDeltaP.getD k 0 > 1e-10 ∧
            (mm.calculateTheoreticalCurve w.highPrecision modelType params
              (some w.obsTime)).2.1.getD k 0 > 1e-10
        then (num.log (w.obsDeltaP.getD k 0) -
            num.log ((mm.calculateTheoreticalCurve w.highPrecision modelType params
              (some w.obsTime)).2.1.getD k 0)) * weight else 0) ++
      (List.range (Nat.min (Nat.min w.obsDerivative.length
          (mm.calculateTheoreticalCurve w.highPrecision modelType params
            (some w.obsTime)).2.2.length)
          (Nat.min w.obsDeltaP.length
            (mm.calculateTheoreticalCurve w.highPrecision modelType params
              (some w.obsTime)).2.1.length))).map (fun k =>
        if w.obsDerivative.getD k 0 > 1e-10 ∧
            (mm.calculateTheoreticalCurve w.highPrecision modelType params
              (some w.obsTime)).2.2.getD k 0 > 1e-10
        then (num.log (w.obsDerivative.getD k 0) -
            num.log ((mm.calculateTheoreticalCurve w.highPrecision modelType params
              (some w.obsTime)).2.2.getD k 0)) * (1 - weight) else 0) := by
  have hobs2 : w.obsTime.isEmpty = false := by
    cases h : w.obsTime with
    | nil => exact absurd h hobs
    | cons a t => rfl
  simp only [calculateResiduals, hmm, hobs2, residualLoop_eq, List.nil_append,
    List.range_eq_range']
  simp

/-- C5: with a model manager and a non-empty observed time, for the forward-model output
`(pCal, dCal)`, `count = min(|obsP|, |pCal|)` and `dCount = min(|obsD|, |dCal|, count)`,
the residual vector has length `count + dCount`; entry `i < count` is
`(ln obsP[i] - ln pCal[i]) * w` when both values exceed `1e-10` and `0` otherwise; entry
`count + i`, `i < dCount`, is `(ln obsD[i] - ln dCal[i]) * (1 - w)` when both values exceed
`1e-10` and `0` otherwise; a non-positive observed or computed value gives residual `0`. -/
theorem calculateResiduals_reference (num : Numerics) (w : FittingWidget) (params : QMap ℚ)
    (modelType : ModelType) (weight : ℚ) (mm : ModelManager)
    (hmm : w.modelManager = some mm) (hobs : w.obsTime ≠ []) :
    let pCal := (mm.calculateTheoreticalCurve w.highPrecision modelType params
      (some w.obsTime)).2.1
    let dCal := (mm.calculateTheoreticalCurve w.highPrecision modelType params
      (some w.obsTime)).2.2
    let count := Nat.min w.obsDeltaP.length pCal.length
    let dCount := Nat.min (Nat.min w.obsDerivative.length dCal.length) count
    let r := (calculateResiduals num w params modelType weight).1
    r.length = count + dCount ∧
    (∀ i, i < count → r[i]? = some
      (if w.obsDeltaP.getD i 0 > 1e-10 ∧ pCal.getD i 0 > 1e-10
       then (num.log (w.obsDeltaP.getD i 0) - num.log (pCal.getD i 0)) * weight else 0)) ∧
    (∀ i, i < dCount → r[count + i]? = some
      (if w.obsDerivative.getD i 0 > 1e-10 ∧ dCal.getD i 0 > 1e-10
       then (num.log (w.obsDerivative.getD i 0) - num.log (dCal.getD i 0)) * (1 - weight)
       else 0)) ∧
    (∀ i, i < count → (w.obsDeltaP.getD i 0 ≤ 0 ∨ pCal.getD i 0 ≤ 0) → r[i]? = some 0) ∧
    (∀ i, i < dCount → (w.obsDerivative.getD i 0 ≤ 0 ∨ dCal.getD i 0 ≤ 0) →
      r[count + i]? = some 0) := by
  intro pCal dCal count dCount r
  have hr := calculateResiduals_eq num w params modelType weight mm hmm hobs
  have hP : ∀ i, i < count → r[i]? = some
      (if w.obsDeltaP.getD i 0 > 1e-10 ∧ pCal.getD i 0 > 1e-10
       then (num.log (w.obsDeltaP.getD i 0) - num.log (pCal.getD i 0)) * weight else 0) := by
    intro i hi
    show (calculateResiduals num w params modelType weight).1[i]? = _
    rw [hr, List.getElem?_append_left (by rw [List.length_map, List.length_range]; exact hi)]
    simp only [List.getElem?_map, List.getElem?_range hi, Option.map_some']
  have hD : ∀ i, i < dCount → r[count + i]? = some
      (if w.obsDerivative.getD i 0 > 1e-10 ∧ dCal.getD i 0 > 1e-10
       then (num.log (w.obsDerivative.getD i 0) - num.log (dCal.getD i 0)) * (1 - weight)
       else 0) := by
    intro i hi
    show (calculateResiduals num w params modelType weight).1[count + i]? = _
    rw [hr, List.getElem?_append_right (by simp [count, pCal])]
    simp only [List.length_map, List.length_range]
    have hsub : count + i - count = i := by omega
    simp only [count, pCal] at hsub
    rw [hsub]
    simp only [List.getElem?_map, List.getElem?_range hi, Option.map_some']
  refine ⟨?_, hP, hD, ?_, ?_⟩
  · show (calculateResiduals num w params modelType weight).1.length = _
    rw [hr]
    simp [count, dCount, pCal, dCal]
  · intro i hi hle
    rw [hP i hi]
    have hneg : ¬ (w.obsDeltaP.getD i 0 > 1e-10 ∧ pCal.getD i 0 > 1e-10) := by
      intro hh
      have e1 : (0 : ℚ) < 1e-10 := by norm_num
      rcases hle with h | h
      · exact absurd (lt_trans e1 hh.1) (not_lt.mpr h)
      · exact absurd (lt_trans e1 hh.2) (not_lt.mpr h)
    rw [if_neg hneg]
  · intro i hi hle
    rw [hD i hi]
    have hneg : ¬ (w.obsDerivative.getD i 0 > 1e-10 ∧ dCal.getD i 0 > 1e-10) := by
      intro hh
      have e1 : (0 : ℚ) < 1e-10 := by norm_num
      rcases hle with h | h
      · exact absurd (lt_trans e1 hh.1) (not_lt.mpr h)
      · exact absurd (lt_trans e1 hh.2) (not_lt.mpr h)
    rw [if_neg hneg]

/-! ## Events of the residual evaluator and of the Jacobian builder -/

theorem calculateResiduals_events (num : Numerics) (w : FittingWidget) (params : QMap ℚ)
    (modelType : ModelType) (weight : ℚ) :
    ∀ e ∈ (calculateResiduals num w params modelType weight).2, e.isForwardModel = true := by
  intro e he
  unfold calculateResiduals at he
  cases hm : w.modelManager with
  | none => simp [hm] at he
  | some mm =>
    by_cases ho : w.obsTime.isEmpty = true
    · simp [hm, ho] at he
    · simp only [hm, ho] at he
      simp at he
      subst he
      rfl

theorem jacobianColumn_events (num : Numerics) (w : FittingWidget) (params : QMap ℚ)
    (nRes : Nat) (modelType : ModelType) (currentFitParams : List FitParameter) (weight : ℚ)
    (idx : Nat) :
    ∀ e ∈ (jacobianColumn num w params nRes modelType currentFitParams weight idx).2,
      e.isForwardModel = true := by
  intro e he
  simp only [jacobianColumn, List.mem_append] at he
  rcases he with he | he
  · exact calculateResiduals_events _ _ _ _ _ e he
  · exact calculateResiduals_events _ _ _ _ _ e he

theorem computeJacobian_events (num : Numerics) (w : FittingWidget) (params : QMap ℚ)
    (baseResiduals : List ℚ) (fitIndices : List Nat) (modelType : ModelType)
    (currentFitParams : List FitParameter) (weight : ℚ) :
    ∀ e ∈ (computeJacobian num w params baseResiduals fitIndices modelType currentFitParams
      weight).2, e.isForwardModel = true := by
  intro e he
  simp only [computeJacobian, List.mem_flatten, List.mem_map] at he
  obtain ⟨l, ⟨c, ⟨idx, _, hc⟩, hl⟩, hel⟩ := he
  subst hc; subst hl
  exact jacobianColumn_events _ _ _ _ _ _ _ _ e hel

theorem filterMap_modelCalls {β : Type} (f : Event → Option β) (evs : List Event)
    (hf : ∀ hp m t, f (Event.forwardModel hp m t) = none)
    (h : ∀ e ∈ evs, e.isForwardModel = true) : evs.filterMap f = [] := by
  rw [List.filterMap_eq_nil_iff]
  intro e he
  have hfm := h e he
  cases e with
  | forwardModel hp m t => exact hf hp m t
  | _ => simp [Event.isForwardModel] at hfm

/-! ## One step of the trial loop -/

theorem trialLoop_accept (num : Numerics) (w : FittingWidget) (mm : ModelManager)
    (modelType : ModelType) (params : List FitParameter) (weight : ℚ) (fitIndices : List Nat)
    (H : List (List ℚ)) (g : List ℚ) (nRes iter n tryIter : Nat) (st : LMState)
    (h : calculateSumSquaredError (calculateResiduals num w
      (trialMapOf num params fitIndices H g st) modelType weight).1 < st.currentSSE) :
    trialLoop num w mm modelType params weight fitIndices H g nRes iter (n + 1) tryIter st =
      ((calculateResiduals num w (trialMapOf num params fitIndices H g st) modelType
          weight).2 ++
        [Event.trialStep iter tryIter (trialMapOf num params fitIndices H g st)
           (calculateSumSquaredError (calculateResiduals num w
             (trialMapOf num params fitIndices H g st) modelType weight).1),
         Event.stepAccepted iter tryIter
           (calculateSumSquaredError (calculateResiduals num w
             (trialMapOf num params fitIndices H g st) modelType weight).1)
           (trialMapOf num params fitIndices H g st)
           (calculateResiduals num w (trialMapOf num params fitIndices H g st) modelType
             weight).1,
         Event.forwardModel w.highPrecision (trialMapOf num params fitIndices H g st) none,
         Event.iterationUpdated
           (calculateSumSquaredError (calculateResiduals num w
             (trialMapOf num params fitIndices H g st) modelType weight).1 / nRes)
           (trialMapOf num params fitIndices H g st)
           (mm.calculateTheoreticalCurve w.highPrecision modelType
             (trialMapOf num params fitIndices H g st) none)],
       { lambda := st.lambda / 10,
         currentSSE := calculateSumSquaredError (calculateResiduals num w
           (trialMapOf num params fitIndices H g st) modelType weight).1,
         currentParamMap := trialMapOf num params fitIndices H g st,
         residuals := (calculateResiduals num w (trialMapOf num params fitIndices H g st)
           modelType weight).1 },
       true) := by
  simp only [trialLoop, h, if_true]

theorem trialLoop_reject (num : Numerics) (w : FittingWidget) (mm : ModelManager)
    (modelType : ModelType) (params : List FitParameter) (weight : ℚ) (fitIndices : List Nat)
    (H : List (List ℚ)) (g : List ℚ) (nRes iter n tryIter : Nat) (st : LMState)
    (h : ¬ calculateSumSquaredError (calculateResiduals num w
      (trialMapOf num params fitIndices H g st) modelType weight).1 < st.currentSSE) :
    trialLoop num w mm modelType params weight fitIndices H g nRes iter (n + 1) tryIter st =
      ((calculateResiduals num w (trialMapOf num params fitIndices H g st) modelType
          weight).2 ++
        Event.trialStep iter tryIter (trialMapOf num params fitIndices H g st)
          (calculateSumSquaredError (calculateResiduals num w
            (trialMapOf num params fitIndices H g st) modelType weight).1) ::
        (trialLoop num w mm modelType params weight fitIndices H g nRes iter n
          (tryIter + 1) { st with lambda := st.lambda * 10 }).1,
       (trialLoop num w mm modelType params weight fitIndices H g nRes iter n
          (tryIter + 1) { st with lambda := st.lambda * 10 }).2) := by
  simp only [trialLoop, h, if_false]

/-- What the trial loop does to the SSE: without acceptance no step is recorded and the
state keeps its SSE and its map; with acceptance exactly one step is recorded, its SSE is
the new current SSE and is below the old one. -/
theorem trialLoop_sse (num : Numerics) (w : FittingWidget) (mm : ModelManager)
    (modelType : ModelType) (params : List FitParameter) (weight : ℚ) (fitIndices : List Nat)
    (H : List (List ℚ)) (g : List ℚ) (nRes iter n tryIter : Nat) (st : LMState) :
    ((trialLoop num w mm modelType params weight fitIndices H g nRes iter n tryIter st).2.2
        = false ∧
      acceptedSSEs (trialLoop num w mm modelType params weight fitIndices H g nRes iter n
        tryIter st).1 = [] ∧
      (trialLoop num w mm modelType params weight fitIndices H g nRes iter n tryIter
        st).2.1.currentSSE = st.currentSSE) ∨
    ((trialLoop num w mm modelType params weight fitIndices H g nRes iter n tryIter st).2.2
        = true ∧
      acceptedSSEs (trialLoop num w mm modelType params weight fitIndices H g nRes iter n
        tryIter st).1 =
        [(trialLoop num w mm modelType params weight fitIndices H g nRes iter n tryIter
          st).2.1.currentSSE] ∧
      (trialLoop num w mm modelType params weight fitIndices H g nRes iter n tryIter
        st).2.1.currentSSE < st.currentSSE) := by
  induction n generalizing tryIter st with
  | zero => left; simp [trialLoop, acceptedSSEs]
  | succ n ih =>
    have hres := filterMap_modelCalls Event.acceptedSSE?
      (calculateResiduals num w (trialMapOf num params fitIndices H g st) modelType weight).2
      (fun _ _ _ => rfl) (calculateResiduals_events _ _ _ _ _)
    by_cases h : calculateSumSquaredError (calculateResiduals num w
      (trialMapOf num params fitIndices H g st) modelType weight).1 < st.currentSSE
    · right
      rw [trialLoop_accept _ _ _ _ _ _ _ _ _ _ _ _ _ _ h]
      simp [acceptedSSEs, hres, Event.acceptedSSE?, h]
    · rw [trialLoop_reject _ _ _ _ _ _ _ _ _ _ _ _ _ _ h]
      have := ih (tryIter + 1) { st with lambda := st.lambda * 10 }
      simpa [acceptedSSEs, hres, Event.acceptedSSE?] using this

theorem trialLoop_maps (num : Numerics) (w : FittingWidget) (mm : ModelManager)
    (modelType : ModelType) (params : List FitParameter) (weight : ℚ) (fitIndices : List Nat)
    (H : List (List ℚ)) (g : List ℚ) (nRes iter n tryIter : Nat) (st : LMState) :
    ∀ m ∈ acceptedMaps (trialLoop num w mm modelType params weight fitIndices H g nRes iter n
      tryIter st).1, ∃ st', m = trialMapOf num params fitIndices H g st' := by
  induction n generalizing tryIter st with
  | zero => simp [trialLoop, acceptedMaps]
  | succ n ih =>
    have hres := filterMap_modelCalls Event.acceptedMap?
      (calculateResiduals num w (trialMapOf num params fitIndices H g st) modelType weight).2
      (fun _ _ _ => rfl) (calculateResiduals_events _ _ _ _ _)
    by_cases h : calculateSumSquaredError (calculateResiduals num w
      (trialMapOf num params fitIndices H g st) modelType weight).1 < st.currentSSE
    · rw [trialLoop_accept _ _ _ _ _ _ _ _ _ _ _ _ _ _ h]
      intro m hm
      simp [acceptedMaps, hres, Event.acceptedMap?] at hm
      exact ⟨st, hm⟩
    · rw [trialLoop_reject _ _ _ _ _ _ _ _ _ _ _ _ _ _ h]
      intro m hm
      have := ih (tryIter + 1) { st with lambda := st.lambda * 10 } m
      apply this
      simpa [acceptedMaps, hres, Event.acceptedMap?] using hm

theorem trialLoop_iters (num : Numerics) (w : FittingWidget) (mm : ModelManager)
    (modelType : ModelType) (params : List FitParameter) (weight : ℚ) (fitIndices : List Nat)
    (H : List (List ℚ)) (g : List ℚ) (nRes iter n tryIter : Nat) (st : LMState) :
    (∃ k, k ≤ n ∧ trialIters (trialLoop num w mm modelType params weight fitIndices H g nRes
      iter n tryIter st).1 = List.replicate k iter) ∧
    jacobianIters (trialLoop num w mm modelType params weight fitIndices H g nRes
      iter n tryIter st).1 = [] := by
  induction n generalizing tryIter st with
  | zero => exact ⟨⟨0, le_refl _, by simp [trialLoop, trialIters]⟩, by simp [trialLoop, jacobianIters]⟩
  | succ n ih =>
    have hres := filterMap_modelCalls Event.trialIter?
      (calculateResiduals num w (trialMapOf num params fitIndices H g st) modelType weight).2
      (fun _ _ _ => rfl) (calculateResiduals_events _ _ _ _ _)
    have hres2 := filterMap_modelCalls Event.jacobianIter?
      (calculateResiduals num w (trialMapOf num params fitIndices H g st) modelType weight).2
      (fun _ _ _ => rfl) (calculateResiduals_events _ _ _ _ _)
    by_cases h : calculateSumSquaredError (calculateResiduals num w
      (trialMapOf num params fitIndices H g st) modelType weight).1 < st.currentSSE
    · rw [trialLoop_accept _ _ _ _ _ _ _ _ _ _ _ _ _ _ h]
      refine ⟨⟨1, by omega, ?_⟩, ?_⟩
      · simp [trialIters, hres, Event.trialIter?]
      · simp [jacobianIters, hres2, Event.jacobianIter?]
    · rw [trialLoop_reject _ _ _ _ _ _ _ _ _ _ _ _ _ _ h]
      obtain ⟨⟨k, hk, hk2⟩, hj⟩ := ih (tryIter + 1) { st with lambda := st.lambda * 10 }
      refine ⟨⟨k + 1, by omega, ?_⟩, ?_⟩
      · simp only [trialIters] at hk2
        simp [trialIters, hres, Event.trialIter?, hk2, List.replicate_succ]
      · simp only [jacobianIters] at hj
        simp [jacobianIters, hres2, Event.jacobianIter?, hj]

theorem trialLoop_noFinish (num : Numerics) (w : FittingWidget) (mm : ModelManager)
    (modelType : ModelType) (params : List FitParameter) (weight : ℚ) (fitIndices : List Nat)
    (H : List (List ℚ)) (g : List ℚ) (nRes iter n tryIter : Nat) (st : LMState) :
    Event.fitFinished ∉ (trialLoop num w mm modelType params weight fitIndices H g nRes
      iter n tryIter st).1 := by
  induction n generalizing tryIter st with
  | zero => simp [trialLoop]
  | succ n ih =>
    have hres : Event.fitFinished ∉ (calculateResiduals num w
        (trialMapOf num params fitIndices H g st) modelType weight).2 := by
      intro hmem
      have := calculateResiduals_events _ _ _ _ _ _ hmem
      simp [Event.isForwardModel] at this
    by_cases h : calculateSumSquaredError (calculateResiduals num w
      (trialMapOf num params fitIndices H g st) modelType weight).1 < st.currentSSE
    · rw [trialLoop_accept _ _ _ _ _ _ _ _ _ _ _ _ _ _ h]
      simp [hres]
    · rw [trialLoop_reject _ _ _ _ _ _ _ _ _ _ _ _ _ _ h]
      have := ih (tryIter + 1) { st with lambda := st.lambda * 10 }
      simp [hres, this]

/-! ## One iteration of the outer loop -/

theorem outerLoop_cases (num : Numerics) (w : FittingWidget) (mm : ModelManager)
    (stop : Nat → Bool) (modelType : ModelType) (params : List FitParameter) (weight : ℚ)
    (fitIndices : List Nat) (maxIter n iter : Nat) (st : LMState) :
    outerLoop num w mm stop modelType params weight fitIndices maxIter (n + 1) iter st
      = ([], st) ∨
    ∃ (jev : List Event) (H : List (List ℚ)) (g : List ℚ) (nRes : Nat),
      (∀ e ∈ jev, e.isForwardModel = true) ∧
      (outerLoop num w mm stop modelType params weight fitIndices maxIter (n + 1) iter st =
        (Event.progress (iter * 100 / maxIter) :: Event.jacobian iter ::
          (jev ++ (trialLoop num w mm modelType params weight fitIndices H g nRes iter 5 0
            st).1),
         (trialLoop num w mm modelType params weight fitIndices H g nRes iter 5 0 st).2.1) ∨
       outerLoop num w mm stop modelType params weight fitIndices maxIter (n + 1) iter st =
        ((Event.progress (iter * 100 / maxIter) :: Event.jacobian iter ::
          (jev ++ (trialLoop num w mm modelType params weight fitIndices H g nRes iter 5 0
            st).1)) ++
          (outerLoop num w mm stop modelType params weight fitIndices maxIter n (iter + 1)
            (trialLoop num w mm modelType params weight fitIndices H g nRes iter 5 0
              st).2.1).1,
         (outerLoop num w mm stop modelType params weight fitIndices maxIter n (iter + 1)
            (trialLoop num w mm modelType params weight fitIndices H g nRes iter 5 0
              st).2.1).2)) := by
  by_cases h1 : stop iter = true
  · left; simp [outerLoop, h1]
  · by_cases h2 : (!st.residuals.isEmpty &&
        decide (st.currentSSE / st.residuals.length < 3e-3)) = true
    · left; simp only [outerLoop, h1, h2, if_true, if_false]; simp
    · right
      refine ⟨(computeJacobian num w st.currentParamMap st.residuals fitIndices modelType
          params weight).2,
        normalMatrix (computeJacobian num w st.currentParamMap st.residuals fitIndices
          modelType params weight).1 st.residuals.length fitIndices.length,
        gradient (computeJacobian num w st.currentParamMap st.residuals fitIndices
          modelType params weight).1 st.residuals st.residuals.length fitIndices.length,
        st.residuals.length,
        computeJacobian_events num w st.currentParamMap st.residuals
          fitIndices modelType params weight, ?_⟩
      by_cases h3 : (!(trialLoop num w mm modelType params weight fitIndices
            (normalMatrix (computeJacobian num w st.currentParamMap st.residuals fitIndices
              modelType params weight).1 st.residuals.length fitIndices.length)
            (gradient (computeJacobian num w st.currentParamMap st.residuals fitIndices
              modelType params weight).1 st.residuals st.residuals.length fitIndices.length)
            st.residuals.length iter 5 0 st).2.2 &&
          decide ((trialLoop num w mm modelType params weight fitIndices
            (normalMatrix (computeJacobian num w st.currentParamMap st.residuals fitIndices
              modelType params weight).1 st.residuals.length fitIndices.length)
            (gradient (computeJacobian num w st.currentParamMap st.residuals fitIndices
              modelType params weight).1 st.residuals st.residuals.length fitIndices.length)
            st.residuals.length iter 5 0 st).2.1.lambda > 1e10)) = true
      · left
        simp only [outerLoop, h1, h2, h3, if_true, if_false]
        simp
      · right
        simp only [outerLoop, h1, h2, h3, if_true, if_false]
        simp

theorem outerLoop_chain (num : Numerics) (w : FittingWidget) (mm : ModelManager)
    (stop : Nat → Bool) (modelType : ModelType) (params : List FitParameter) (weight : ℚ)
    (fitIndices : List Nat) (maxIter n iter : Nat) (st : LMState) :
    List.Chain (fun a b => b < a) st.currentSSE
      (acceptedSSEs (outerLoop num w mm stop modelType params weight fitIndices maxIter n
        iter st).1) := by
  induction n generalizing iter st with
  | zero => simp [outerLoop, acceptedSSEs]
  | succ n ih =>
    rcases outerLoop_cases num w mm stop modelType params weight fitIndices maxIter n iter st
      with h | ⟨jev, H, g, nRes, hjev, h | h⟩
    · rw [h]; simp [acceptedSSEs]
    · rw [h]
      have hj := filterMap_modelCalls Event.acceptedSSE? jev (fun _ _ _ => rfl) hjev
      rcases trialLoop_sse num w mm modelType params weight fitIndices H g nRes iter 5 0 st
        with ⟨_, h2, _⟩ | ⟨_, h2, h3⟩
      · simp only [acceptedSSEs] at h2
        simp [acceptedSSEs, Event.acceptedSSE?, hj, h2]
      · simp only [acceptedSSEs] at h2
        simp [acceptedSSEs, Event.acceptedSSE?, hj, h2, h3]
    · rw [h]
      have hj := filterMap_modelCalls Event.acceptedSSE? jev (fun _ _ _ => rfl) hjev
      have hrest := ih (iter + 1)
        (trialLoop num w mm modelType params weight fitIndices H g nRes iter 5 0 st).2.1
      simp only [acceptedSSEs] at hrest
      rcases trialLoop_sse num w mm modelType params weight fitIndices H g nRes iter 5 0 st
        with ⟨_, h2, h3⟩ | ⟨_, h2, h3⟩
      · simp only [acceptedSSEs] at h2
        rw [h3] at hrest
        simpa [acceptedSSEs, Event.acceptedSSE?, hj, h2] using hrest
      · simp only [acceptedSSEs] at h2
        simp only [acceptedSSEs, List.filterMap_append, List.filterMap_cons,
          Event.acceptedSSE?, hj, h2, List.nil_append, List.singleton_append,
          List.chain_cons]
        exact ⟨h3, hrest⟩

theorem outerLoop_maps (num : Numerics) (w : FittingWidget) (mm : ModelManager)
    (stop : Nat → Bool) (modelType : ModelType) (params : List FitParameter) (weight : ℚ)
    (fitIndices : List Nat) (maxIter n iter : Nat) (st : LMState) :
    ∀ m ∈ acceptedMaps (outerLoop num w mm stop modelType params weight fitIndices maxIter n
      iter st).1, ∃ H g st', m = trialMapOf num params fitIndices H g st' := by
  induction n generalizing iter st with
  | zero => simp [outerLoop, acceptedMaps]
  | succ n ih =>
    rcases outerLoop_cases num w mm stop modelType params weight fitIndices maxIter n iter st
      with h | ⟨jev, H, g, nRes, hjev, h | h⟩
    · rw [h]; simp [acceptedMaps]
    · rw [h]
      have hj := filterMap_modelCalls Event.acceptedMap? jev (fun _ _ _ => rfl) hjev
      intro m hm
      simp only [acceptedMaps, List.filterMap_cons, List.filterMap_append,
        Event.acceptedMap?, hj, List.nil_append] at hm
      obtain ⟨st', hst⟩ := trialLoop_maps num w mm modelType params weight fitIndices H g
        nRes iter 5 0 st m hm
      exact ⟨H, g, st', hst⟩
    · rw [h]
      have hj := filterMap_modelCalls Event.acceptedMap? jev (fun _ _ _ => rfl) hjev
      intro m hm
      simp only [acceptedMaps, List.filterMap_cons, List.filterMap_append,
        Event.acceptedMap?, hj, List.nil_append, List.cons_append, List.mem_append] at hm
      rcases hm with hm | hm
      · obtain ⟨st', hst⟩ := trialLoop_maps num w mm modelType params weight fitIndices H g
          nRes iter 5 0 st m hm
        exact ⟨H, g, st', hst⟩
      · exact ih _ _ m hm

theorem outerLoop_noFinish (num : Numerics) (w : FittingWidget) (mm : ModelManager)
    (stop : Nat → Bool) (modelType : ModelType) (params : List FitParameter) (weight : ℚ)
    (fitIndices : List Nat) (maxIter n iter : Nat) (st : LMState) :
    Event.fitFinished ∉ (outerLoop num w mm stop modelType params weight fitIndices maxIter n
      iter st).1 := by
  induction n generalizing iter st with
  | zero => simp [outerLoop]
  | succ n ih =>
    rcases outerLoop_cases num w mm stop modelType params weight fitIndices maxIter n iter st
      with h | ⟨jev, H, g, nRes, hjev, h | h⟩
    · rw [h]; simp
    · rw [h]
      have hj : Event.fitFinished ∉ jev := fun hmem => by
        have := hjev _ hmem
        simp [Event.isForwardModel] at this
      have ht := trialLoop_noFinish num w mm modelType params weight fitIndices H g nRes
        iter 5 0 st
      simp [hj, ht]
    · rw [h]
      have hj : Event.fitFinished ∉ jev := fun hmem => by
        have := hjev _ hmem
        simp [Event.isForwardModel] at this
      have ht := trialLoop_noFinish num w mm modelType params weight fitIndices H g nRes
        iter 5 0 st
      have hr := ih (iter + 1)
        (trialLoop num w mm modelType params weight fitIndices H g nRes iter 5 0 st).2.1
      simp [hj, ht, hr]

theorem outerLoop_jacobians (num : Numerics) (w : FittingWidget) (mm : ModelManager)
    (stop : Nat → Bool) (modelType : ModelType) (params : List FitParameter) (weight : ℚ)
    (fitIndices : List Nat) (maxIter n iter : Nat) (st : LMState) :
    ∃ k, k ≤ n ∧ jacobianIters (outerLoop num w mm stop modelType params weight fitIndices
      maxIter n iter st).1 = List.range' iter k := by
  induction n generalizing iter st with
  | zero => exact ⟨0, le_refl _, by simp [outerLoop, jacobianIters]⟩
  | succ n ih =>
    rcases outerLoop_cases num w mm stop modelType params weight fitIndices maxIter n iter st
      with h | ⟨jev, H, g, nRes, hjev, h | h⟩
    · rw [h]; exact ⟨0, by omega, by simp [jacobianIters]⟩
    · rw [h]
      have hj := filterMap_modelCalls Event.jacobianIter? jev (fun _ _ _ => rfl) hjev
      have ht := (trialLoop_iters num w mm modelType params weight fitIndices H g nRes
        iter 5 0 st).2
      simp only [jacobianIters] at ht
      exact ⟨1, by omega, by simp [jacobianIters, Event.jacobianIter?, hj, ht]⟩
    · rw [h]
      have hj := filterMap_modelCalls Event.jacobianIter? jev (fun _ _ _ => rfl) hjev
      have ht := (trialLoop_iters num w mm modelType params weight fitIndices H g nRes
        iter 5 0 st).2
      simp only [jacobianIters] at ht
      obtain ⟨k, hk, hk2⟩ := ih (iter + 1)
        (trialLoop num w mm modelType params weight fitIndices H g nRes iter 5 0 st).2.1
      simp only [jacobianIters] at hk2
      refine ⟨k + 1, by omega, ?_⟩
      simp [jacobianIters, Event.jacobianIter?, hj, ht, hk2, List.range'_succ]

theorem outerLoop_trials (num : Numerics) (w : FittingWidget) (mm : ModelManager)
    (stop : Nat → Bool) (modelType : ModelType) (params : List FitParameter) (weight : ℚ)
    (fitIndices : List Nat) (maxIter n iter : Nat) (st : LMState) :
    (∀ it ∈ trialIters (outerLoop num w mm stop modelType params weight fitIndices
      maxIter n iter st).1, iter ≤ it ∧ it ∈ jacobianIters (outerLoop num w mm stop modelType
        params weight fitIndices maxIter n iter st).1) ∧
    ∀ it, (trialIters (outerLoop num w mm stop modelType params weight fitIndices
      maxIter n iter st).1).count it ≤ 5 := by
  induction n generalizing iter st with
  | zero => simp [outerLoop, trialIters]
  | succ n ih =>
    rcases outerLoop_cases num w mm stop modelType params weight fitIndices maxIter n iter st
      with h | ⟨jev, H, g, nRes, hjev, h | h⟩
    · rw [h]; simp [trialIters]
    · rw [h]
      have hj := filterMap_modelCalls Event.trialIter? jev (fun _ _ _ => rfl) hjev
      obtain ⟨⟨k, hk, hk2⟩, _⟩ := trialLoop_iters num w mm modelType params weight fitIndices
        H g nRes iter 5 0 st
      simp only [trialIters] at hk2
      constructor
      · intro it hit
        simp only [trialIters, List.filterMap_cons, List.filterMap_append, Event.trialIter?,
          hj, hk2, List.nil_append] at hit
        have := List.eq_of_mem_replicate hit
        subst this
        exact ⟨le_refl _, by simp [jacobianIters, Event.jacobianIter?]⟩
      · intro it
        simp only [trialIters, List.filterMap_cons, List.filterMap_append, Event.trialIter?,
          hj, hk2, List.nil_append, List.count_replicate]
        split <;> omega
    · rw [h]
      have hj := filterMap_modelCalls Event.trialIter? jev (fun _ _ _ => rfl) hjev
      obtain ⟨⟨k, hk, hk2⟩, _⟩ := trialLoop_iters num w mm modelType params weight fitIndices
        H g nRes iter 5 0 st
      simp only [trialIters] at hk2
      obtain ⟨hr1, hr2⟩ := ih (iter + 1)
        (trialLoop num w mm modelType params weight fitIndices H g nRes iter 5 0 st).2.1
      simp only [trialIters] at hr1 hr2
      constructor
      · intro it hit
        simp only [trialIters, List.filterMap_cons, List.filterMap_append, Event.trialIter?,
          hj, hk2, List.nil_append, List.cons_append, List.mem_append] at hit
        rcases hit with hit | hit
        · have := List.eq_of_mem_replicate hit
          subst this
          exact ⟨le_refl _, by simp [jacobianIters, Event.jacobianIter?]⟩
        · have := hr1 it hit
          refine ⟨by omega, ?_⟩
          simp only [jacobianIters, List.cons_append, List.filterMap_cons,
            List.filterMap_append, Event.jacobianIter?, List.mem_cons, List.mem_append]
          right; right
          exact this.2
      · intro it
        simp only [trialIters, List.filterMap_cons, List.filterMap_append, Event.trialIter?,
          hj, hk2, List.nil_append, List.cons_append, List.count_append,
          List.count_replicate]
        by_cases hit : iter = it
        · subst hit
          have : List.count iter (List.filterMap Event.trialIter?
              (outerLoop num w mm stop modelType params weight fitIndices maxIter n (iter + 1)
                (trialLoop num w mm modelType params weight fitIndices H g nRes iter 5 0
                  st).2.1).1) = 0 := by
            rw [List.count_eq_zero]
            intro hmem
            have := (hr1 iter hmem).1
            omega
          rw [this]
          simp
          omega
        · have hb : (iter == it) = false := by simpa using hit
          simp only [hb]
          have := hr2 it
          simp
          omega

/-! ## The three shapes of a run -/

theorem run_noFit (num : Numerics) (w : FittingWidget) (stop : Nat → Bool)
    (modelType : ModelType) (params : List FitParameter) (weight : ℚ)
    (h : fitIndicesOf params = []) :
    runLevenbergMarquardtOptimization num w stop modelType params weight =
      (match w.modelManager with
        | some _ => [Event.setHighPrecision false]
        | none => []) ++ [Event.fitFinished] := by
  simp [runLevenbergMarquardtOptimization, h]

theorem run_noManager (num : Numerics) (w : FittingWidget) (stop : Nat → Bool)
    (modelType : ModelType) (params : List FitParameter) (weight : ℚ)
    (h : fitIndicesOf params ≠ []) (hm : w.modelManager = none) :
    runLevenbergMarquardtOptimization num w stop modelType params weight =
      [Event.nullDeref] := by
  simp [runLevenbergMarquardtOptimization, h, hm, calculateResiduals, lowPrecision]

theorem run_main (num : Numerics) (w : FittingWidget) (stop : Nat → Bool)
    (modelType : ModelType) (params : List FitParameter) (weight : ℚ) (mm : ModelManager)
    (h : fitIndicesOf params ≠ []) (hm : w.modelManager = some mm) :
    runLevenbergMarquardtOptimization num w stop modelType params weight =
      Event.setHighPrecision false ::
        ((calculateResiduals num (lowPrecision w) (initialParamMap params) modelType
          weight).2 ++
        [Event.forwardModel false (initialParamMap params) none,
         Event.iterationUpdated
           ((initialState num (lowPrecision w) modelType params weight).currentSSE /
             (initialState num (lowPrecision w) modelType params weight).residuals.length)
           (initialParamMap params)
           (mm.calculateTheoreticalCurve false modelType (initialParamMap params) none)] ++
        (fitLoop num w mm stop modelType params weight).1 ++
        [Event.setHighPrecision true,
         Event.forwardModel true
           (updateDeps (fitLoop num w mm stop modelType params weight).2.currentParamMap)
           none,
         Event.iterationUpdated
           ((fitLoop num w mm stop modelType params weight).2.currentSSE /
            (fitLoop num w mm stop modelType params weight).2.residuals.length)
           (updateDeps (fitLoop num w mm stop modelType params weight).2.currentParamMap)
           (mm.calculateTheoreticalCurve true modelType
             (updateDeps (fitLoop num w mm stop modelType params weight).2.currentParamMap)
             none),
         Event.fitFinished]) := by
  simp only [runLevenbergMarquardtOptimization, hm, initialState]
  simp [h]

theorem getD_mem_of_lt (params : List FitParameter) (i : Nat) (hi : i < params.length) :
    params.getD i default ∈ params := by
  rw [List.getD_eq_getElem params default hi]
  exact List.getElem_mem hi

theorem fitIndicesOf_eq_nil (params : List FitParameter)
    (h : ∀ p ∈ params, p.isFit = false) : fitIndicesOf params = [] := by
  unfold fitIndicesOf
  rw [List.filter_eq_nil_iff]
  intro i hi
  rw [List.mem_range] at hi
  have hfalse := h _ (getD_mem_of_lt params i hi)
  show ¬ ((params.getD i default).isFit = true)
  rw [hfalse]
  exact Bool.false_ne_true

theorem fitIndicesOf_ne_nil (params : List FitParameter)
    (h : ∃ p ∈ params, p.isFit = true) : fitIndicesOf params ≠ [] := by
  obtain ⟨p, hp, hfit⟩ := h
  obtain ⟨i, hi, hpi⟩ := List.getElem_of_mem hp
  intro hnil
  have hmem : i ∈ fitIndicesOf params := by
    unfold fitIndicesOf
    rw [List.mem_filter, List.mem_range]
    refine ⟨hi, ?_⟩
    rw [List.getD_eq_getElem params default hi, hpi]
    exact hfit
  rw [hnil] at hmem
  exact absurd hmem (List.not_mem_nil _)

/-! ## The controller -/

/-- C1: across the accepted steps of `runLevenbergMarquardtOptimization` the SSE is
non-increasing.  Every accepted step has an SSE below the SSE current before it (the
initial SSE, or the SSE of the previous accepted step), so the SSE of each accepted step
is not larger than the SSE of any earlier accepted step nor than the initial SSE. -/
theorem accepted_sse_nonincreasing (num : Numerics) (w : FittingWidget) (stop : Nat → Bool)
    (modelType : ModelType) (params : List FitParameter) (weight : ℚ) :
    List.Chain (fun a b => b < a) (initialSSE num w modelType params weight)
      (acceptedSSEs (runLevenbergMarquardtOptimization num w stop modelType params weight)) ∧
    List.Pairwise (fun a b => b ≤ a) (initialSSE num w modelType params weight ::
      acceptedSSEs (runLevenbergMarquardtOptimization num w stop modelType params weight)) := by
  have hchain : List.Chain (fun a b : ℚ => a > b) (initialSSE num w modelType params weight)
      (acceptedSSEs (runLevenbergMarquardtOptimization num w stop modelType params
        weight)) := by
    by_cases h : fitIndicesOf params = []
    · rw [run_noFit _ _ _ _ _ _ h]
      cases w.modelManager <;> simp [acceptedSSEs, Event.acceptedSSE?]
    · cases hm : w.modelManager with
      | none => rw [run_noManager _ _ _ _ _ _ h hm]; simp [acceptedSSEs, Event.acceptedSSE?]
      | some mm =>
        rw [run_main _ _ _ _ _ _ mm h hm]
        have hres := filterMap_modelCalls Event.acceptedSSE?
          (calculateResiduals num (lowPrecision w) (initialParamMap params) modelType
            weight).2 (fun _ _ _ => rfl) (calculateResiduals_events _ _ _ _ _)
        have hloop := outerLoop_chain num (lowPrecision w) mm stop modelType params weight
          (fitIndicesOf params) 50 50 0
          (initialState num (lowPrecision w) modelType params weight)
        simp only [acceptedSSEs] at hloop
        simpa [acceptedSSEs, Event.acceptedSSE?, hres, fitLoop, initialSSE] using hloop
  refine ⟨hchain, ?_⟩
  have hp := List.chain_iff_pairwise.mp hchain
  exact hp.imp (fun hab => le_of_lt hab)

/-- C3: `runLevenbergMarquardtOptimization` builds at most `maxIter = 50` Jacobians, one
per outer iteration and each in an iteration below 50, and performs at most 5 trial steps
in each outer iteration; every trial step belongs to an iteration that built a Jacobian. -/
theorem iteration_and_trial_bounds (num : Numerics) (w : FittingWidget) (stop : Nat → Bool)
    (modelType : ModelType) (params : List FitParameter) (weight : ℚ) :
    (jacobianIters (runLevenbergMarquardtOptimization num w stop modelType params
      weight)).length ≤ 50 ∧
    (jacobianIters (runLevenbergMarquardtOptimization num w stop modelType params
      weight)).Nodup ∧
    (∀ it ∈ jacobianIters (runLevenbergMarquardtOptimization num w stop modelType params
      weight), it < 50) ∧
    (∀ it, (trialIters (runLevenbergMarquardtOptimization num w stop modelType params
      weight)).count it ≤ 5) ∧
    (∀ it ∈ trialIters (runLevenbergMarquardtOptimization num w stop modelType params
      weight), it ∈ jacobianIters (runLevenbergMarquardtOptimization num w stop modelType
        params weight)) := by
  by_cases h : fitIndicesOf params = []
  · rw [run_noFit _ _ _ _ _ _ h]
    cases w.modelManager <;>
      simp [jacobianIters, trialIters, Event.jacobianIter?, Event.trialIter?]
  · cases hm : w.modelManager with
    | none =>
      rw [run_noManager _ _ _ _ _ _ h hm]
      simp [jacobianIters, trialIters, Event.jacobianIter?, Event.trialIter?]
    | some mm =>
      rw [run_main _ _ _ _ _ _ mm h hm]
      have hres1 := filterMap_modelCalls Event.jacobianIter?
        (calculateResiduals num (lowPrecision w) (initialParamMap params) modelType
          weight).2 (fun _ _ _ => rfl) (calculateResiduals_events _ _ _ _ _)
      have hres2 := filterMap_modelCalls Event.trialIter?
        (calculateResiduals num (lowPrecision w) (initialParamMap params) modelType
          weight).2 (fun _ _ _ => rfl) (calculateResiduals_events _ _ _ _ _)
      obtain ⟨k, hk, hjac⟩ := outerLoop_jacobians num (lowPrecision w) mm stop modelType
        params weight (fitIndicesOf params) 50 50 0
        (initialState num (lowPrecision w) modelType params weight)
      obtain ⟨htr1, htr2⟩ := outerLoop_trials num (lowPrecision w) mm stop modelType
        params weight (fitIndicesOf params) 50 50 0
        (initialState num (lowPrecision w) modelType params weight)
      have ej : jacobianIters (Event.setHighPrecision false ::
        ((calculateResiduals num (lowPrecision w) (initialParamMap params) modelType
          weight).2 ++
        [Event.forwardModel false (initialParamMap params) none,
         Event.iterationUpdated
           ((initialState num (lowPrecision w) modelType params weight).currentSSE /
             (initialState num (lowPrecision w) modelType params weight).residuals.length)
           (initialParamMap params)
           (mm.calculateTheoreticalCurve false modelType (initialParamMap params) none)] ++
        (fitLoop num w mm stop modelType params weight).1 ++
        [Event.setHighPrecision true,
         Event.forwardModel true
           (updateDeps (fitLoop num w mm stop modelType params weight).2.currentParamMap)
           none,
         Event.iterationUpdated
           ((fitLoop num w mm stop modelType params weight).2.currentSSE /
            (fitLoop num w mm stop modelType params weight).2.residuals.length)
           (updateDeps (fitLoop num w mm stop modelType params weight).2.currentParamMap)
           (mm.calculateTheoreticalCurve true modelType
             (updateDeps (fitLoop num w mm stop modelType params weight).2.currentParamMap)
             none),
         Event.fitFinished])) = List.range' 0 k := by
        simp only [jacobianIters] at hjac
        simp [jacobianIters, Event.jacobianIter?, hres1, fitLoop, hjac]
      have et : trialIters (Event.setHighPrecision false ::
        ((calculateResiduals num (lowPrecision w) (initialParamMap params) modelType
          weight).2 ++
        [Event.forwardModel false (initialParamMap params) none,
         Event.iterationUpdated
           ((initialState num (lowPrecision w) modelType params weight).currentSSE /
             (initialState num (lowPrecision w) modelType params weight).residuals.length)
           (initialParamMap params)
           (mm.calculateTheoreticalCurve false modelType (initialParamMap params) none)] ++
        (fitLoop num w mm stop modelType params weight).1 ++
        [Event.setHighPrecision true,
         Event.forwardModel true
           (updateDeps (fitLoop num w mm stop modelType params weight).2.currentParamMap)
           none,
         Event.iterationUpdated
           ((fitLoop num w mm stop modelType params weight).2.currentSSE /
            (fitLoop num w mm stop modelType params weight).2.residuals.length)
           (updateDeps (fitLoop num w mm stop modelType params weight).2.currentParamMap)
           (mm.calculateTheoreticalCurve true modelType
             (updateDeps (fitLoop num w mm stop modelType params weight).2.currentParamMap)
             none),
         Event.fitFinished])) = trialIters (outerLoop num (lowPrecision w) mm stop modelType
        params weight (fitIndicesOf params) 50 50 0
        (initialState num (lowPrecision w) modelType params weight)).1 := by
        simp [trialIters, Event.trialIter?, hres2, fitLoop]
      rw [ej, et]
      refine ⟨by simpa using hk, List.nodup_range' 0 k, ?_, htr2, ?_⟩
      · intro it hit
        rw [List.mem_range'_1] at hit
        omega
      · intro it hit
        rw [← hjac]
        exact (htr1 it hit).2

/-! ## Bounds of a trial map -/

theorem foldl_insert_other (name : Nat → String) (val : Nat → ℚ) (l : List Nat)
    (m0 : QMap ℚ) (k : String) (h : ∀ i ∈ l, name i ≠ k) :
    QMap.value (l.foldl (fun m i => QMap.insert m (name i) (val i)) m0) k =
      QMap.value m0 k := by
  induction l generalizing m0 with
  | nil => rfl
  | cons a t ih =>
    rw [List.foldl_cons, ih _ (fun i hi => h i (List.mem_cons_of_mem _ hi))]
    exact QMap.value_insert_ne m0 (name a) k (val a)
      (fun hk => h a (List.mem_cons_self _ _) hk.symm)

theorem foldl_insert_hit (name : Nat → String) (val : Nat → ℚ) (l : List Nat)
    (m0 : QMap ℚ) (i0 : Nat) (hmem : i0 ∈ l) (hnodup : l.Nodup)
    (hinj : ∀ i ∈ l, name i = name i0 → i = i0) :
    QMap.value (l.foldl (fun m i => QMap.insert m (name i) (val i)) m0) (name i0) =
      val i0 := by
  induction l generalizing m0 with
  | nil => exact absurd hmem (List.not_mem_nil _)
  | cons a t ih =>
    rw [List.nodup_cons] at hnodup
    rw [List.foldl_cons]
    by_cases ha : a = i0
    · subst ha
      rw [foldl_insert_other name val t _ (name a)]
      · exact QMap.value_insert_self m0 (name a) (val a)
      · intro i hi hname
        have := hinj i (List.mem_cons_of_mem _ hi) hname
        subst this
        exact hnodup.1 hi
    · have hmem' : i0 ∈ t := by
        rcases List.mem_cons.mp hmem with h | h
        · exact absurd h.symm ha
        · exact h
      exact ih _ hmem' hnodup.2 (fun i hi => hinj i (List.mem_cons_of_mem _ hi))

theorem qMax_qMin_bounds (lo hi v : ℚ) (h : lo ≤ hi) :
    lo ≤ qMax lo (qMin v hi) ∧ qMax lo (qMin v hi) ≤ hi := by
  unfold qMax qMin
  split_ifs with h1 h2 h2
  · exact ⟨le_of_lt h2, le_of_lt h1⟩
  · exact ⟨le_refl _, h⟩
  · exact ⟨le_of_lt h2, le_refl _⟩
  · exact ⟨le_refl _, h⟩

theorem fitIndicesOf_nodup (params : List FitParameter) : (fitIndicesOf params).Nodup :=
  List.Nodup.filter _ (List.nodup_range _)

theorem fitIndicesOf_lt (params : List FitParameter) (i : Nat)
    (h : i ∈ fitIndicesOf params) : i < params.length := by
  unfold fitIndicesOf at h
  rw [List.mem_filter, List.mem_range] at h
  exact h.1

theorem names_injective (params : List FitParameter)
    (hnames : (params.map (fun p => p.name)).Nodup) (a b : Nat) (ha : a < params.length)
    (hb : b < params.length)
    (h : (params.getD a default).name = (params.getD b default).name) : a = b := by
  rw [List.getD_eq_getElem params default ha, List.getD_eq_getElem params default hb] at h
  have ha' : a < (params.map (fun p => p.name)).length := by simpa using ha
  have hb' : b < (params.map (fun p => p.name)).length := by simpa using hb
  have e : (params.map (fun p => p.name))[a] = (params.map (fun p => p.name))[b] := by
    simpa using h
  exact (List.Nodup.getElem_inj_iff hnames).mp e

/-- The value `applyDelta` leaves in the trial map for a fit-enabled parameter, when
parameter names are unique, lies in the bounds of the parameter. -/
theorem applyDelta_bounds (num : Numerics) (params : List FitParameter) (cur : QMap ℚ)
    (delta : List ℚ) (hnames : (params.map (fun p => p.name)).Nodup)
    (p : FitParameter) (hp : p ∈ params) (hfit : p.isFit = true) (hle : p.min ≤ p.max) :
    p.min ≤ QMap.value (applyDelta num params (fitIndicesOf params) cur delta) p.name ∧
    QMap.value (applyDelta num params (fitIndicesOf params) cur delta) p.name ≤ p.max := by
  obtain ⟨idx, hidx, hpi⟩ := List.getElem_of_mem hp
  have hgetD : params.getD idx default = p := by
    rw [List.getD_eq_getElem params default hidx, hpi]
  have hmemfi : idx ∈ fitIndicesOf params := by
    unfold fitIndicesOf
    rw [List.mem_filter, List.mem_range]
    exact ⟨hidx, by rw [hgetD]; exact hfit⟩
  obtain ⟨i0, hi0, hfi0⟩ := List.getElem_of_mem hmemfi
  have hfiD : (fitIndicesOf params).getD i0 0 = idx := by
    rw [List.getD_eq_getElem _ 0 hi0, hfi0]
  have key := foldl_insert_hit
    (fun i => (params.getD ((fitIndicesOf params).getD i 0) default).name)
    (fun i => qMax (params.getD ((fitIndicesOf params).getD i 0) default).min
      (qMin
        (if isLogMode
            (QMap.value cur (params.getD ((fitIndicesOf params).getD i 0) default).name)
            (params.getD ((fitIndicesOf params).getD i 0) default).name
         then num.pow 10 (num.log10
            (QMap.value cur (params.getD ((fitIndicesOf params).getD i 0) default).name)
            + delta.getD i 0)
         else QMap.value cur (params.getD ((fitIndicesOf params).getD i 0) default).name
            + delta.getD i 0)
        (params.getD ((fitIndicesOf params).getD i 0) default).max))
    (List.range (fitIndicesOf params).length) cur i0 (List.mem_range.mpr hi0)
    (List.nodup_range _)
    (by
      intro i hi hname
      rw [List.mem_range] at hi
      have h1 : (fitIndicesOf params).getD i 0 ∈ fitIndicesOf params := by
        rw [List.getD_eq_getElem _ 0 hi]; exact List.getElem_mem hi
      have h2 : (fitIndicesOf params).getD i0 0 ∈ fitIndicesOf params := by
        rw [List.getD_eq_getElem _ 0 hi0]; exact List.getElem_mem hi0
      have e := names_injective params hnames _ _ (fitIndicesOf_lt params _ h1)
        (fitIndicesOf_lt params _ h2) hname
      rw [List.getD_eq_getElem _ 0 hi, List.getD_eq_getElem _ 0 hi0] at e
      exact (List.Nodup.getElem_inj_iff (fitIndicesOf_nodup params)).mp e)
  simp only [hfiD, hgetD] at key
  have happ : QMap.value (applyDelta num params (fitIndicesOf params) cur delta) p.name =
      qMax p.min (qMin
        (if isLogMode (QMap.value cur p.name) p.name
         then num.pow 10 (num.log10 (QMap.value cur p.name) + delta.getD i0 0)
         else QMap.value cur p.name + delta.getD i0 0) p.max) := key
  rw [happ]
  exact qMax_qMin_bounds _ _ _ hle

theorem updateDeps_value_ne (m : QMap ℚ) (k : String) (hk : k ≠ "LfD") :
    QMap.value (updateDeps m) k = QMap.value m k := by
  unfold updateDeps
  split
  · exact QMap.value_insert_ne m "LfD" k _ hk
  · rfl

theorem run_acceptedMaps (num : Numerics) (w : FittingWidget) (stop : Nat → Bool)
    (modelType : ModelType) (params : List FitParameter) (weight : ℚ) :
    ∀ m ∈ acceptedMaps (runLevenbergMarquardtOptimization num w stop modelType params
      weight), ∃ cur delta, m = updateDeps (applyDelta num params (fitIndicesOf params) cur
        delta) := by
  intro m hm
  by_cases h : fitIndicesOf params = []
  · rw [run_noFit _ _ _ _ _ _ h] at hm
    cases hmm : w.modelManager <;> simp [hmm, acceptedMaps, Event.acceptedMap?] at hm
  · cases hmm : w.modelManager with
    | none =>
      rw [run_noManager _ _ _ _ _ _ h hmm] at hm
      simp [acceptedMaps, Event.acceptedMap?] at hm
    | some mm =>
      rw [run_main _ _ _ _ _ _ mm h hmm] at hm
      have hres := filterMap_modelCalls Event.acceptedMap?
        (calculateResiduals num (lowPrecision w) (initialParamMap params) modelType
          weight).2 (fun _ _ _ => rfl) (calculateResiduals_events _ _ _ _ _)
      simp only [acceptedMaps, List.filterMap_cons, List.filterMap_append,
        Event.acceptedMap?, hres, List.nil_append, List.filterMap_nil, List.append_nil,
        fitLoop] at hm
      obtain ⟨H, g, st', hst⟩ := outerLoop_maps num (lowPrecision w) mm stop modelType params
        weight (fitIndicesOf params) 50 50 0 _ m hm
      exact ⟨st'.currentParamMap, trialDelta num (fitIndicesOf params) H g st'.lambda, hst⟩

/-- C2 (amended): in every accepted step of `runLevenbergMarquardtOptimization`, for a
parameter list with unique names, the value of every fit-enabled parameter other than the
derived `LfD` whose bounds satisfy `min <= max` lies in `[min, max]`. -/
theorem accepted_step_within_bounds (num : Numerics) (w : FittingWidget) (stop : Nat → Bool)
    (modelType : ModelType) (params : List FitParameter) (weight : ℚ)
    (hnames : (params.map (fun p => p.name)).Nodup) :
    ∀ m ∈ acceptedMaps (runLevenbergMarquardtOptimization num w stop modelType params
      weight), ∀ p ∈ params, p.isFit = true → p.name ≠ "LfD" → p.min ≤ p.max →
      p.min ≤ QMap.value m p.name ∧ QMap.value m p.name ≤ p.max := by
  intro m hm p hp hfit hname hle
  obtain ⟨cur, delta, rfl⟩ := run_acceptedMaps num w stop modelType params weight m hm
  rw [updateDeps_value_ne _ _ hname]
  exact applyDelta_bounds num params cur delta hnames p hp hfit hle

/-- C2, witness: the skin `S` of the worked run stays in `[-10, 10]` in the accepted
step. -/
theorem accepted_step_within_bounds_witness :
    (exampleParams.map (fun p => p.name)).Nodup ∧
    exampleAcceptedMap ∈ acceptedMaps exampleRun ∧
    ({ name := "S", value := 0, isFit := true, min := -10, max := 10 } : FitParameter)
      ∈ exampleParams ∧
    ((-10 : ℚ) ≤ QMap.value exampleAcceptedMap "S" ∧
      QMap.value exampleAcceptedMap "S" ≤ 10) :=
  ⟨by decide!, by decide!, by decide!,
   accepted_step_within_bounds exampleNumerics exampleWidget (fun _ => false) 0
     exampleParams 1 (by decide!) exampleAcceptedMap (by decide!)
     { name := "S", value := 0, isFit := true, min := -10, max := 10 } (by decide!) rfl
     (by decide!) (by decide!)⟩

/-- C2, counterexample: the worked parameter list has unique names and every value in its
bounds, its run accepts one step, and in the accepted map the fit-enabled `LfD` is
`Lf / L = 1/2`, above its upper bound `1/10`. -/
theorem accepted_step_bounds_counterexample :
    (exampleParams.map (fun p => p.name)).Nodup ∧
    (∀ p ∈ exampleParams, p.min ≤ p.value ∧ p.value ≤ p.max) ∧
    acceptedMaps exampleRun = [exampleAcceptedMap] ∧
    ¬ (∀ m ∈ acceptedMaps exampleRun, ∀ p ∈ exampleParams, p.isFit = true →
        p.min ≤ QMap.value m p.name ∧ QMap.value m p.name ≤ p.max) := by
  decide!

/-- C4 (amended): with a model manager, when no parameter is fit-enabled the run is the
switch to low precision followed by the completion signal, without any snapshot; when
some parameter is fit-enabled, whichever way the loop ends, the run ends with a snapshot
immediately followed by the completion signal, which is signalled only there. -/
theorem final_snapshot_then_completion (num : Numerics) (w : FittingWidget)
    (stop : Nat → Bool) (modelType : ModelType) (params : List FitParameter) (weight : ℚ)
    (mm : ModelManager) (hm : w.modelManager = some mm) :
    if ∀ p ∈ params, p.isFit = false then
      runLevenbergMarquardtOptimization num w stop modelType params weight =
        [Event.setHighPrecision false, Event.fitFinished]
    else
      ∃ (pre : List Event) (err : ℚ) (map : QMap ℚ) (curve : ModelCurveData),
        runLevenbergMarquardtOptimization num w stop modelType params weight =
          pre ++ [Event.iterationUpdated err map curve, Event.fitFinished] ∧
        Event.fitFinished ∉ pre := by
  split
  · next h =>
    rw [run_noFit _ _ _ _ _ _ (fitIndicesOf_eq_nil params h), hm]
    rfl
  · next h =>
    have hfit : ∃ p ∈ params, p.isFit = true := by
      by_contra hcon
      apply h
      intro p hp
      cases hv : p.isFit with
      | false => rfl
      | true => exact absurd ⟨p, hp, hv⟩ hcon
    rw [run_main _ _ _ _ _ _ mm (fitIndicesOf_ne_nil params hfit) hm]
    refine ⟨Event.setHighPrecision false ::
        ((calculateResiduals num (lowPrecision w) (initialParamMap params) modelType
          weight).2 ++
        [Event.forwardModel false (initialParamMap params) none,
         Event.iterationUpdated
           ((initialState num (lowPrecision w) modelType params weight).currentSSE /
             (initialState num (lowPrecision w) modelType params weight).residuals.length)
           (initialParamMap params)
           (mm.calculateTheoreticalCurve false modelType (initialParamMap params) none)] ++
        (fitLoop num w mm stop modelType params weight).1 ++
        [Event.setHighPrecision true,
         Event.forwardModel true
           (updateDeps (fitLoop num w mm stop modelType params weight).2.currentParamMap)
           none]),
      (fitLoop num w mm stop modelType params weight).2.currentSSE /
        (fitLoop num w mm stop modelType params weight).2.residuals.length,
      updateDeps (fitLoop num w mm stop modelType params weight).2.currentParamMap,
      mm.calculateTheoreticalCurve true modelType
        (updateDeps (fitLoop num w mm stop modelType params weight).2.currentParamMap) none,
      ?_, ?_⟩
    · simp
    · have h1 : Event.fitFinished ∉ (calculateResiduals num (lowPrecision w)
          (initialParamMap params) modelType weight).2 := fun hmem => by
        have := calculateResiduals_events _ _ _ _ _ _ hmem
        simp [Event.isForwardModel] at this
      have h2 := outerLoop_noFinish num (lowPrecision w) mm stop modelType params weight
        (fitIndicesOf params) 50 50 0
        (initialState num (lowPrecision w) modelType params weight)
      simp [h1, fitLoop, h2]

/-- C4, witness: the worked widget has a model manager. -/
theorem final_snapshot_then_completion_witness :
    exampleWidget.modelManager = some exampleModel ∧
    (if ∀ p ∈ exampleParams, p.isFit = false then
      runLevenbergMarquardtOptimization exampleNumerics exampleWidget (fun _ => false) 0
        exampleParams 1 = [Event.setHighPrecision false, Event.fitFinished]
    else
      ∃ (pre : List Event) (err : ℚ) (map : QMap ℚ) (curve : ModelCurveData),
        runLevenbergMarquardtOptimization exampleNumerics exampleWidget (fun _ => false) 0
          exampleParams 1 =
          pre ++ [Event.iterationUpdated err map curve, Event.fitFinished] ∧
        Event.fitFinished ∉ pre) :=
  ⟨rfl, final_snapshot_then_completion exampleNumerics exampleWidget (fun _ => false) 0
    exampleParams 1 exampleModel rfl⟩

/-- C4, counterexample: on the path with zero fit-enabled parameters completion is
signalled and no snapshot is emitted. -/
theorem final_snapshot_counterexample :
    (∀ p ∈ exampleParamsNoFit, p.isFit = false) ∧
    Event.fitFinished ∈ exampleRunNoFit ∧
    ∀ e ∈ exampleRunNoFit, e.isSnapshot = false := by
  decide!

/-- C6, at the failing input: in the worked run, where `LfD` is fit-enabled, the Jacobian
builder passes to the forward model a map that contains `L = 2` and `Lf = 1` and has
`LfD = 51/100`, not `Lf / L`. -/
theorem derived_invariant_broken_in_jacobian :
    examplePerturbedMap ∈ modelMaps exampleRun ∧ ¬ DerivedOk examplePerturbedMap := by
  decide!

/-- C7: when no parameter has `isFit` set, the run consists of the switch to low
precision (when a model manager is set) and the completion signal: no call of the
forward model, no Jacobian build, no trial step, no accepted step and no snapshot. -/
theorem no_fit_parameter_completes_immediately (num : Numerics) (w : FittingWidget)
    (stop : Nat → Bool) (modelType : ModelType) (params : List FitParameter) (weight : ℚ)
    (h : ∀ p ∈ params, p.isFit = false) :
    runLevenbergMarquardtOptimization num w stop modelType params weight =
      (match w.modelManager with
        | some _ => [Event.setHighPrecision false]
        | none => []) ++ [Event.fitFinished] ∧
    modelMaps (runLevenbergMarquardtOptimization num w stop modelType params weight) = [] ∧
    jacobianIters (runLevenbergMarquardtOptimization num w stop modelType params weight)
      = [] ∧
    trialIters (runLevenbergMarquardtOptimization num w stop modelType params weight) = [] ∧
    acceptedSSEs (runLevenbergMarquardtOptimization num w stop modelType params weight)
      = [] ∧
    ∀ e ∈ runLevenbergMarquardtOptimization num w stop modelType params weight,
      e.isSnapshot = false := by
  rw [run_noFit _ _ _ _ _ _ (fitIndicesOf_eq_nil params h)]
  cases w.modelManager <;>
    simp [modelMaps, jacobianIters, trialIters, acceptedSSEs, Event.modelMap?,
      Event.jacobianIter?, Event.trialIter?, Event.acceptedSSE?, Event.isSnapshot]

/-- C7, witness: the worked parameter list without a fit-enabled parameter. -/
theorem no_fit_parameter_completes_immediately_witness :
    (∀ p ∈ exampleParamsNoFit, p.isFit = false) ∧
    exampleRunNoFit = [Event.setHighPrecision false, Event.fitFinished] :=
  ⟨by decide!,
   (no_fit_parameter_completes_immediately exampleNumerics exampleWidget (fun _ => false) 0
     exampleParamsNoFit 1 (by decide!)).1⟩

/-- C5, witness: the worked widget has a model manager and one observation; its residual
vector for the initial map has one pressure entry and no derivative entry. -/
theorem calculateResiduals_reference_witness :
    exampleWidget.modelManager = some exampleModel ∧ exampleWidget.obsTime ≠ [] ∧
    (calculateResiduals exampleNumerics exampleWidget (initialParamMap exampleParams) 0
      1).1.length = 1 + 0 :=
  ⟨rfl, by decide!,
   (calculateResiduals_reference exampleNumerics exampleWidget (initialParamMap exampleParams)
     0 1 exampleModel rfl (by decide!)).1⟩

/-! ## Start of a fit -/

theorem runFit_click_rejected (qt : QtText) (w : FittingWidget)
    (h : w.isFitting = true ∨ w.obsTime = []) :
    ∃ warned, on_btnRunFit_clicked qt w = some { widget := w, task := none, warned := warned } := by
  unfold on_btnRunFit_clicked
  by_cases hf : w.isFitting = true
  · exact ⟨false, by simp [hf]⟩
  · rcases h with h | h
    · exact absurd h hf
    · exact ⟨true, by simp [hf, h]⟩

theorem runFit_click_started (qt : QtText) (w : FittingWidget) (r : ClickResult)
    (h : on_btnRunFit_clicked qt w = some r) (ht : r.task.isSome = true) :
    w.isFitting = false ∧ w.obsTime ≠ [] ∧ r.widget.isFitting = true ∧
    r.widget.stopRequested = false := by
  unfold on_btnRunFit_clicked at h
  by_cases hf : w.isFitting = true
  · simp [hf] at h
    subst h
    simp at ht
  · by_cases ho : w.obsTime.isEmpty = true
    · simp [hf, ho] at h
      subst h
      simp at ht
    · simp only [hf, ho, if_false, Bool.false_eq_true] at h
      cases hu : updateParamsFromTable qt w.paramChart with
      | none => simp [hu] at h
      | some chart =>
        simp only [hu, Option.some.injEq] at h
        subst h
        refine ⟨by simpa using hf, ?_, rfl, rfl⟩
        intro hnil
        apply ho
        rw [hnil]
        rfl

theorem runFit_click_starts (qt : QtText) (w : FittingWidget) (chart : FittingParameterChart)
    (hf : w.isFitting = false) (ho : w.obsTime ≠ [])
    (hu : updateParamsFromTable qt w.paramChart = some chart) :
    on_btnRunFit_clicked qt w =
      some { widget := { w with paramChart := chart, isFitting := true,
                                stopRequested := false, btnRunFitEnabled := false },
             task := some { modelType := w.currentModelType, paramsCopy := chart.params,
                            w := (w.sliderWeight : ℚ) / 100 },
             warned := false } := by
  have ho2 : w.obsTime.isEmpty = false := by
    cases h : w.obsTime with
    | nil => exact absurd h ho
    | cons a t => rfl
  simp [on_btnRunFit_clicked, hf, ho2, hu]

/-- C8, at the failing input: with no fit in flight and observed data loaded, a click on
a table whose cell text is `,` has no defined result (`first()` of the empty list of
parts is taken before any task is started), whatever `QString::toDouble` does. -/
theorem runFit_click_on_comma_cell (qt : QtText) :
    exampleWidgetCommaCell.isFitting = false ∧ exampleWidgetCommaCell.obsTime ≠ [] ∧
    on_btnRunFit_clicked qt exampleWidgetCommaCell = none := by
  refine ⟨rfl, by decide!, ?_⟩
  have hcell : cellValue qt "," = none := by
    unfold cellValue
    rfl
  simp [on_btnRunFit_clicked, exampleWidgetCommaCell, exampleWidget, updateParamsFromTable,
    updateRows, hcell]

/-! ## Sensitivity parser -/

theorem splitParts_eq_splitOnP (isSep : Char → Bool) (l : List Char) :
    splitParts isSep l = l.splitOnP isSep := by
  induction l with
  | nil => simp [splitParts]
  | cons c cs ih =>
    rw [List.splitOnP_cons, splitParts, ih]
    by_cases hc : isSep c = true
    · simp [hc]
    · simp only [hc, if_false, Bool.false_eq_true]
      cases hs : List.splitOnP isSep cs with
      | nil => exact absurd hs (List.splitOnP_ne_nil isSep cs)
      | cons p ps => rfl

theorem splitParts_replace (l : List Char) :
    splitParts (fun c => c == asciiComma)
      (l.map (fun c => if c = fullWidthComma then asciiComma else c)) =
    splitParts (fun c => c == asciiComma || c == fullWidthComma) l := by
  induction l with
  | nil => rfl
  | cons c cs ih =>
    simp only [List.map_cons, splitParts, ih]
    by_cases h1 : c = fullWidthComma
    · simp [h1]
    · by_cases h2 : c = asciiComma
      · simp [h2]
      · simp [h1, h2]

theorem foldl_appendParsed (qt : QtText) (l : List (List Char)) (init : List ℚ) :
    l.foldl (appendParsed qt) init =
      init ++ l.filterMap (fun frag => qt.toDouble (qt.trimmed (String.mk frag))) := by
  induction l generalizing init with
  | nil => simp
  | cons a t ih =>
    rw [List.foldl_cons, ih, List.filterMap_cons]
    unfold appendParsed
    cases qt.toDouble (qt.trimmed (String.mk a)) <;> simp

/-- C9: for every text, `parseSensitivityValues` returns exactly the numbers, in input
order, of those fragments of the text (split at ASCII comma or full-width comma, empty
fragments skipped, each fragment trimmed) that parse as a double; a fragment that does not
parse contributes nothing, and the result is not longer than the list of non-empty
fragments. -/
theorem parseSensitivityValues_eq_spec (qt : QtText) (text : String) :
    parseSensitivityValues qt text = parseSensitivityValuesSpec qt text ∧
    (parseSensitivityValues qt text).length ≤ (specFragments text).length := by
  have heq : parseSensitivityValues qt text = parseSensitivityValuesSpec qt text := by
    have e0 : parseSensitivityValues qt text =
        [] ++ List.filterMap (fun part => qt.toDouble (qt.trimmed (String.mk part)))
          (splitSkipEmpty (fun c => c == asciiComma)
            (text.toList.map (fun c => if c = fullWidthComma then asciiComma else c))) :=
      foldl_appendParsed qt _ []
    rw [e0]
    unfold parseSensitivityValuesSpec specFragments splitSkipEmpty
    rw [List.nil_append, splitParts_replace, splitParts_eq_splitOnP]
    congr 1
    apply List.filter_congr
    intro p _
    cases p <;> simp
  refine ⟨heq, ?_⟩
  rw [heq]
  exact List.length_filterMap_le _ _

/-! ## Choice of the sweep parameter -/

theorem scan_locked (qt : QtText) (l : QMap String) (st : SweepScan)
    (h : st.sensitivityKey ≠ "") :
    (l.foldl (scanStep qt) st).sensitivityKey = st.sensitivityKey ∧
    (l.foldl (scanStep qt) st).sensitivityValues = st.sensitivityValues := by
  induction l generalizing st with
  | nil => exact ⟨rfl, rfl⟩
  | cons e t ih =>
    rw [List.foldl_cons]
    have hstep : (scanStep qt st e).sensitivityKey = st.sensitivityKey ∧
        (scanStep qt st e).sensitivityValues = st.sensitivityValues := by
      unfold scanStep
      split
      · exact ⟨rfl, rfl⟩
      · simp [h]
    have := ih (scanStep qt st e) (by rw [hstep.1]; exact h)
    rw [this.1, this.2]
    exact hstep

theorem scan_unlocked (qt : QtText) (l : QMap String) (st : SweepScan)
    (h : st.sensitivityKey = "") :
    match l.find? (isSweepCandidate qt) with
    | some e => (l.foldl (scanStep qt) st).sensitivityKey = e.1 ∧
        (l.foldl (scanStep qt) st).sensitivityValues = parseSensitivityValues qt e.2
    | none => (l.foldl (scanStep qt) st).sensitivityKey = "" := by
  induction l generalizing st with
  | nil => simpa using h
  | cons e t ih =>
    rw [List.foldl_cons, List.find?_cons]
    cases hp : parseSensitivityValues qt e.2 with
    | nil =>
      have hc : isSweepCandidate qt e = false := by simp [isSweepCandidate, hp]
      have hs : scanStep qt st e = { st with baseParams := QMap.insert st.baseParams e.1 0 } := by
        simp [scanStep, hp]
      rw [hc, hs]
      exact ih _ h
    | cons v vs =>
      by_cases hlen : (v :: vs).length > 1
      · by_cases hname : e.1 = ""
        · have hc : isSweepCandidate qt e = false := by simp [isSweepCandidate, hname]
          have hs : (scanStep qt st e).sensitivityKey = "" := by
            simp only [scanStep, hp]
            rw [if_pos ⟨hlen, h⟩]
            exact hname
          rw [hc]
          exact ih _ hs
        · have hc : isSweepCandidate qt e = true := by
            simp only [isSweepCandidate, hp, Bool.and_eq_true, decide_eq_true_eq]
            exact ⟨hlen, hname⟩
          have hk : (scanStep qt st e).sensitivityKey = e.1 ∧
              (scanStep qt st e).sensitivityValues = v :: vs := by
            simp only [scanStep, hp]
            rw [if_pos ⟨hlen, h⟩]
            exact ⟨rfl, rfl⟩
          rw [hc]
          have := scan_locked qt t (scanStep qt st e) (by rw [hk.1]; exact hname)
          show (List.foldl (scanStep qt) (scanStep qt st e) t).sensitivityKey = e.1 ∧
            (List.foldl (scanStep qt) (scanStep qt st e) t).sensitivityValues =
              parseSensitivityValues qt e.2
          rw [this.1, this.2, hp]
          exact hk
      · have hc : isSweepCandidate qt e = false := by
          simp only [isSweepCandidate, hp, Bool.and_eq_false_imp, decide_eq_true_eq]
          intro hh
          exact absurd hh hlen
        have hs : (scanStep qt st e).sensitivityKey = "" := by
          simp only [scanStep, hp]
          rw [if_neg (fun hh => hlen hh.1)]
          exact h
        rw [hc]
        exact ih _ hs

theorem isSensitivityMode_eq_candidate (qt : QtText) (rawTexts : QMap String) :
    isSensitivityMode qt rawTexts = (rawTexts.find? (isSweepCandidate qt)).isSome := by
  have hmain := scan_unlocked qt rawTexts
    { sensitivityKey := "", sensitivityValues := [], baseParams := [] } rfl
  unfold isSensitivityMode
  change _ = (rawTexts.find? (isSweepCandidate qt)).isSome
  cases hf : rawTexts.find? (isSweepCandidate qt) with
  | none =>
    rw [hf] at hmain
    have hk : (scanRawTexts qt rawTexts).sensitivityKey = "" := hmain
    simp [hk]
  | some e =>
    rw [hf] at hmain
    have hk : (scanRawTexts qt rawTexts).sensitivityKey = e.1 := hmain.1
    have hcand := List.find?_some hf
    simp only [isSweepCandidate, Bool.and_eq_true, decide_eq_true_eq] at hcand
    simp [hk, hcand.2]

/-! ## Damping schedule -/

theorem trialLoop_schedule (num : Numerics) (w : FittingWidget) (mm : ModelManager)
    (modelType : ModelType) (params : List FitParameter) (weight : ℚ) (fitIndices : List Nat)
    (H : List (List ℚ)) (g : List ℚ) (nRes iter n tryIter : Nat) (st : LMState) :
    ((trialLoop num w mm modelType params weight fitIndices H g nRes iter n tryIter st).2.2
        = true ∧
      ∃ k, k + 1 ≤ n ∧
        (trialIters (trialLoop num w mm modelType params weight fitIndices H g nRes iter n
          tryIter st).1).length = k + 1 ∧
        (acceptedSSEs (trialLoop num w mm modelType params weight fitIndices H g nRes iter n
          tryIter st).1).length = 1 ∧
        (trialLoop num w mm modelType params weight fitIndices H g nRes iter n tryIter
          st).2.1.lambda = st.lambda * 10 ^ k / 10) ∨
    ((trialLoop num w mm modelType params weight fitIndices H g nRes iter n tryIter st).2.2
        = false ∧
      (trialIters (trialLoop num w mm modelType params weight fitIndices H g nRes iter n
        tryIter st).1).length = n ∧
      acceptedSSEs (trialLoop num w mm modelType params weight fitIndices H g nRes iter n
        tryIter st).1 = [] ∧
      (trialLoop num w mm modelType params weight fitIndices H g nRes iter n tryIter
        st).2.1 = { st with lambda := st.lambda * 10 ^ n }) := by
  induction n generalizing tryIter st with
  | zero =>
    right
    simp [trialLoop, trialIters, acceptedSSEs]
  | succ n ih =>
    have hres := filterMap_modelCalls Event.trialIter?
      (calculateResiduals num w (trialMapOf num params fitIndices H g st) modelType weight).2
      (fun _ _ _ => rfl) (calculateResiduals_events _ _ _ _ _)
    have hres2 := filterMap_modelCalls Event.acceptedSSE?
      (calculateResiduals num w (trialMapOf num params fitIndices H g st) modelType weight).2
      (fun _ _ _ => rfl) (calculateResiduals_events _ _ _ _ _)
    by_cases h : calculateSumSquaredError (calculateResiduals num w
      (trialMapOf num params fitIndices H g st) modelType weight).1 < st.currentSSE
    · left
      rw [trialLoop_accept _ _ _ _ _ _ _ _ _ _ _ _ _ _ h]
      refine ⟨rfl, 0, by omega, ?_, ?_, ?_⟩
      · simp [trialIters, hres, Event.trialIter?]
      · simp [acceptedSSEs, hres2, Event.acceptedSSE?]
      · simp
    · rw [trialLoop_reject _ _ _ _ _ _ _ _ _ _ _ _ _ _ h]
      rcases ih (tryIter + 1) { st with lambda := st.lambda * 10 } with
        ⟨hacc, k, hk, hlen, hone, hlam⟩ | ⟨hacc, hlen, hnone, hst⟩
      · left
        refine ⟨hacc, k + 1, by omega, ?_, ?_, ?_⟩
        · simp only [trialIters] at hlen
          simp [trialIters, hres, Event.trialIter?, hlen]
        · simp only [acceptedSSEs] at hone
          simp [acceptedSSEs, hres2, Event.acceptedSSE?, hone]
        · rw [hlam]
          simp only [pow_succ]
          ring
      · right
        refine ⟨hacc, ?_, ?_, ?_⟩
        · simp only [trialIters] at hlen
          simp [trialIters, hres, Event.trialIter?, hlen]
        · simp only [acceptedSSEs] at hnone
          simp [acceptedSSEs, hres2, Event.acceptedSSE?, hnone]
        · rw [hst]
          simp only [pow_succ]
          congr 1
          ring

/-- C20: `lambda` starts at `0.01`.  In the trial loop of an outer iteration that starts
with damping `lambda`, every rejected trial step multiplies the damping by 10 and an
accepted one divides it by 10 and ends the loop: either the loop accepts after `k`
rejections, `0 <= k <= 4`, having made `k + 1` trial steps and one accepted step, and
leaves `lambda * 10 ^ (k - 1)`; or it makes 5 trial steps, accepts none and leaves
`lambda * 10 ^ 5` with the current parameter map, residuals and SSE unchanged. -/
theorem damping_schedule (num : Numerics) (w : FittingWidget) (mm : ModelManager)
    (modelType : ModelType) (params : List FitParameter) (weight : ℚ) (fitIndices : List Nat)
    (H : List (List ℚ)) (g : List ℚ) (nRes iter : Nat) (st : LMState) :
    (initialState num w modelType params weight).lambda = 0.01 ∧
    (((trialLoop num w mm modelType params weight fitIndices H g nRes iter 5 0 st).2.2 = true ∧
      ∃ k : Nat, k ≤ 4 ∧
        (trialIters (trialLoop num w mm modelType params weight fitIndices H g nRes iter 5 0
          st).1).length = k + 1 ∧
        (acceptedSSEs (trialLoop num w mm modelType params weight fitIndices H g nRes iter 5
          0 st).1).length = 1 ∧
        (trialLoop num w mm modelType params weight fitIndices H g nRes iter 5 0
          st).2.1.lambda = st.lambda * (10 : ℚ) ^ ((k : ℤ) - 1)) ∨
     ((trialLoop num w mm modelType params weight fitIndices H g nRes iter 5 0 st).2.2
        = false ∧
      (trialIters (trialLoop num w mm modelType params weight fitIndices H g nRes iter 5 0
        st).1).length = 5 ∧
      acceptedSSEs (trialLoop num w mm modelType params weight fitIndices H g nRes iter 5 0
        st).1 = [] ∧
      (trialLoop num w mm modelType params weight fitIndices H g nRes iter 5 0 st).2.1 =
        { lambda := st.lambda * 10 ^ 5, currentSSE := st.currentSSE,
          currentParamMap := st.currentParamMap, residuals := st.residuals })) := by
  refine ⟨rfl, ?_⟩
  rcases trialLoop_schedule num w mm modelType params weight fitIndices H g nRes iter 5 0 st
    with ⟨hacc, k, hk, hlen, hone, hlam⟩ | ⟨hacc, hlen, hnone, hst⟩
  · left
    refine ⟨hacc, k, by omega, hlen, hone, ?_⟩
    rw [hlam, zpow_sub₀ (by norm_num : (10 : ℚ) ≠ 0), zpow_natCast, zpow_one]
    ring
  · right
    exact ⟨hacc, hlen, hnone, hst⟩

/-! ## The trial steps of one iteration -/

theorem mem_trialIters_of_mem (evs : List Event) (it ti : Nat) (m : QMap ℚ) (sse : ℚ)
    (h : Event.trialStep it ti m sse ∈ evs) : it ∈ trialIters evs := by
  unfold trialIters
  rw [List.mem_filterMap]
  exact ⟨_, h, rfl⟩

/-- Every trial step of a trial loop started from `st` updates from the parameter map of
`st`, with the damping `st.lambda * 10 ^ (ti - tryIter)` on the matrix `H` of the loop. -/
theorem trialLoop_steps (num : Numerics) (w : FittingWidget) (mm : ModelManager)
    (modelType : ModelType) (params : List FitParameter) (weight : ℚ) (fitIndices : List Nat)
    (H : List (List ℚ)) (g : List ℚ) (nRes iter n tryIter : Nat) (st : LMState)
    (it ti : Nat) (m : QMap ℚ) (sse : ℚ)
    (h : Event.trialStep it ti m sse ∈
      (trialLoop num w mm modelType params weight fitIndices H g nRes iter n tryIter st).1) :
    it = iter ∧ tryIter ≤ ti ∧ ti < tryIter + n ∧
    m = updateDeps (applyDelta num params fitIndices st.currentParamMap
      (trialDelta num fitIndices H g (st.lambda * 10 ^ (ti - tryIter)))) := by
  induction n generalizing tryIter st with
  | zero => simp [trialLoop] at h
  | succ n ih =>
    have hres : Event.trialStep it ti m sse ∉ (calculateResiduals num w
        (trialMapOf num params fitIndices H g st) modelType weight).2 := by
      intro hmem
      have := calculateResiduals_events _ _ _ _ _ _ hmem
      simp [Event.isForwardModel] at this
    by_cases hlt : calculateSumSquaredError (calculateResiduals num w
      (trialMapOf num params fitIndices H g st) modelType weight).1 < st.currentSSE
    · rw [trialLoop_accept _ _ _ _ _ _ _ _ _ _ _ _ _ _ hlt] at h
      simp only [List.mem_append, List.mem_cons, List.mem_singleton, hres, false_or,
        Event.trialStep.injEq, List.not_mem_nil, or_false] at h
      rcases h with ⟨h1, h2, h3, _⟩ | h | h | h
      · subst h1; subst h2
        refine ⟨rfl, le_refl _, by omega, ?_⟩
        rw [h3]
        simp [trialMapOf]
      · cases h
      · cases h
      · cases h
    · rw [trialLoop_reject _ _ _ _ _ _ _ _ _ _ _ _ _ _ hlt] at h
      simp only [List.mem_append, List.mem_cons, hres, false_or,
        Event.trialStep.injEq] at h
      rcases h with ⟨h1, h2, h3, _⟩ | h
      · subst h1; subst h2
        refine ⟨rfl, le_refl _, by omega, ?_⟩
        rw [h3]
        simp [trialMapOf]
      · obtain ⟨e1, e2, e3, e4⟩ := ih (tryIter + 1) { st with lambda := st.lambda * 10 } h
        refine ⟨e1, by omega, by omega, ?_⟩
        rw [e4]
        have hti : ti - tryIter = (ti - (tryIter + 1)) + 1 := by omega
        rw [hti, pow_succ]
        simp only
        congr 3
        ring

theorem outerLoop_first_trials (num : Numerics) (w : FittingWidget) (mm : ModelManager)
    (stop : Nat → Bool) (modelType : ModelType) (params : List FitParameter) (weight : ℚ)
    (fitIndices : List Nat) (maxIter n iter : Nat) (st : LMState)
    (ti : Nat) (m : QMap ℚ) (sse : ℚ)
    (h : Event.trialStep iter ti m sse ∈
      (outerLoop num w mm stop modelType params weight fitIndices maxIter (n + 1) iter st).1) :
    Event.trialStep iter ti m sse ∈
      (iterationTrials num w mm modelType params weight fitIndices iter st).1 := by
  have hjev : Event.trialStep iter ti m sse ∉
      (iterationJacobian num w modelType params weight fitIndices st).2 := by
    intro hmem
    have := computeJacobian_events _ _ _ _ _ _ _ _ _ hmem
    simp [Event.isForwardModel] at this
  have hrest : ∀ st', Event.trialStep iter ti m sse ∉
      (outerLoop num w mm stop modelType params weight fitIndices maxIter n (iter + 1)
        st').1 := by
    intro st' hmem
    have h1 := mem_trialIters_of_mem _ _ _ _ _ hmem
    have h2 := ((outerLoop_trials num w mm stop modelType params weight fitIndices maxIter n
      (iter + 1) st').1 iter h1).1
    omega
  unfold outerLoop at h
  by_cases h1 : stop iter = true
  · simp [h1] at h
  · by_cases h2 : (!st.residuals.isEmpty &&
        decide (st.currentSSE / st.residuals.length < 3e-3)) = true
    · simp only [h1, h2, if_true, if_false] at h
      simp at h
    · simp only [h1, h2, if_false, Bool.false_eq_true] at h
      split at h
      · simp only [List.mem_cons, List.mem_append] at h
        rcases h with h | h | h | h
        · cases h
        · cases h
        · exact absurd h hjev
        · exact h
      · simp only [List.mem_cons, List.mem_append, List.cons_append] at h
        rcases h with h | h | (h | h) | h
        · cases h
        · cases h
        · exact absurd h hjev
        · exact h
        · exact absurd h (hrest _)

/-! ## Normal equations -/

theorem foldl_add_eq_sum (f : Nat → ℚ) (n : Nat) :
    (List.range n).foldl (fun acc k => acc + f k) 0 = ∑ k in Finset.range n, f k := by
  induction n with
  | zero => simp
  | succ n ih =>
    rw [List.range_succ, List.foldl_append, ih, Finset.sum_range_succ]
    rfl

theorem matEntry_table (f : Nat → Nat → ℚ) (n i j : Nat) (hi : i < n) (hj : j < n) :
    matEntry ((List.range n).map (fun a => (List.range n).map (fun b => f a b))) i j =
      f i j := by
  unfold matEntry
  simp [List.getD_eq_getElem?_getD, List.getElem?_map, List.getElem?_range, hi, hj]

theorem normalMatrix_entry (J : List (List ℚ)) (nRes nParams i j : Nat) (hi : i < nParams)
    (hj : j < nParams) :
    matEntry (normalMatrix J nRes nParams) i j =
      ∑ k in Finset.range nRes, matEntry J k i * matEntry J k j := by
  unfold normalMatrix
  rw [matEntry_table _ nParams i j hi hj]
  split
  · exact foldl_add_eq_sum _ _
  · rw [foldl_add_eq_sum]
    exact Finset.sum_congr rfl (fun k _ => mul_comm _ _)

/-- C19: in each outer iteration, with `J` the Jacobian built from the state of the
iteration, the matrix of the normal equations is `H[i][j] = sum_k J[k][i] * J[k][j]` for
all `i, j` (so `H` is symmetric), `g[i] = sum_k J[k][i] * r[k]` and the right-hand side is
`-g`; the damped matrix for damping `lambda` equals `H` off the diagonal and
`H[i][i] + lambda * (1 + |H[i][i]|)` on it; and every trial step `ti` of the iteration
solves the system damped from that same undamped `H`, with the damping
`lambda * 10 ^ ti` of that step (damping is not accumulated in the matrix). -/
theorem normal_equations_and_damping (num : Numerics) (w : FittingWidget) (mm : ModelManager)
    (stop : Nat → Bool) (modelType : ModelType) (params : List FitParameter) (weight : ℚ)
    (fitIndices : List Nat) (maxIter n iter : Nat) (st : LMState) :
    let J := (iterationJacobian num w modelType params weight fitIndices st).1
    let nRes := st.residuals.length
    let nParams := fitIndices.length
    let H := normalMatrix J nRes nParams
    let g := gradient J st.residuals nRes nParams
    (∀ i j, i < nParams → j < nParams →
      matEntry H i j = ∑ k in Finset.range nRes, matEntry J k i * matEntry J k j) ∧
    (∀ i j, i < nParams → j < nParams → matEntry H i j = matEntry H j i) ∧
    (∀ i, i < nParams →
      g.getD i 0 = ∑ k in Finset.range nRes, matEntry J k i * st.residuals.getD k 0) ∧
    (∀ lambda : ℚ, trialDelta num fitIndices H g lambda =
      solveLinearSystem num (dampedMatrix H lambda nParams)
        ((List.range nParams).map (fun i => - g.getD i 0))) ∧
    (∀ (lambda : ℚ) i j, i < nParams → j < nParams →
      matEntry (dampedMatrix H lambda nParams) i j =
        if i = j then matEntry H i i + lambda * (1 + |matEntry H i i|)
        else matEntry H i j) ∧
    (∀ ti m sse, Event.trialStep iter ti m sse ∈
        (outerLoop num w mm stop modelType params weight fitIndices maxIter (n + 1) iter
          st).1 →
      ti < 5 ∧
      m = updateDeps (applyDelta num params fitIndices st.currentParamMap
        (solveLinearSystem num (dampedMatrix H (st.lambda * 10 ^ ti) nParams)
          ((List.range nParams).map (fun i => - g.getD i 0))))) := by
  intro J nRes nParams H g
  refine ⟨fun i j hi hj => normalMatrix_entry J nRes nParams i j hi hj, ?_, ?_, ?_, ?_, ?_⟩
  · intro i j hi hj
    rw [normalMatrix_entry J nRes nParams i j hi hj, normalMatrix_entry J nRes nParams j i hj hi]
    exact Finset.sum_congr rfl (fun k _ => mul_comm _ _)
  · intro i hi
    show (gradient J st.residuals nRes nParams).getD i 0 = _
    unfold gradient
    simp only [List.getD_eq_getElem?_getD, List.getElem?_map, List.getElem?_range hi,
      Option.map_some', Option.getD_some]
    rw [← foldl_add_eq_sum]
  · intro lambda
    rfl
  · intro lambda i j hi hj
    unfold dampedMatrix
    exact matEntry_table _ nParams i j hi hj
  · intro ti m sse hmem
    have h1 := outerLoop_first_trials num w mm stop modelType params weight fitIndices
      maxIter n iter st ti m sse hmem
    obtain ⟨_, _, hlt, hm⟩ := trialLoop_steps num w mm modelType params weight fitIndices
      H g nRes iter 5 0 st iter ti m sse h1
    refine ⟨by omega, ?_⟩
    rw [hm]
    rfl

/-! ## Jacobian builder -/

theorem jacobianColumn_eq (num : Numerics) (w : FittingWidget) (params : QMap ℚ) (nRes : Nat)
    (modelType : ModelType) (currentFitParams : List FitParameter) (weight : ℚ) (idx : Nat) :
    jacobianColumn num w params nRes modelType currentFitParams weight idx =
      (if (calculateResiduals num w (perturbedParams num params
              (currentFitParams.getD idx default).name true) modelType weight).1.length = nRes ∧
          (calculateResiduals num w (perturbedParams num params
              (currentFitParams.getD idx default).name false) modelType weight).1.length = nRes
       then (List.range nRes).map (fun i =>
          ((calculateResiduals num w (perturbedParams num params
              (currentFitParams.getD idx default).name true) modelType weight).1.getD i 0 -
            (calculateResiduals num w (perturbedParams num params
              (currentFitParams.getD idx default).name false) modelType weight).1.getD i 0) /
          (2 * (if isLogMode (QMap.value params (currentFitParams.getD idx default).name)
                  (currentFitParams.getD idx default).name then 0.01 else 1e-4)))
       else List.replicate nRes 0,
       (calculateResiduals num w (perturbedParams num params
          (currentFitParams.getD idx default).name true) modelType weight).2 ++
       (calculateResiduals num w (perturbedParams num params
          (currentFitParams.getD idx default).name false) modelType weight).2) := by
  unfold jacobianColumn perturbedParams
  by_cases hlog : isLogMode (QMap.value params (currentFitParams.getD idx default).name)
      (currentFitParams.getD idx default).name = true
  · simp [hlog]
  · simp [hlog]

theorem getD_map_range (f : Nat → ℚ) (n i : Nat) (hi : i < n) :
    ((List.range n).map f).getD i 0 = f i := by
  simp [List.getD_eq_getElem?_getD, List.getElem?_map, List.getElem?_range hi]

theorem computeJacobian_entry (num : Numerics) (w : FittingWidget) (params : QMap ℚ)
    (baseResiduals : List ℚ) (fitIndices : List Nat) (modelType : ModelType)
    (currentFitParams : List FitParameter) (weight : ℚ) (i j : Nat)
    (hi : i < baseResiduals.length) (hj : j < fitIndices.length) :
    matEntry (computeJacobian num w params baseResiduals fitIndices modelType
      currentFitParams weight).1 i j =
      (jacobianColumn num w params baseResiduals.length modelType currentFitParams weight
        (fitIndices.getD j 0)).1.getD i 0 := by
  unfold computeJacobian matEntry
  simp [List.getD_eq_getElem?_getD, List.getElem?_map, List.getElem?_range, hi,
    List.getElem?_eq_getElem hj]

theorem perturbedParams_value_self (num : Numerics) (params : QMap ℚ) (pName : String)
    (up : Bool) (hname : pName ≠ "LfD") :
    QMap.value (perturbedParams num params pName up) pName =
      if isLogMode (QMap.value params pName) pName = true
      then num.pow 10 (if up then num.log10 (QMap.value params pName) + 0.01
                       else num.log10 (QMap.value params pName) - 0.01)
      else (if up then QMap.value params pName + 1e-4 else QMap.value params pName - 1e-4) := by
  unfold perturbedParams
  by_cases hlog : isLogMode (QMap.value params pName) pName = true
  · simp only [hlog, if_true]
    split
    · rw [updateDeps_value_ne _ _ hname]
      exact QMap.value_insert_self _ _ _
    · exact QMap.value_insert_self _ _ _
  · simp only [hlog, if_false, Bool.false_eq_true]
    split
    · rw [updateDeps_value_ne _ _ hname]
      exact QMap.value_insert_self _ _ _
    · exact QMap.value_insert_self _ _ _

theorem perturbedParams_value_other (num : Numerics) (params : QMap ℚ) (pName : String)
    (up : Bool) (k : String) (hk : k ≠ pName) (hd : k ≠ "LfD") :
    QMap.value (perturbedParams num params pName up) k = QMap.value params k := by
  unfold perturbedParams
  by_cases hlog : isLogMode (QMap.value params pName) pName = true
  · simp only [hlog, if_true]
    split
    · rw [updateDeps_value_ne _ _ hd]
      exact QMap.value_insert_ne _ _ _ _ hk
    · exact QMap.value_insert_ne _ _ _ _ hk
  · simp only [hlog, if_false, Bool.false_eq_true]
    split
    · rw [updateDeps_value_ne _ _ hd]
      exact QMap.value_insert_ne _ _ _ _ hk
    · exact QMap.value_insert_ne _ _ _ _ hk

theorem perturbedParams_value_derived (num : Numerics) (params : QMap ℚ) (up : Bool) :
    QMap.value (perturbedParams num params "LfD" up) "LfD" =
      if isLogMode (QMap.value params "LfD") "LfD" = true
      then num.pow 10 (if up then num.log10 (QMap.value params "LfD") + 0.01
                       else num.log10 (QMap.value params "LfD") - 0.01)
      else (if up then QMap.value params "LfD" + 1e-4 else QMap.value params "LfD" - 1e-4) := by
  unfold perturbedParams
  have h1 : ¬ (("LfD" : String) = "L" ∨ ("LfD" : String) = "Lf") := by decide
  by_cases hlog : isLogMode (QMap.value params "LfD") "LfD" = true
  · simp only [hlog, if_true, h1, if_false]
    exact QMap.value_insert_self _ _ _
  · simp only [hlog, if_false, Bool.false_eq_true, h1]
    exact QMap.value_insert_self _ _ _

theorem calculateResiduals_modelMaps (num : Numerics) (w : FittingWidget) (params : QMap ℚ)
    (modelType : ModelType) (weight : ℚ) :
    ∀ m ∈ modelMaps (calculateResiduals num w params modelType weight).2, m = params := by
  intro m hm
  unfold calculateResiduals at hm
  cases hmm : w.modelManager with
  | none => simp [hmm, modelMaps] at hm
  | some mm =>
    by_cases ho : w.obsTime.isEmpty = true
    · simp [hmm, ho, modelMaps] at hm
    · simp only [hmm, ho] at hm
      simp [modelMaps, Event.modelMap?] at hm
      exact hm

theorem computeJacobian_modelMaps (num : Numerics) (w : FittingWidget) (params : QMap ℚ)
    (baseResiduals : List ℚ) (fitIndices : List Nat) (modelType : ModelType)
    (currentFitParams : List FitParameter) (weight : ℚ) :
    ∀ m ∈ modelMaps (computeJacobian num w params baseResiduals fitIndices modelType
      currentFitParams weight).2,
      ∃ idx ∈ fitIndices, ∃ up, m = perturbedParams num params
        (currentFitParams.getD idx default).name up := by
  intro m hm
  simp only [modelMaps, computeJacobian, List.mem_filterMap, List.mem_flatten,
    List.mem_map] at hm
  obtain ⟨e, ⟨l, ⟨c, ⟨idx, hidx, hc⟩, hl⟩, hel⟩, hme⟩ := hm
  subst hc; subst hl
  rw [jacobianColumn_eq] at hel
  simp only [List.mem_append] at hel
  rcases hel with hel | hel
  · refine ⟨idx, hidx, true, ?_⟩
    apply calculateResiduals_modelMaps num w _ modelType weight
    simp only [modelMaps, List.mem_filterMap]
    exact ⟨e, hel, hme⟩
  · refine ⟨idx, hidx, false, ?_⟩
    apply calculateResiduals_modelMaps num w _ modelType weight
    simp only [modelMaps, List.mem_filterMap]
    exact ⟨e, hel, hme⟩

/-- C16: `computeJacobian` returns `|baseResiduals|` rows of `|fitIndices|` entries.  For
the active parameter at column `j`, with name `pName` and current value `v`, the mode is
log-space iff `v > 1e-12` and the name is neither `S` nor `nf`; the step `h` is `0.01` in
log mode and `1e-4` otherwise; the perturbed maps hold `10^(log10 v + h)` and
`10^(log10 v - h)` in log mode, `v + h` and `v - h` otherwise, under `pName`, and the values
of `params` under every other name but the derived `LfD`; every forward-model call of
the builder is made on such a perturbed map; and when both perturbed residual vectors
have the base length, every entry `J[i][j]` is `(rPlus[i] - rMinus[i]) / (2h)`. -/
theorem computeJacobian_shape_and_entries (num : Numerics) (w : FittingWidget)
    (params : QMap ℚ) (baseResiduals : List ℚ) (fitIndices : List Nat)
    (modelType : ModelType) (currentFitParams : List FitParameter) (weight : ℚ) :
    let J := (computeJacobian num w params baseResiduals fitIndices modelType
      currentFitParams weight)
    J.1.length = baseResiduals.length ∧
    (∀ row ∈ J.1, row.length = fitIndices.length) ∧
    (∀ m ∈ modelMaps J.2, ∃ idx ∈ fitIndices, ∃ up,
      m = perturbedParams num params (currentFitParams.getD idx default).name up) ∧
    ∀ j, j < fitIndices.length →
      let pName := (currentFitParams.getD (fitIndices.getD j 0) default).name
      let v := QMap.value params pName
      let h : ℚ := if v > 1e-12 ∧ pName ≠ "S" ∧ pName ≠ "nf" then 0.01 else 1e-4
      let pPlus := perturbedParams num params pName true
      let pMinus := perturbedParams num params pName false
      let rPlus := (calculateResiduals num w pPlus modelType weight).1
      let rMinus := (calculateResiduals num w pMinus modelType weight).1
      (QMap.value pPlus pName =
        if v > 1e-12 ∧ pName ≠ "S" ∧ pName ≠ "nf" then num.pow 10 (num.log10 v + h)
        else v + h) ∧
      (QMap.value pMinus pName =
        if v > 1e-12 ∧ pName ≠ "S" ∧ pName ≠ "nf" then num.pow 10 (num.log10 v - h)
        else v - h) ∧
      (∀ k, k ≠ pName → k ≠ "LfD" →
        QMap.value pPlus k = QMap.value params k ∧
        QMap.value pMinus k = QMap.value params k) ∧
      (rPlus.length = baseResiduals.length → rMinus.length = baseResiduals.length →
        ∀ i, i < baseResiduals.length →
          matEntry J.1 i j = (rPlus.getD i 0 - rMinus.getD i 0) / (2 * h)) := by
  intro J
  refine ⟨by simp [J, computeJacobian], ?_, computeJacobian_modelMaps _ _ _ _ _ _ _ _, ?_⟩
  · intro row hrow
    simp only [J, computeJacobian, List.mem_map, List.mem_range] at hrow
    obtain ⟨i, _, hi⟩ := hrow
    rw [← hi]
    simp
  · intro j hj pName v h pPlus pMinus rPlus rMinus
    have hmode : (isLogMode v pName = true) ↔ (v > 1e-12 ∧ pName ≠ "S" ∧ pName ≠ "nf") := by
      simp [isLogMode, and_assoc]
    have hself : ∀ up, QMap.value (perturbedParams num params pName up) pName =
        if isLogMode v pName = true
        then num.pow 10 (if up then num.log10 v + 0.01 else num.log10 v - 0.01)
        else (if up then v + 1e-4 else v - 1e-4) := by
      intro up
      by_cases hd : pName = "LfD"
      · have := perturbedParams_value_derived num params up
        simp only [v]
        rw [hd]
        exact this
      · exact perturbedParams_value_self num params pName up hd
    refine ⟨?_, ?_, ?_, ?_⟩
    · show QMap.value (perturbedParams num params pName true) pName = _
      rw [hself true]
      by_cases hm : isLogMode v pName = true
      · have hm2 := hmode.mp hm
        simp only [hm, if_true, h, if_pos hm2]
      · have hm2 : ¬ (v > 1e-12 ∧ pName ≠ "S" ∧ pName ≠ "nf") := fun hh => hm (hmode.mpr hh)
        simp only [hm, h, if_neg hm2]
        all_goals simp
    · show QMap.value (perturbedParams num params pName false) pName = _
      rw [hself false]
      by_cases hm : isLogMode v pName = true
      · have hm2 := hmode.mp hm
        simp only [hm, if_true, h, if_pos hm2]
        all_goals simp
      · have hm2 : ¬ (v > 1e-12 ∧ pName ≠ "S" ∧ pName ≠ "nf") := fun hh => hm (hmode.mpr hh)
        simp only [hm, h, if_neg hm2]
        all_goals simp
    · intro k hk hd
      exact ⟨perturbedParams_value_other num params pName true k hk hd,
        perturbedParams_value_other num params pName false k hk hd⟩
    · intro hp hmn i hi
      show matEntry (computeJacobian num w params baseResiduals fitIndices modelType
        currentFitParams weight).1 i j = _
      rw [computeJacobian_entry _ _ _ _ _ _ _ _ i j hi hj, jacobianColumn_eq]
      have hboth : (calculateResiduals num w (perturbedParams num params
            (currentFitParams.getD (fitIndices.getD j 0) default).name true) modelType
            weight).1.length = baseResiduals.length ∧
          (calculateResiduals num w (perturbedParams num params
            (currentFitParams.getD (fitIndices.getD j 0) default).name false) modelType
            weight).1.length = baseResiduals.length := ⟨hp, hmn⟩
      simp only [if_pos hboth]
      rw [getD_map_range _ _ _ hi]
      have hh : (if isLogMode (QMap.value params
            (currentFitParams.getD (fitIndices.getD j 0) default).name)
            (currentFitParams.getD (fitIndices.getD j 0) default).name = true
          then (0.01 : ℚ) else 1e-4) = h := by
        by_cases hm : isLogMode v pName = true
        · have hm2 := hmode.mp hm
          simp only [h, if_pos hm2]
          exact if_pos hm
        · have hm2 : ¬ (v > 1e-12 ∧ pName ≠ "S" ∧ pName ≠ "nf") :=
            fun hh => hm (hmode.mpr hh)
          simp only [h, if_neg hm2]
          exact if_neg hm
      rw [hh]

theorem getD_replicate_zero (n i : Nat) : (List.replicate n (0 : ℚ)).getD i 0 = 0 := by
  by_cases hi : i < n
  · rw [List.getD_eq_getElem _ _ (by simpa using hi)]
    simp
  · exact List.getD_eq_default _ _ (by simpa using hi)

theorem computeJacobian_entry_outside (num : Numerics) (w : FittingWidget) (params : QMap ℚ)
    (baseResiduals : List ℚ) (fitIndices : List Nat) (modelType : ModelType)
    (currentFitParams : List FitParameter) (weight : ℚ) (i j : Nat)
    (hi : baseResiduals.length ≤ i) :
    matEntry (computeJacobian num w params baseResiduals fitIndices modelType
      currentFitParams weight).1 i j = 0 := by
  unfold matEntry
  have hlen : (computeJacobian num w params baseResiduals fitIndices modelType
      currentFitParams weight).1.length ≤ i := by
    simp only [computeJacobian, List.length_map, List.length_range]
    exact hi
  have h0 : (computeJacobian num w params baseResiduals fitIndices modelType
      currentFitParams weight).1.getD i [] = [] := List.getD_eq_default _ _ hlen
  rw [h0]
  rfl

/-- C17: in `computeJacobian`, if for the active parameter of column `j` either perturbed
evaluation returns a residual vector whose length differs from the base length, column `j`
of the matrix is all zeros; and any column `j2` depends on the forward model only through
its own two perturbed evaluations, so it is the same as for a forward model (widget `w2`)
that agrees on these two and gives no mismatch elsewhere. -/
theorem jacobian_mismatch_zero_column (num : Numerics) (w w2 : FittingWidget)
    (params : QMap ℚ) (baseResiduals : List ℚ) (fitIndices : List Nat)
    (modelType : ModelType) (currentFitParams : List FitParameter) (weight : ℚ) :
    (∀ j, j < fitIndices.length →
      ((calculateResiduals num w (perturbedParams num params
          (currentFitParams.getD (fitIndices.getD j 0) default).name true) modelType
          weight).1.length ≠ baseResiduals.length ∨
       (calculateResiduals num w (perturbedParams num params
          (currentFitParams.getD (fitIndices.getD j 0) default).name false) modelType
          weight).1.length ≠ baseResiduals.length) →
      ∀ i, matEntry (computeJacobian num w params baseResiduals fitIndices modelType
        currentFitParams weight).1 i j = 0) ∧
    (∀ j2, j2 < fitIndices.length →
      (calculateResiduals num w2 (perturbedParams num params
          (currentFitParams.getD (fitIndices.getD j2 0) default).name true) modelType
          weight).1 =
        (calculateResiduals num w (perturbedParams num params
          (currentFitParams.getD (fitIndices.getD j2 0) default).name true) modelType
          weight).1 →
      (calculateResiduals num w2 (perturbedParams num params
          (currentFitParams.getD (fitIndices.getD j2 0) default).name false) modelType
          weight).1 =
        (calculateResiduals num w (perturbedParams num params
          (currentFitParams.getD (fitIndices.getD j2 0) default).name false) modelType
          weight).1 →
      ∀ i, matEntry (computeJacobian num w2 params baseResiduals fitIndices modelType
          currentFitParams weight).1 i j2 =
        matEntry (computeJacobian num w params baseResiduals fitIndices modelType
          currentFitParams weight).1 i j2) := by
  constructor
  · intro j hj hmis i
    by_cases hi : i < baseResiduals.length
    · rw [computeJacobian_entry _ _ _ _ _ _ _ _ i j hi hj, jacobianColumn_eq]
      have hnot : ¬ ((calculateResiduals num w (perturbedParams num params
            (currentFitParams.getD (fitIndices.getD j 0) default).name true) modelType
            weight).1.length = baseResiduals.length ∧
          (calculateResiduals num w (perturbedParams num params
            (currentFitParams.getD (fitIndices.getD j 0) default).name false) modelType
            weight).1.length = baseResiduals.length) := by
        intro hboth
        rcases hmis with h | h
        · exact h hboth.1
        · exact h hboth.2
      simp only [if_neg hnot]
      exact getD_replicate_zero _ _
    · exact computeJacobian_entry_outside _ _ _ _ _ _ _ _ i j (by omega)
  · intro j2 hj2 hplus hminus i
    by_cases hi : i < baseResiduals.length
    · rw [computeJacobian_entry _ _ _ _ _ _ _ _ i j2 hi hj2,
        computeJacobian_entry _ _ _ _ _ _ _ _ i j2 hi hj2, jacobianColumn_eq,
        jacobianColumn_eq]
      simp only [hplus, hminus]
    · rw [computeJacobian_entry_outside _ _ _ _ _ _ _ _ i j2 (by omega),
        computeJacobian_entry_outside _ _ _ _ _ _ _ _ i j2 (by omega)]

/-- C17, witness: with the unstable forward model the upward perturbation of the skin `S`
(column 1) returns no residual, against a base length of 1, so column 1 is zero; column 0
(the derived `LfD`) is evaluated alike by the stable forward model and is the same in
both Jacobians. -/
theorem jacobian_mismatch_zero_column_witness :
    ((calculateResiduals exampleNumerics exampleWidgetUnstable
        (perturbedParams exampleNumerics (initialParamMap exampleParams)
          (exampleParams.getD ((fitIndicesOf exampleParams).getD 1 0) default).name true)
        0 1).1.length ≠ [(-1 : ℚ)].length) ∧
    (∀ i, matEntry (computeJacobian exampleNumerics exampleWidgetUnstable
        (initialParamMap exampleParams) [-1] (fitIndicesOf exampleParams) 0 exampleParams
        1).1 i 1 = 0) ∧
    (∀ i, matEntry (computeJacobian exampleNumerics exampleWidget
        (initialParamMap exampleParams) [-1] (fitIndicesOf exampleParams) 0 exampleParams
        1).1 i 0 =
      matEntry (computeJacobian exampleNumerics exampleWidgetUnstable
        (initialParamMap exampleParams) [-1] (fitIndicesOf exampleParams) 0 exampleParams
        1).1 i 0) :=
  ⟨by decide!,
   (jacobian_mismatch_zero_column exampleNumerics exampleWidgetUnstable exampleWidget
     (initialParamMap exampleParams) [-1] (fitIndicesOf exampleParams) 0 exampleParams 1).1
     1 (by decide!) (Or.inl (by decide!)),
   (jacobian_mismatch_zero_column exampleNumerics exampleWidgetUnstable exampleWidget
     (initialParamMap exampleParams) [-1] (fitIndicesOf exampleParams) 0 exampleParams 1).2
     0 (by decide!) (by decide!) (by decide!)⟩

/-! ## Update rule and perturbation mode -/

theorem isLogMode_iff (v : ℚ) (pName : String) :
    isLogMode v pName = true ↔ (v > 1e-12 ∧ pName ≠ "S" ∧ pName ≠ "nf") := by
  simp [isLogMode, and_assoc]

theorem perturbedParams_value (num : Numerics) (params : QMap ℚ) (pName : String) (up : Bool) :
    QMap.value (perturbedParams num params pName up) pName =
      if QMap.value params pName > 1e-12 ∧ pName ≠ "S" ∧ pName ≠ "nf"
      then num.pow 10 (if up then num.log10 (QMap.value params pName) + 0.01
                       else num.log10 (QMap.value params pName) - 0.01)
      else (if up then QMap.value params pName + 1e-4 else QMap.value params pName - 1e-4) := by
  have hself : QMap.value (perturbedParams num params pName up) pName =
      if isLogMode (QMap.value params pName) pName = true
      then num.pow 10 (if up then num.log10 (QMap.value params pName) + 0.01
                       else num.log10 (QMap.value params pName) - 0.01)
      else (if up then QMap.value params pName + 1e-4
            else QMap.value params pName - 1e-4) := by
    by_cases hd : pName = "LfD"
    · rw [hd]
      exact perturbedParams_value_derived num params up
    · exact perturbedParams_value_self num params pName up hd
  rw [hself]
  by_cases hm : isLogMode (QMap.value params pName) pName = true
  · rw [if_pos hm, if_pos ((isLogMode_iff _ _).mp hm)]
  · rw [if_neg hm, if_neg (fun hh => hm ((isLogMode_iff _ _).mpr hh))]

theorem applyDelta_value_at (num : Numerics) (params : List FitParameter) (cur : QMap ℚ)
    (delta : List ℚ) (hnames : (params.map (fun p => p.name)).Nodup) (j : Nat)
    (hj : j < (fitIndicesOf params).length) :
    QMap.value (applyDelta num params (fitIndicesOf params) cur delta)
      (params.getD ((fitIndicesOf params).getD j 0) default).name =
    qMax (params.getD ((fitIndicesOf params).getD j 0) default).min
      (qMin
        (if QMap.value cur (params.getD ((fitIndicesOf params).getD j 0) default).name
              > 1e-12 ∧
            (params.getD ((fitIndicesOf params).getD j 0) default).name ≠ "S" ∧
            (params.getD ((fitIndicesOf params).getD j 0) default).name ≠ "nf"
         then num.pow 10 (num.log10
            (QMap.value cur (params.getD ((fitIndicesOf params).getD j 0) default).name)
            + delta.getD j 0)
         else QMap.value cur (params.getD ((fitIndicesOf params).getD j 0) default).name
            + delta.getD j 0)
        (params.getD ((fitIndicesOf params).getD j 0) default).max) := by
  have key := foldl_insert_hit
    (fun i => (params.getD ((fitIndicesOf params).getD i 0) default).name)
    (fun i => qMax (params.getD ((fitIndicesOf params).getD i 0) default).min
      (qMin
        (if isLogMode
            (QMap.value cur (params.getD ((fitIndicesOf params).getD i 0) default).name)
            (params.getD ((fitIndicesOf params).getD i 0) default).name
         then num.pow 10 (num.log10
            (QMap.value cur (params.getD ((fitIndicesOf params).getD i 0) default).name)
            + delta.getD i 0)
         else QMap.value cur (params.getD ((fitIndicesOf params).getD i 0) default).name
            + delta.getD i 0)
        (params.getD ((fitIndicesOf params).getD i 0) default).max))
    (List.range (fitIndicesOf params).length) cur j (List.mem_range.mpr hj)
    (List.nodup_range _)
    (by
      intro i hi hname
      rw [List.mem_range] at hi
      have h1 : (fitIndicesOf params).getD i 0 ∈ fitIndicesOf params := by
        rw [List.getD_eq_getElem _ 0 hi]; exact List.getElem_mem hi
      have h2 : (fitIndicesOf params).getD j 0 ∈ fitIndicesOf params := by
        rw [List.getD_eq_getElem _ 0 hj]; exact List.getElem_mem hj
      have e := names_injective params hnames _ _ (fitIndicesOf_lt params _ h1)
        (fitIndicesOf_lt params _ h2) hname
      rw [List.getD_eq_getElem _ 0 hi, List.getD_eq_getElem _ 0 hj] at e
      exact (List.Nodup.getElem_inj_iff (fitIndicesOf_nodup params)).mp e)
  have happ : QMap.value (applyDelta num params (fitIndicesOf params) cur delta)
      (params.getD ((fitIndicesOf params).getD j 0) default).name =
      qMax (params.getD ((fitIndicesOf params).getD j 0) default).min
      (qMin
        (if isLogMode
            (QMap.value cur (params.getD ((fitIndicesOf params).getD j 0) default).name)
            (params.getD ((fitIndicesOf params).getD j 0) default).name = true
         then num.pow 10 (num.log10
            (QMap.value cur (params.getD ((fitIndicesOf params).getD j 0) default).name)
            + delta.getD j 0)
         else QMap.value cur (params.getD ((fitIndicesOf params).getD j 0) default).name
            + delta.getD j 0)
        (params.getD ((fitIndicesOf params).getD j 0) default).max) := key
  rw [happ]
  by_cases hm : isLogMode
      (QMap.value cur (params.getD ((fitIndicesOf params).getD j 0) default).name)
      (params.getD ((fitIndicesOf params).getD j 0) default).name = true
  · rw [if_pos hm, if_pos ((isLogMode_iff _ _).mp hm)]
  · rw [if_neg hm, if_neg (fun hh => hm ((isLogMode_iff _ _).mpr hh))]

theorem outerLoop_events_shape (num : Numerics) (w : FittingWidget) (mm : ModelManager)
    (stop : Nat → Bool) (modelType : ModelType) (params : List FitParameter) (weight : ℚ)
    (fitIndices : List Nat) (maxIter n iter : Nat) (st : LMState) :
    (outerLoop num w mm stop modelType params weight fitIndices maxIter (n + 1) iter st).1
      = [] ∨
    ∃ rest, (outerLoop num w mm stop modelType params weight fitIndices maxIter (n + 1) iter
      st).1 =
      Event.progress (iter * 100 / maxIter) :: Event.jacobian iter ::
        ((iterationJacobian num w modelType params weight fitIndices st).2 ++
         (iterationTrials num w mm modelType params weight fitIndices iter st).1 ++ rest) := by
  unfold outerLoop
  by_cases h1 : stop iter = true
  · left; simp [h1]
  · by_cases h2 : (!st.residuals.isEmpty &&
        decide (st.currentSSE / st.residuals.length < 3e-3)) = true
    · left
      simp only [h1, h2, if_true, if_false]
      simp
    · right
      simp only [h1, h2, if_false, Bool.false_eq_true]
      split
      · exact ⟨[], by simp [iterationJacobian, iterationTrials]⟩
      · exact ⟨_, by simp only [iterationJacobian, iterationTrials, List.cons_append,
          List.append_assoc]; rfl⟩

/-- Claim C18.  In an outer iteration that starts from state `st`, the Jacobian is built by
forward-model calls on perturbations of the parameter map of `st`, and for the active
parameter of column `j`, with value `old` in that map, the column is built in log space
(perturbed values `10^(log10 old ± 0.01)`) exactly when `old > 1e-12` and the name is
neither `S` nor `nf`, and linearly (`old ± 1e-4`) otherwise.  Every trial step `ti` of the
same iteration solves the system damped by `lambda * 10^ti` for the increment `delta`,
built from the matrix `H` and the vector `g` of that Jacobian, and sets that parameter,
before the derived parameter is recomputed, to the clip to `[min, max]` of
`10^(log10 old + delta_j)` in the first case and of `old + delta_j` in the second, with
the same `old` and with `delta_j` the `j`-th entry of the solution the solver returns; a
parameter other than the derived `LfD` has this value in the map of the trial step.
Parameter names are unique. -/
theorem update_rule_matches_jacobian_mode (num : Numerics) (w : FittingWidget)
    (mm : ModelManager) (stop : Nat → Bool) (modelType : ModelType)
    (params : List FitParameter) (weight : ℚ) (maxIter n iter : Nat) (st : LMState)
    (hnames : (params.map (fun p => p.name)).Nodup) :
    let J := (computeJacobian num w st.currentParamMap st.residuals (fitIndicesOf params)
      modelType params weight).1
    let H := normalMatrix J st.residuals.length (fitIndicesOf params).length
    let g := gradient J st.residuals st.residuals.length (fitIndicesOf params).length
    let negG := (List.range (fitIndicesOf params).length).map (fun i => - g.getD i 0)
    ((outerLoop num w mm stop modelType params weight (fitIndicesOf params) maxIter (n + 1)
        iter st).1 = [] ∨
      ∃ rest, (outerLoop num w mm stop modelType params weight (fitIndicesOf params) maxIter
          (n + 1) iter st).1 =
        Event.progress (iter * 100 / maxIter) :: Event.jacobian iter ::
          ((computeJacobian num w st.currentParamMap st.residuals (fitIndicesOf params)
              modelType params weight).2 ++
           (iterationTrials num w mm modelType params weight (fitIndicesOf params) iter
              st).1 ++ rest)) ∧
    (∀ m ∈ modelMaps (computeJacobian num w st.currentParamMap st.residuals
        (fitIndicesOf params) modelType params weight).2,
      ∃ idx ∈ fitIndicesOf params, ∃ up,
        m = perturbedParams num st.currentParamMap (params.getD idx default).name up) ∧
    ∀ j, j < (fitIndicesOf params).length →
      let p := params.getD ((fitIndicesOf params).getD j 0) default
      let old := QMap.value st.currentParamMap p.name
      (QMap.value (perturbedParams num st.currentParamMap p.name true) p.name =
        if old > 1e-12 ∧ p.name ≠ "S" ∧ p.name ≠ "nf"
        then num.pow 10 (num.log10 old + 0.01) else old + 1e-4) ∧
      (QMap.value (perturbedParams num st.currentParamMap p.name false) p.name =
        if old > 1e-12 ∧ p.name ≠ "S" ∧ p.name ≠ "nf"
        then num.pow 10 (num.log10 old - 0.01) else old - 1e-4) ∧
      ∀ ti m sse, Event.trialStep iter ti m sse ∈
          (outerLoop num w mm stop modelType params weight (fitIndicesOf params) maxIter
            (n + 1) iter st).1 →
        let delta := trialDelta num (fitIndicesOf params) H g (st.lambda * 10 ^ ti)
        ti < 5 ∧
        m = updateDeps (applyDelta num params (fitIndicesOf params) st.currentParamMap
          delta) ∧
        delta.getD j 0 =
          (num.ldltSolve
            (dampedMatrix H (st.lambda * 10 ^ ti) (fitIndicesOf params).length)
            negG).getD j 0 ∧
        QMap.value (applyDelta num params (fitIndicesOf params) st.currentParamMap delta)
            p.name =
          qMax p.min (qMin
            (if old > 1e-12 ∧ p.name ≠ "S" ∧ p.name ≠ "nf"
             then num.pow 10 (num.log10 old + delta.getD j 0)
             else old + delta.getD j 0) p.max) ∧
        (p.name ≠ "LfD" →
          QMap.value m p.name =
            qMax p.min (qMin
              (if old > 1e-12 ∧ p.name ≠ "S" ∧ p.name ≠ "nf"
               then num.pow 10 (num.log10 old + delta.getD j 0)
               else old + delta.getD j 0) p.max)) := by
  intro J H g negG
  refine ⟨outerLoop_events_shape num w mm stop modelType params weight (fitIndicesOf params)
    maxIter n iter st, computeJacobian_modelMaps _ _ _ _ _ _ _ _, ?_⟩
  intro j hj p old
  refine ⟨?_, ?_, ?_⟩
  · have := perturbedParams_value num st.currentParamMap p.name true
    simpa using this
  · have := perturbedParams_value num st.currentParamMap p.name false
    simpa using this
  · intro ti m sse hmem delta
    have h1 := outerLoop_first_trials num w mm stop modelType params weight
      (fitIndicesOf params) maxIter n iter st ti m sse hmem
    obtain ⟨_, _, hti, hm⟩ := trialLoop_steps num w mm modelType params weight
      (fitIndicesOf params) H g st.residuals.length iter 5 0 st iter ti m sse h1
    rw [Nat.sub_zero] at hm
    have hval := applyDelta_value_at num params st.currentParamMap delta hnames j hj
    have hdelta : delta.getD j 0 =
        (num.ldltSolve
          (dampedMatrix H (st.lambda * 10 ^ ti) (fitIndicesOf params).length)
          negG).getD j 0 := by
      show (trialDelta num (fitIndicesOf params) H g (st.lambda * 10 ^ ti)).getD j 0 = _
      unfold trialDelta solveLinearSystem
      have hlen : negG.length = (fitIndicesOf params).length := by simp [negG]
      have hne : ¬ ((List.range (fitIndicesOf params).length).map
          (fun i => - g.getD i 0)).length = 0 := by
        rw [show ((List.range (fitIndicesOf params).length).map
          (fun i => - g.getD i 0)).length = (fitIndicesOf params).length from hlen]
        omega
      simp only [if_neg hne]
      rw [show ((List.range (fitIndicesOf params).length).map
          (fun i => - g.getD i 0)).length = (fitIndicesOf params).length from hlen]
      exact getD_map_range _ _ _ hj
    refine ⟨by omega, hm, hdelta, hval, ?_⟩
    intro hd
    rw [hm, updateDeps_value_ne _ _ hd]
    exact hval

/-- Claim C18 on the worked run: the parameter list has unique names; in the first trial
step the solver returns the increment `(0, 500000/2525000001)`, and the skin `S`
(column 1, linear mode, old value `0`) is set to the clip of `old + delta_1`, which is the
value it has in the map of the trial step. -/
theorem update_rule_matches_jacobian_mode_witness :
    (exampleParams.map (fun p => p.name)).Nodup ∧
    Event.trialStep 0 0 exampleAcceptedMap 0 ∈
      (outerLoop exampleNumerics (lowPrecision exampleWidget) exampleModel (fun _ => false) 0
        exampleParams 1 (fitIndicesOf exampleParams) 50 (49 + 1) 0 exampleState).1 ∧
    (exampleParams.getD ((fitIndicesOf exampleParams).getD 1 0) default).name = "S" ∧
    QMap.value exampleState.currentParamMap "S" = 0 ∧
    trialDelta exampleNumerics (fitIndicesOf exampleParams)
      (normalMatrix (computeJacobian exampleNumerics (lowPrecision exampleWidget)
          exampleState.currentParamMap exampleState.residuals (fitIndicesOf exampleParams) 0
          exampleParams 1).1 exampleState.residuals.length (fitIndicesOf exampleParams).length)
      (gradient (computeJacobian exampleNumerics (lowPrecision exampleWidget)
          exampleState.currentParamMap exampleState.residuals (fitIndicesOf exampleParams) 0
          exampleParams 1).1 exampleState.residuals exampleState.residuals.length
        (fitIndicesOf exampleParams).length)
      (exampleState.lambda * 10 ^ 0) = [0, 500000 / 2525000001] ∧
    exampleAcceptedMap =
      updateDeps (applyDelta exampleNumerics exampleParams (fitIndicesOf exampleParams)
        exampleState.currentParamMap
        (trialDelta exampleNumerics (fitIndicesOf exampleParams)
          (normalMatrix (computeJacobian exampleNumerics (lowPrecision exampleWidget)
              exampleState.currentParamMap exampleState.residuals
              (fitIndicesOf exampleParams) 0 exampleParams 1).1
            exampleState.residuals.length (fitIndicesOf exampleParams).length)
          (gradient (computeJacobian exampleNumerics (lowPrecision exampleWidget)
              exampleState.currentParamMap exampleState.residuals
              (fitIndicesOf exampleParams) 0 exampleParams 1).1 exampleState.residuals
            exampleState.residuals.length (fitIndicesOf exampleParams).length)
          (exampleState.lambda * 10 ^ 0))) ∧
    QMap.value exampleAcceptedMap "S" = qMax (-10) (qMin (0 + 500000 / 2525000001) 10) := by
  have h := ((update_rule_matches_jacobian_mode exampleNumerics (lowPrecision exampleWidget)
      exampleModel (fun _ => false) 0 exampleParams 1 50 49 0 exampleState
      (by decide!)).2.2 1 (by decide!)).2.2 0 exampleAcceptedMap 0 (by decide!)
  exact ⟨by decide!, by decide!, by decide!, by decide!, by decide!, h.2.1, by decide!⟩

/-! ## Key order of a QMap -/

theorem QMap.keys_insert_mem {β : Type} (m : QMap β) (k : String) (v : β) :
    ∀ x ∈ QMap.keys (QMap.insert m k v), x = k ∨ x ∈ QMap.keys m := by
  induction m with
  | nil => simp [QMap.insert, QMap.keys]
  | cons e rest ih =>
    obtain ⟨k', v'⟩ := e
    intro x hx
    unfold QMap.insert at hx
    by_cases h1 : k < k'
    · simp only [h1, if_true, QMap.keys, List.map_cons, List.mem_cons] at hx
      simp only [QMap.keys, List.map_cons, List.mem_cons]
      exact hx
    · by_cases h2 : k = k'
      · subst h2
        simp only [h1, if_true, if_false, QMap.keys, List.map_cons, List.mem_cons] at hx
        simp only [QMap.keys, List.map_cons, List.mem_cons]
        rcases hx with hx | hx
        · exact Or.inl hx
        · exact Or.inr (Or.inr hx)
      · simp only [h1, h2, if_false, QMap.keys, List.map_cons, List.mem_cons] at hx
        simp only [QMap.keys, List.map_cons, List.mem_cons]
        rcases hx with hx | hx
        · exact Or.inr (Or.inl hx)
        · rcases ih x hx with h | h
          · exact Or.inl h
          · exact Or.inr (Or.inr h)

theorem QMap.insert_sorted {β : Type} (m : QMap β) (k : String) (v : β)
    (h : (QMap.keys m).Pairwise (fun a b => a < b)) :
    (QMap.keys (QMap.insert m k v)).Pairwise (fun a b => a < b) := by
  induction m with
  | nil => simp [QMap.insert, QMap.keys]
  | cons e rest ih =>
    obtain ⟨k', v'⟩ := e
    simp only [QMap.keys, List.map_cons, List.pairwise_cons] at h
    unfold QMap.insert
    by_cases h1 : k < k'
    · simp only [h1, if_true, QMap.keys, List.map_cons, List.pairwise_cons, List.mem_cons]
      refine ⟨?_, h.1, h.2⟩
      intro x hx
      rcases hx with hx | hx
      · rw [hx]; exact h1
      · exact lt_trans h1 (h.1 x hx)
    · by_cases h2 : k = k'
      · subst h2
        simp only [h1, if_true, if_false, QMap.keys, List.map_cons, List.pairwise_cons]
        exact ⟨h.1, h.2⟩
      · simp only [h1, h2, if_false, QMap.keys, List.map_cons, List.pairwise_cons]
        have hlt : k' < k := lt_of_le_of_ne (not_lt.mp h1) (Ne.symm h2)
        refine ⟨?_, ih h.2⟩
        intro x hx
        rcases QMap.keys_insert_mem rest k v x hx with hx | hx
        · rw [hx]; exact hlt
        · exact h.1 x hx

theorem getRawParamTexts_sorted (c : FittingParameterChart) :
    (QMap.keys (getRawParamTexts c)).Pairwise (fun a b => a < b) := by
  unfold getRawParamTexts
  cases c.table with
  | none => simp [QMap.keys]
  | some rows =>
    simp only
    have hgen : ∀ (init : QMap String), (QMap.keys init).Pairwise (fun a b => a < b) →
        (QMap.keys (rows.foldl (fun rawTexts row =>
          match row.key, row.text with
          | some key, some text => QMap.insert rawTexts key text
          | _, _ => rawTexts) init)).Pairwise (fun a b => a < b) := by
      induction rows with
      | nil => intro init hinit; exact hinit
      | cons row rest ih =>
        intro init hinit
        rw [List.foldl_cons]
        apply ih
        cases row.key with
        | none => exact hinit
        | some key =>
          cases row.text with
          | none => exact hinit
          | some text => exact QMap.insert_sorted init key text hinit
    exact hgen [] (by simp [QMap.keys])

theorem getRawParamTexts_nodup (c : FittingParameterChart) :
    ((getRawParamTexts c).map Prod.fst).Nodup := by
  have h := getRawParamTexts_sorted c
  unfold QMap.keys at h
  exact h.imp (fun hab => ne_of_lt hab)

/-! ## Base parameter map -/

theorem foldl_insertOn_other {α : Type} (name : α → String) (val : α → ℚ) (l : List α)
    (m0 : QMap ℚ) (k : String) (h : ∀ x ∈ l, name x ≠ k) :
    QMap.value (l.foldl (fun m x => QMap.insert m (name x) (val x)) m0) k =
      QMap.value m0 k := by
  induction l generalizing m0 with
  | nil => rfl
  | cons a t ih =>
    rw [List.foldl_cons, ih _ (fun x hx => h x (List.mem_cons_of_mem _ hx))]
    exact QMap.value_insert_ne m0 (name a) k (val a)
      (fun hk => h a (List.mem_cons_self _ _) hk.symm)

theorem foldl_insertOn_hit {α : Type} (name : α → String) (val : α → ℚ) (l : List α)
    (m0 : QMap ℚ) (e : α) (hmem : e ∈ l) (hnodup : (l.map name).Nodup) :
    QMap.value (l.foldl (fun m x => QMap.insert m (name x) (val x)) m0) (name e) =
      val e := by
  induction l generalizing m0 with
  | nil => exact absurd hmem (List.not_mem_nil _)
  | cons a t ih =>
    rw [List.map_cons, List.nodup_cons] at hnodup
    rw [List.foldl_cons]
    rcases List.mem_cons.mp hmem with h | h
    · subst h
      rw [foldl_insertOn_other name val t _ (name e)]
      · exact QMap.value_insert_self m0 (name e) (val e)
      · intro x hx hname
        apply hnodup.1
        rw [← hname]
        exact List.mem_map_of_mem name hx
    · exact ih _ h hnodup.2

theorem scanStep_baseParams (qt : QtText) (st : SweepScan) (it : String × String) :
    (scanStep qt st it).baseParams =
      QMap.insert st.baseParams it.1 ((parseSensitivityValues qt it.2).headD 0) := by
  unfold scanStep
  cases hp : parseSensitivityValues qt it.2 with
  | nil => rfl
  | cons v vs =>
    simp only [List.headD_cons]
    split <;> rfl

theorem scan_baseParams (qt : QtText) (l : QMap String) (st : SweepScan) :
    (l.foldl (scanStep qt) st).baseParams =
      l.foldl (fun b it => QMap.insert b it.1 ((parseSensitivityValues qt it.2).headD 0))
        st.baseParams := by
  induction l generalizing st with
  | nil => rfl
  | cons e t ih =>
    rw [List.foldl_cons, List.foldl_cons, ih, scanStep_baseParams]

theorem baseDeps_value_ne (m : QMap ℚ) (k : String) (hk : k ≠ "LfD") :
    QMap.value (baseDeps m) k = QMap.value m k := by
  unfold baseDeps
  split
  · exact QMap.value_insert_ne m "LfD" k _ hk
  · exact QMap.value_insert_ne m "LfD" k _ hk

theorem baseParamsOf_value (qt : QtText) (rawTexts : QMap String)
    (hkeys : (rawTexts.map Prod.fst).Nodup) (e : String × String) (he : e ∈ rawTexts)
    (hk : e.1 ≠ "LfD") :
    QMap.value (baseParamsOf qt rawTexts) e.1 = (parseSensitivityValues qt e.2).headD 0 := by
  unfold baseParamsOf scanRawTexts
  rw [baseDeps_value_ne _ _ hk, scan_baseParams]
  exact foldl_insertOn_hit Prod.fst
    (fun it => (parseSensitivityValues qt it.2).headD 0) rawTexts [] e he hkeys

theorem parse_of_parts (qt : QtText) (text : String) (parts : List (List Char))
    (h : splitSkipEmpty (fun c => c == asciiComma)
      (text.toList.map (fun c => if c = fullWidthComma then asciiComma else c)) = parts) :
    parseSensitivityValues qt text =
      parts.filterMap (fun frag => qt.toDouble (qt.trimmed (String.mk frag))) := by
  unfold parseSensitivityValues
  simp only [h]
  rw [foldl_appendParsed, List.nil_append]

/-- C11: in `updateModelCurve`, for every parameter of the raw-text map other than the
derived `LfD`, the base parameter map holds the first parsed value of the text of the
parameter, or `0.0` when the text yields no value; so two texts whose first parsed values
agree give the same base value.  When `toDouble` reads `10`, `20` and `30`, the texts `10`
and `10,10` both give the base value 10, and the text `10,20,30` on a parameter gives the
base value 10 and a sweep list of 3 elements. -/
theorem base_value_is_first_parsed (qt : QtText) (c : FittingParameterChart) :
    (∀ e ∈ getRawParamTexts c, e.1 ≠ "LfD" →
      QMap.value (baseParamsOf qt (getRawParamTexts c)) e.1 =
        (parseSensitivityValues qt e.2).headD 0) ∧
    (∀ e1 ∈ getRawParamTexts c, ∀ (c2 : FittingParameterChart), ∀ e2 ∈ getRawParamTexts c2,
      e1.1 ≠ "LfD" → e2.1 ≠ "LfD" →
      (parseSensitivityValues qt e1.2).head? = (parseSensitivityValues qt e2.2).head? →
      QMap.value (baseParamsOf qt (getRawParamTexts c)) e1.1 =
        QMap.value (baseParamsOf qt (getRawParamTexts c2)) e2.1) ∧
    (qt.toDouble (qt.trimmed "10") = some 10 → qt.toDouble (qt.trimmed "20") = some 20 →
      qt.toDouble (qt.trimmed "30") = some 30 →
      (∀ k, k ≠ "LfD" → QMap.value (baseParamsOf qt [(k, "10")]) k = 10 ∧
        QMap.value (baseParamsOf qt [(k, "10,10")]) k = 10 ∧
        QMap.value (baseParamsOf qt [(k, "10,20,30")]) k = 10) ∧
      (∀ k, k ≠ "" → (scanRawTexts qt [(k, "10,20,30")]).sensitivityKey = k ∧
        (scanRawTexts qt [(k, "10,20,30")]).sensitivityValues = [10, 20, 30] ∧
        (scanRawTexts qt [(k, "10,20,30")]).sensitivityValues.length = 3)) := by
  have hgen : ∀ (c : FittingParameterChart), ∀ e ∈ getRawParamTexts c, e.1 ≠ "LfD" →
      QMap.value (baseParamsOf qt (getRawParamTexts c)) e.1 =
        (parseSensitivityValues qt e.2).headD 0 :=
    fun c e he hk => baseParamsOf_value qt _ (getRawParamTexts_nodup c) e he hk
  refine ⟨hgen c, ?_, ?_⟩
  · intro e1 he1 c2 e2 he2 hk1 hk2 hhead
    rw [hgen c e1 he1 hk1, hgen c2 e2 he2 hk2]
    cases h1 : parseSensitivityValues qt e1.2 <;> cases h2 : parseSensitivityValues qt e2.2 <;>
      simp_all
  · intro h10 h20 h30
    have p1 : parseSensitivityValues qt "10" = [10] := by
      rw [parse_of_parts qt "10" [['1', '0']] (by decide!)]
      have e10 : String.mk ['1', '0'] = "10" := rfl
      simp [e10, h10]
    have p2 : parseSensitivityValues qt "10,10" = [10, 10] := by
      rw [parse_of_parts qt "10,10" [['1', '0'], ['1', '0']] (by decide!)]
      have e10 : String.mk ['1', '0'] = "10" := rfl
      simp [e10, h10]
    have p3 : parseSensitivityValues qt "10,20,30" = [10, 20, 30] := by
      rw [parse_of_parts qt "10,20,30" [['1', '0'], ['2', '0'], ['3', '0']] (by decide!)]
      have e10 : String.mk ['1', '0'] = "10" := rfl
      have e20 : String.mk ['2', '0'] = "20" := rfl
      have e30 : String.mk ['3', '0'] = "30" := rfl
      simp [e10, e20, e30, h10, h20, h30]
    constructor
    · intro k hk
      have hone : ∀ text, QMap.value (baseParamsOf qt [(k, text)]) k =
          (parseSensitivityValues qt text).headD 0 := by
        intro text
        exact baseParamsOf_value qt [(k, text)] (by simp) (k, text) (by simp) hk
      rw [hone, hone, hone, p1, p2, p3]
      simp
    · intro k hk
      have hscan := scan_unlocked qt [(k, "10,20,30")]
        { sensitivityKey := "", sensitivityValues := [], baseParams := [] } rfl
      have hcand : isSweepCandidate qt (k, "10,20,30") = true := by
        simp [isSweepCandidate, p3, hk]
      simp only [List.find?_cons, hcand] at hscan
      have hk1 : (scanRawTexts qt [(k, "10,20,30")]).sensitivityKey = k := hscan.1
      have hv : (scanRawTexts qt [(k, "10,20,30")]).sensitivityValues = [10, 20, 30] := by
        have := hscan.2
        rw [p3] at this
        exact this
      exact ⟨hk1, hv, by rw [hv]; rfl⟩

/-- C11, witness: the stand-in `toDouble` of the worked inputs reads `10`, `20` and `30`;
with it the text `10,20,30` on `k` gives the base value 10. -/
theorem base_value_is_first_parsed_witness :
    exampleQt.toDouble (exampleQt.trimmed "10") = some 10 ∧
    exampleQt.toDouble (exampleQt.trimmed "20") = some 20 ∧
    exampleQt.toDouble (exampleQt.trimmed "30") = some 30 ∧
    QMap.value (baseParamsOf exampleQt [("k", "10,20,30")]) "k" = 10 :=
  ⟨by decide!, by decide!, by decide!,
   (((base_value_is_first_parsed exampleQt { table := some [], params := [] }).2.2
      (by decide!) (by decide!) (by decide!)).1 "k" (by decide!)).2.2⟩

/-! ## Sensitivity sweep -/

theorem modifyAt_append_length {α : Type} (f : α → α) (l r : List α) (k : Nat) :
    modifyAt f (l.length + k) (l ++ r) = l ++ modifyAt f k r := by
  induction l with
  | nil => simp
  | cons a t ih =>
    have e : (a :: t).length + k = (t.length + k) + 1 := by simp; omega
    rw [e]
    show a :: modifyAt f (t.length + k) (t ++ r) = a :: (t ++ modifyAt f k r)
    rw [ih]

theorem QMap.value_touch (m : QMap ℚ) (k k2 : String) :
    QMap.value (QMap.touch m k) k2 = QMap.value m k2 := by
  unfold QMap.touch
  by_cases hc : QMap.contains m k = true
  · simp [hc]
  · simp only [hc, if_false, Bool.false_eq_true]
    by_cases hk : k2 = k
    · subst hk
      rw [QMap.value_insert_self]
      unfold QMap.contains at hc
      unfold QMap.value
      cases hl : List.lookup k2 m with
      | none => rfl
      | some x => simp [hl] at hc
    · exact QMap.value_insert_ne m k k2 0 hk

theorem sweepParams_value_other (baseParams : QMap ℚ) (key : String) (val : ℚ) (k : String)
    (hk : k ≠ key) (hd : k ≠ "LfD") :
    QMap.value (sweepParams baseParams key val) k = QMap.value baseParams k := by
  unfold sweepParams
  by_cases hkey : key = "L" ∨ key = "Lf"
  · simp only [hkey, if_true]
    split
    · rw [QMap.value_insert_ne _ _ _ _ hd, QMap.value_touch, QMap.value_touch,
        QMap.value_insert_ne _ _ _ _ hk]
    · rw [QMap.value_touch, QMap.value_insert_ne _ _ _ _ hk]
  · simp only [hkey, if_false]
    exact QMap.value_insert_ne _ _ _ _ hk

theorem plotReadsInRange_iff (t p : List ℚ) :
    plotReadsInRange t p = true ↔
      ∀ i, i < t.length → t.getD i 0 > 1e-8 → i < p.length := by
  unfold plotReadsInRange
  simp only [List.all_eq_true, List.mem_range, decide_eq_true_eq]

theorem plotReadsInRange_of_length (t p : List ℚ) (h : t.length ≤ p.length) :
    plotReadsInRange t p = true :=
  (plotReadsInRange_iff t p).2 (fun _ hi _ => Nat.lt_of_lt_of_le hi h)

theorem plotRows_inRange (t p : List ℚ) (h : plotReadsInRange t p = true) :
    plotRows t p = some ((List.range t.length).filter
      (fun i => decide (t.getD i 0 > 1e-8) && decide (p.getD i 0 > 1e-8))) := by
  unfold plotRows
  rw [if_pos h]

theorem plotCurves_model (plot : List Graph) (t p d : List ℚ)
    (h : plotReadsInRange t p = true) :
    plotCurves plot t p d true =
      some (plot ++
        [{ keys := ((List.range t.length).filter
              (fun i => decide (t.getD i 0 > 1e-8) && decide (p.getD i 0 > 1e-8))).map
              (fun i => t.getD i 0)
           values := ((List.range t.length).filter
              (fun i => decide (t.getD i 0 > 1e-8) && decide (p.getD i 0 > 1e-8))).map
              (fun i => p.getD i 0) },
         { keys := ((List.range t.length).filter
              (fun i => decide (t.getD i 0 > 1e-8) && decide (p.getD i 0 > 1e-8))).map
              (fun i => t.getD i 0)
           values := ((List.range t.length).filter
              (fun i => decide (t.getD i 0 > 1e-8) && decide (p.getD i 0 > 1e-8))).map
              (fun i => if i < d.length ∧ d.getD i 0 > 1e-8 then d.getD i 0 else 1e-10) }]) := by
  unfold plotCurves
  rw [plotRows_inRange t p h]
  rfl

theorem styleGraph_last_two (plot : List Graph) (g1 g2 : Graph) (n1 n2 : String)
    (pen1 pen2 : Nat × Bool) :
    (if (plot ++ [g1, g2]).length ≥ 2 then
      styleGraph (styleGraph (plot ++ [g1, g2]) ((plot ++ [g1, g2]).length - 2) n1 pen1)
        ((plot ++ [g1, g2]).length - 1) n2 pen2
     else plot ++ [g1, g2]) =
    plot ++ [{ g1 with name := n1, pen := some pen1 }, { g2 with name := n2, pen := some pen2 }] := by
  have hlen : (plot ++ [g1, g2]).length = plot.length + 2 := by simp
  have h2 : (plot ++ [g1, g2]).length ≥ 2 := by omega
  rw [if_pos h2, hlen]
  have e1 : plot.length + 2 - 2 = plot.length + 0 := by omega
  have e2 : plot.length + 2 - 1 = plot.length + 1 := by omega
  rw [e1, e2]
  unfold styleGraph
  rw [modifyAt_append_length, modifyAt_append_length]
  rfl

theorem sweepLoop_eq (fmt : NumberText) (mm : ModelManager) (hp : Bool) (type : ModelType)
    (baseParams : QMap ℚ) (key : String) (targetT : List ℚ) (i : Nat) (vals : List ℚ)
    (plot : List Graph)
    (hr : ∀ v ∈ vals, plotReadsInRange
      (mm.calculateTheoreticalCurve hp type (sweepParams baseParams key v) (some targetT)).1
      (mm.calculateTheoreticalCurve hp type (sweepParams baseParams key v)
        (some targetT)).2.1 = true) :
    sweepLoop fmt mm hp type baseParams key targetT i vals plot =
      some (plot ++ ((vals.enumFrom i).map (fun iv =>
          sweepPair fmt key iv.1 iv.2 (mm.calculateTheoreticalCurve hp type
            (sweepParams baseParams key iv.2) (some targetT)))).flatten,
       vals.map (fun v => Event.forwardModel hp (sweepParams baseParams key v)
          (some targetT))) := by
  induction vals generalizing i plot with
  | nil => simp [sweepLoop]
  | cons v rest ih =>
    rw [sweepLoop]
    simp only
    rw [plotCurves_model _ _ _ _ (hr v (List.mem_cons_self _ _))]
    simp only
    rw [styleGraph_last_two, ih _ _ (fun u hu => hr u (List.mem_cons_of_mem _ hu))]
    simp only [List.enumFrom_cons, List.map_cons, List.flatten_cons, List.append_assoc]
    rfl

theorem updateModelCurve_sweep (num : Numerics) (qt : QtText) (fmt : NumberText)
    (w : FittingWidget) (mm : ModelManager)
    (hm : w.modelManager = some mm)
    (hmode : isSensitivityMode qt (getRawParamTexts w.paramChart) = true)
    (sweep : List Graph × List Event)
    (hs : sweepLoop fmt mm w.highPrecision w.currentModelType
      (baseParamsOf qt (getRawParamTexts w.paramChart))
      (scanRawTexts qt (getRawParamTexts w.paramChart)).sensitivityKey
      (if w.obsTime.isEmpty then defaultTargetT num else w.obsTime) 0
      (scanRawTexts qt (getRawParamTexts w.paramChart)).sensitivityValues
      (w.plot.take 2) = some sweep) :
    ∃ out, updateModelCurve num qt fmt w = some out ∧ out.2 = sweep.2 ∧
      out.1.plot = sweep.1 ∧ out.1.btnRunFitEnabled = false ∧
      out.1.labelError = ErrorLabel.sensitivity
        (scanRawTexts qt (getRawParamTexts w.paramChart)).sensitivityKey
        (scanRawTexts qt (getRawParamTexts w.paramChart)).sensitivityValues.length := by
  have hd : decide ((scanRawTexts qt (getRawParamTexts w.paramChart)).sensitivityKey ≠ "")
      = true := hmode
  unfold baseParamsOf at hs
  unfold updateModelCurve
  rw [hm]
  simp only [hd, if_true]
  rw [hs]
  exact ⟨_, rfl, rfl, rfl, rfl, rfl⟩

theorem foldl_transferStep (m : DataModel) (p_initial : ℚ) (l : List Nat)
    (acc : List ℚ × List ℚ) :
    l.foldl (transferStep m p_initial) acc =
      (acc.1 ++ (l.filter (fun r => decide (m.cellDouble r 0 > 0))).map
          (fun r => m.cellDouble r 0),
       acc.2 ++ (l.filter (fun r => decide (m.cellDouble r 0 > 0))).map
          (fun r => |m.cellDouble r 1 - p_initial|)) := by
  induction l generalizing acc with
  | nil => simp
  | cons r rest ih =>
    rw [List.foldl_cons, ih]
    unfold transferStep
    by_cases h : m.cellDouble r 0 > 0
    · simp [h, List.filter_cons]
    · simp [h, List.filter_cons]

theorem keptRow_pos (qt : QtText) (settings : FittingDataSettings) (src : PreviewModel)
    (i : Int) (t p : ℚ) (h : keptRow qt settings src i = some (t, p)) : 0 < t := by
  unfold keptRow at h
  split at h
  · split at h
    · split at h
      · rename_i hpos
        simp only [Option.some.injEq, Prod.mk.injEq] at h
        rw [← h.1]; exact hpos
      · exact absurd h (by simp)
    · exact absurd h (by simp)
  · exact absurd h (by simp)

theorem foldl_extractStep (qt : QtText) (settings : FittingDataSettings) (src : PreviewModel)
    (l : List Int) (acc : List ℚ × List ℚ × List ℚ) :
    (l.foldl (extractStep qt settings src) acc).1 =
        acc.1 ++ (l.filterMap (keptRow qt settings src)).map Prod.fst ∧
    (l.foldl (extractStep qt settings src) acc).2.1 =
        acc.2.1 ++ (l.filterMap (keptRow qt settings src)).map Prod.snd := by
  induction l generalizing acc with
  | nil => simp
  | cons i rest ih =>
    rw [List.foldl_cons]
    rw [(ih _).1, (ih _).2]
    unfold extractStep
    cases hk : keptRow qt settings src i with
    | none => simp [List.filterMap_cons, hk]
    | some tp =>
      obtain ⟨t, p⟩ := tp
      simp [List.filterMap_cons, hk]

theorem transferDerivative_length (num : Numerics) (tVec pVec : List ℚ) :
    (transferDerivative num tVec pVec).length = tVec.length := by
  simp [transferDerivative]

theorem transferDataToFitting_eq (num : Numerics) (mw : MainWindow) (model : DataModel)
    (hp : mw.hasFittingPage = true) (he : mw.dataEditorWidget = some (some model))
    (hr : model.rowCount ≠ 0) :
    transferDataToFitting num mw =
      some (((List.range model.rowCount).filter
          (fun r => decide (model.cellDouble r 0 > 0))).map (fun r => model.cellDouble r 0),
        ((List.range model.rowCount).filter
          (fun r => decide (model.cellDouble r 0 > 0))).map
            (fun r => |model.cellDouble r 1 - initialPressureOf model|),
        transferDerivative num
          (((List.range model.rowCount).filter
            (fun r => decide (model.cellDouble r 0 > 0))).map (fun r => model.cellDouble r 0))
          (((List.range model.rowCount).filter
            (fun r => decide (model.cellDouble r 0 > 0))).map
              (fun r => |model.cellDouble r 1 - initialPressureOf model|))) := by
  unfold transferDataToFitting
  rw [hp, he]
  simp only [Bool.not_true, Bool.false_eq_true, if_false, hr]
  rw [foldl_transferStep]
  simp

theorem transferDataToFitting_some (num : Numerics) (mw : MainWindow)
    (out : List ℚ × List ℚ × List ℚ) (h : transferDataToFitting num mw = some out) :
    ∃ model, mw.hasFittingPage = true ∧ mw.dataEditorWidget = some (some model) ∧
      model.rowCount ≠ 0 := by
  unfold transferDataToFitting at h
  cases hp : mw.hasFittingPage with
  | false => simp [hp] at h
  | true =>
    cases he : mw.dataEditorWidget with
    | none => simp [hp, he] at h
    | some o =>
      cases o with
      | none => simp [hp, he] at h
      | some model =>
        refine ⟨model, rfl, rfl, ?_⟩
        intro h0
        simp [hp, he, h0] at h

theorem loadedObservedData_eq (qt : QtText) (dc : DerivativeCalculators)
    (settings : FittingDataSettings) (src : PreviewModel) (hr : src.rowCount ≠ 0)
    (hk : (loadRowIndices settings.skipRows src.rowCount).filterMap
      (keptRow qt settings src) ≠ []) :
    ∃ d, loadedObservedData qt dc settings (some src) =
      some (((loadRowIndices settings.skipRows src.rowCount).filterMap
          (keptRow qt settings src)).map Prod.fst,
        ((loadRowIndices settings.skipRows src.rowCount).filterMap
          (keptRow qt settings src)).map (fun tp => deltaPOf settings
            ((((loadRowIndices settings.skipRows src.rowCount).filterMap
              (keptRow qt settings src)).map Prod.snd).headD 0) tp.2),
        d) := by
  unfold loadedObservedData
  simp only [hr, if_false]
  have h1 := (foldl_extractStep qt settings src
    (loadRowIndices settings.skipRows src.rowCount) ([], [], [])).1
  have h2 := (foldl_extractStep qt settings src
    (loadRowIndices settings.skipRows src.rowCount) ([], [], [])).2
  simp only [List.nil_append] at h1 h2
  rw [h1, h2]
  have hne : (List.map Prod.fst ((loadRowIndices settings.skipRows src.rowCount).filterMap
      (keptRow qt settings src))).isEmpty = false := by
    cases hl : (loadRowIndices settings.skipRows src.rowCount).filterMap
        (keptRow qt settings src) with
    | nil => exact absurd hl hk
    | cons a t => rfl
  rw [hne]
  simp only [Bool.false_eq_true, if_false, List.map_map]
  exact ⟨_, rfl⟩

theorem loadedObservedData_some (qt : QtText) (dc : DerivativeCalculators)
    (settings : FittingDataSettings) (sourceModel : Option PreviewModel)
    (out : List ℚ × List ℚ × List ℚ)
    (h : loadedObservedData qt dc settings sourceModel = some out) :
    ∃ src, sourceModel = some src ∧ src.rowCount ≠ 0 ∧
      (loadRowIndices settings.skipRows src.rowCount).filterMap
        (keptRow qt settings src) ≠ [] := by
  cases sourceModel with
  | none => simp [loadedObservedData] at h
  | some src =>
    refine ⟨src, rfl, ?_, ?_⟩
    · intro h0
      simp [loadedObservedData, h0] at h
    · intro hk
      have h1 := (foldl_extractStep qt settings src
        (loadRowIndices settings.skipRows src.rowCount) ([], [], [])).1
      rw [hk] at h1
      simp only [List.nil_append, List.map_nil] at h1
      unfold loadedObservedData at h
      simp only [h1, List.isEmpty_nil, if_true] at h
      split at h <;> exact absurd h (by simp)

theorem filterMap_keptRow_pos (qt : QtText) (settings : FittingDataSettings)
    (src : PreviewModel) (l : List Int) :
    ∀ x ∈ (l.filterMap (keptRow qt settings src)).map Prod.fst, 0 < x := by
  intro x hx
  rw [List.mem_map] at hx
  obtain ⟨tp, htp, rfl⟩ := hx
  rw [List.mem_filterMap] at htp
  obtain ⟨i, _, hi⟩ := htp
  exact keptRow_pos qt settings src i tp.1 tp.2 hi

theorem filter_pos_map_pos (m : DataModel) (l : List Nat) :
    ∀ x ∈ (l.filter (fun r => decide (m.cellDouble r 0 > 0))).map
      (fun r => m.cellDouble r 0), 0 < x := by
  intro x hx
  rw [List.mem_map] at hx
  obtain ⟨r, hr, rfl⟩ := hx
  rw [List.mem_filter] at hr
  exact of_decide_eq_true hr.2

/-- Claim C15.  Observed dataset alignment.  For a data model with at least one row,
`transferDataToFitting` hands over the rows with a strictly positive time, in the order of
the source rows: the time sequence, the pressure changes of the same rows and a derivative
sequence of the same length; whenever it hands over anything the three lengths agree and
every time is strictly positive.  Likewise the time and pressure-change sequences that
`on_btnLoadData_clicked` extracts come from the same kept rows of the preview model, have
equal length and strictly positive times, and are what the widget holds afterwards. -/
theorem observed_sequences_aligned (num : Numerics) (qt : QtText) (dc : DerivativeCalculators) :
    (∀ (mw : MainWindow) (model : DataModel),
      mw.hasFittingPage = true → mw.dataEditorWidget = some (some model) →
      model.rowCount ≠ 0 →
      ∃ rows t p d, transferDataToFitting num mw = some (t, p, d) ∧
        rows = (List.range model.rowCount).filter
          (fun r => decide (model.cellDouble r 0 > 0)) ∧
        rows.Pairwise (fun a b => a < b) ∧
        t = rows.map (fun r => model.cellDouble r 0) ∧
        p = rows.map (fun r => |model.cellDouble r 1 - initialPressureOf model|) ∧
        t.length = p.length ∧ d.length = t.length ∧ (∀ x ∈ t, 0 < x)) ∧
    (∀ (mw : MainWindow) (t p d : List ℚ), transferDataToFitting num mw = some (t, p, d) →
      t.length = p.length ∧ d.length = t.length ∧ (∀ x ∈ t, 0 < x)) ∧
    (∀ (settings : FittingDataSettings) (src : PreviewModel) (w : FittingWidget),
      src.rowCount ≠ 0 →
      (loadRowIndices settings.skipRows src.rowCount).filterMap
        (keptRow qt settings src) ≠ [] →
      ∃ kept t p d, loadedObservedData qt dc settings (some src) = some (t, p, d) ∧
        kept = (loadRowIndices settings.skipRows src.rowCount).filterMap
          (keptRow qt settings src) ∧
        t = kept.map Prod.fst ∧
        p = kept.map (fun tp => deltaPOf settings ((kept.map Prod.snd).headD 0) tp.2) ∧
        t.length = p.length ∧ (∀ x ∈ t, 0 < x) ∧
        ∃ w2, on_btnLoadData_clicked qt dc (some (settings, some src)) w = some w2 ∧
          w2.obsTime = t ∧ w2.obsDeltaP = p) ∧
    (∀ (settings : FittingDataSettings) (sourceModel : Option PreviewModel)
      (t p d : List ℚ), loadedObservedData qt dc settings sourceModel = some (t, p, d) →
      t.length = p.length ∧ (∀ x ∈ t, 0 < x)) := by
  have hA : ∀ (mw : MainWindow) (model : DataModel),
      mw.hasFittingPage = true → mw.dataEditorWidget = some (some model) →
      model.rowCount ≠ 0 →
      ∃ rows t p d, transferDataToFitting num mw = some (t, p, d) ∧
        rows = (List.range model.rowCount).filter
          (fun r => decide (model.cellDouble r 0 > 0)) ∧
        rows.Pairwise (fun a b => a < b) ∧
        t = rows.map (fun r => model.cellDouble r 0) ∧
        p = rows.map (fun r => |model.cellDouble r 1 - initialPressureOf model|) ∧
        t.length = p.length ∧ d.length = t.length ∧ (∀ x ∈ t, 0 < x) := by
    intro mw model hp he hr
    refine ⟨_, _, _, _, transferDataToFitting_eq num mw model hp he hr, rfl, ?_, rfl, rfl,
      by simp, transferDerivative_length _ _ _, filter_pos_map_pos model _⟩
    exact List.Pairwise.sublist (List.filter_sublist _) (List.pairwise_lt_range _)
  have hB : ∀ (settings : FittingDataSettings) (src : PreviewModel) (w : FittingWidget),
      src.rowCount ≠ 0 →
      (loadRowIndices settings.skipRows src.rowCount).filterMap
        (keptRow qt settings src) ≠ [] →
      ∃ kept t p d, loadedObservedData qt dc settings (some src) = some (t, p, d) ∧
        kept = (loadRowIndices settings.skipRows src.rowCount).filterMap
          (keptRow qt settings src) ∧
        t = kept.map Prod.fst ∧
        p = kept.map (fun tp => deltaPOf settings ((kept.map Prod.snd).headD 0) tp.2) ∧
        t.length = p.length ∧ (∀ x ∈ t, 0 < x) ∧
        ∃ w2, on_btnLoadData_clicked qt dc (some (settings, some src)) w = some w2 ∧
          w2.obsTime = t ∧ w2.obsDeltaP = p := by
    intro settings src w hr hk
    obtain ⟨d, hd⟩ := loadedObservedData_eq qt dc settings src hr hk
    refine ⟨_, _, _, d, hd, rfl, rfl, rfl, by simp, filterMap_keptRow_pos qt settings src _,
      ?_⟩
    unfold on_btnLoadData_clicked
    simp only [hd]
    unfold setObservedData
    rw [plotRows_inRange _ _ (plotReadsInRange_of_length _ _ (by simp))]
    exact ⟨_, rfl, rfl, rfl⟩
  refine ⟨hA, ?_, hB, ?_⟩
  · intro mw t p d h
    obtain ⟨model, hp, he, hr⟩ := transferDataToFitting_some num mw _ h
    obtain ⟨rows, t2, p2, d2, h2, _, _, _, _, hl, hdl, hpos⟩ := hA mw model hp he hr
    rw [h] at h2
    simp only [Option.some.injEq, Prod.mk.injEq] at h2
    obtain ⟨rfl, rfl, rfl⟩ := h2
    exact ⟨hl, hdl, hpos⟩
  · intro settings sourceModel t p d h
    obtain ⟨src, hs, hr, hk⟩ := loadedObservedData_some qt dc settings sourceModel _ h
    subst hs
    obtain ⟨kept, t2, p2, d2, h2, _, _, _, hl, hpos, _⟩ := hB settings src exampleWidget hr hk
    rw [h] at h2
    simp only [Option.some.injEq, Prod.mk.injEq] at h2
    obtain ⟨rfl, rfl, rfl⟩ := h2
    exact ⟨hl, hpos⟩

/-- Claim C15 on the worked inputs: of the rows `(0, 5)`, `(1, 5)`, `(2, 7)` the last two
are handed over, with pressure changes `0` and `2`; of the preview rows `0 5`, `1 5`,
`x 6`, `2 7` the second and the fourth are kept. -/
theorem observed_sequences_aligned_witness :
    exampleMainWindow.hasFittingPage = true ∧
    exampleMainWindow.dataEditorWidget = some (some exampleDataModel) ∧
    exampleDataModel.rowCount ≠ 0 ∧
    transferDataToFitting exampleNumerics exampleMainWindow =
      some ([1, 2], [0, 2], [0, 0]) ∧
    (∃ t p d, transferDataToFitting exampleNumerics exampleMainWindow = some (t, p, d) ∧
      t.length = p.length ∧ d.length = t.length ∧ (∀ x ∈ t, 0 < x)) ∧
    examplePreviewModel.rowCount ≠ 0 ∧
    (loadRowIndices exampleSettings.skipRows examplePreviewModel.rowCount).filterMap
      (keptRow exampleQt exampleSettings examplePreviewModel) = [(1, 5), (2, 7)] ∧
    loadedObservedData exampleQt exampleCalculators exampleSettings
      (some examplePreviewModel) = some ([1, 2], [0, 2], [0, 0]) ∧
    (∃ w2, on_btnLoadData_clicked exampleQt exampleCalculators
      (some (exampleSettings, some examplePreviewModel)) exampleWidget = some w2 ∧
      w2.obsTime = [1, 2] ∧ w2.obsDeltaP = [0, 2]) ∧
    ([1, 2] : List ℚ).length = ([0, 2] : List ℚ).length ∧
    (∀ x ∈ ([1, 2] : List ℚ), 0 < x) := by
  have h := observed_sequences_aligned exampleNumerics exampleQt exampleCalculators
  have hA : transferDataToFitting exampleNumerics exampleMainWindow =
      some ([1, 2], [0, 2], [0, 0]) := by decide!
  have hB : loadedObservedData exampleQt exampleCalculators exampleSettings
      (some examplePreviewModel) = some ([1, 2], [0, 2], [0, 0]) := by decide!
  have hk : (loadRowIndices exampleSettings.skipRows examplePreviewModel.rowCount).filterMap
      (keptRow exampleQt exampleSettings examplePreviewModel) = [(1, 5), (2, 7)] := by
    decide!
  have hr : exampleDataModel.rowCount ≠ 0 := by decide
  have hr2 : examplePreviewModel.rowCount ≠ 0 := by decide
  obtain ⟨rows, t, p, d, e, _, _, _, _, hl, hdl, hpos⟩ :=
    h.1 exampleMainWindow exampleDataModel rfl rfl hr
  obtain ⟨kept, t2, p2, d2, e2, _, _, _, _, _, w2, ho, ho1, ho2⟩ :=
    h.2.2.1 exampleSettings examplePreviewModel exampleWidget hr2 (by rw [hk]; simp)
  rw [hB] at e2
  simp only [Option.some.injEq, Prod.mk.injEq] at e2
  obtain ⟨rfl, rfl, rfl⟩ := e2
  have h1 := h.2.1 exampleMainWindow [1, 2] [0, 2] [0, 0] hA
  have h2 := h.2.2.2 exampleSettings (some examplePreviewModel) [1, 2] [0, 2] [0, 0] hB
  exact ⟨rfl, rfl, hr, hA, ⟨t, p, d, e, hl, hdl, hpos⟩, hr2, hk, hB, ⟨w2, ho, ho1, ho2⟩,
    h1.1, h2.2⟩

/-! ## Parameter store -/

theorem refreshParamTable_params (fmt : NumberText) (c : FittingParameterChart) :
    (refreshParamTable fmt c).params = c.params := by
  unfold refreshParamTable
  cases c.table <;> rfl

theorem resetParams_params (fmt : NumberText) (c : FittingParameterChart) (mm : ModelManager)
    (type : ModelType) (hm : c.modelManager = some mm) :
    (resetParams fmt c type).params =
      (mm.getDefaultParameters type).map (fun kv => defaultParameter kv.1 kv.2) := by
  unfold resetParams
  rw [hm]
  simp only [refreshParamTable_params]

theorem defaultParameter_inBounds (name : String) (value : ℚ) (h : 0 ≤ value) :
    (defaultParameter name value).min ≤ (defaultParameter name value).value ∧
    (defaultParameter name value).value ≤ (defaultParameter name value).max := by
  unfold defaultParameter
  simp only
  by_cases hv : value > 0
  · simp only [hv, if_true]
    constructor
    · norm_num; nlinarith
    · norm_num; nlinarith
  · have h0 : value = 0 := le_antisymm (not_lt.mp hv) h
    subst h0
    norm_num

theorem setFirstNamed_bounds (key : String) (val : ℚ) (ps : List FitParameter) :
    (setFirstNamed key val ps).map (fun p => (p.name, p.min, p.max)) =
      ps.map (fun p => (p.name, p.min, p.max)) := by
  induction ps with
  | nil => rfl
  | cons p rest ih =>
    unfold setFirstNamed
    by_cases h : p.name = key
    · simp [h]
    · simp only [h, if_false, List.map_cons, ih]

theorem updateRows_bounds (qt : QtText) (rows : List TableRow) (ps out : List FitParameter)
    (h : updateRows qt rows ps = some out) :
    out.map (fun p => (p.name, p.min, p.max)) = ps.map (fun p => (p.name, p.min, p.max)) := by
  induction rows generalizing ps with
  | nil =>
    simp only [updateRows, Option.some.injEq] at h
    rw [← h]
  | cons row rest ih =>
    unfold updateRows at h
    cases hk : row.key with
    | none =>
      simp only [hk] at h
      exact ih ps h
    | some key =>
      cases ht : row.text with
      | none => simp [hk, ht] at h
      | some text =>
        cases hc : cellValue qt text with
        | none => simp [hk, ht, hc] at h
        | some val =>
          simp only [hk, ht, hc] at h
          rw [ih _ h, setFirstNamed_bounds]

theorem updateParamsFromTable_bounds (qt : QtText) (c out : FittingParameterChart)
    (h : updateParamsFromTable qt c = some out) :
    out.params.map (fun p => (p.name, p.min, p.max)) =
      c.params.map (fun p => (p.name, p.min, p.max)) := by
  unfold updateParamsFromTable at h
  cases ht : c.table with
  | none =>
    simp only [ht, Option.some.injEq] at h
    rw [← h]
  | some rows =>
    simp only [ht, Option.map_eq_some'] at h
    obtain ⟨ps, hps, rfl⟩ := h
    exact updateRows_bounds qt rows c.params ps hps

theorem eventFilter_bounds (qt : QtText) (fmt : NumberText) (c : FittingParameterChart)
    (e : WheelEvent) :
    (eventFilter qt fmt c e).1.params.map (fun p => (p.name, p.min, p.max)) =
      c.params.map (fun p => (p.name, p.min, p.max)) := by
  unfold eventFilter
  split
  · split
    · split
      · split
        · split
          · split
            · rfl
            · split
              · exact setFirstNamed_bounds _ _ _
              · rfl
          · rfl
        · rfl
      · rfl
    · rfl
  · rfl

theorem switchModel_bounds (fmt : NumberText) (c : FittingParameterChart)
    (newType : ModelType) :
    (switchModel fmt c newType).params.map (fun p => (p.name, p.min, p.max)) =
      (resetParams fmt c newType).params.map (fun p => (p.name, p.min, p.max)) := by
  unfold switchModel
  simp only [refreshParamTable_params, List.map_map]
  apply List.map_congr_left
  intro p _
  simp only [Function.comp]
  split <;> rfl

/-- Claim C14, as amended.  With a model manager, `resetParams` builds the parameters
from the default map, and every parameter whose default value is not negative then has
`min <= value <= max`.  The other three operations that assign a value, `switchModel`,
`updateParamsFromTable` and the wheel adjustment of `eventFilter`, leave the name, `min`
and `max` of every parameter as they are (for `switchModel`: as `resetParams` sets them)
and do not compare the value they assign with them. -/
theorem bounds_set_by_resetParams_only (qt : QtText) (fmt : NumberText)
    (c : FittingParameterChart) :
    (∀ (mm : ModelManager) (type : ModelType), c.modelManager = some mm →
      (resetParams fmt c type).params =
        (mm.getDefaultParameters type).map (fun kv => defaultParameter kv.1 kv.2) ∧
      ∀ p ∈ (resetParams fmt c type).params,
        0 ≤ p.value → p.min ≤ p.value ∧ p.value ≤ p.max) ∧
    (∀ newType : ModelType,
      (switchModel fmt c newType).params.map (fun p => (p.name, p.min, p.max)) =
        (resetParams fmt c newType).params.map (fun p => (p.name, p.min, p.max))) ∧
    (∀ out : FittingParameterChart, updateParamsFromTable qt c = some out →
      out.params.map (fun p => (p.name, p.min, p.max)) =
        c.params.map (fun p => (p.name, p.min, p.max))) ∧
    (∀ e : WheelEvent,
      (eventFilter qt fmt c e).1.params.map (fun p => (p.name, p.min, p.max)) =
        c.params.map (fun p => (p.name, p.min, p.max))) := by
  refine ⟨?_, switchModel_bounds fmt c, updateParamsFromTable_bounds qt c,
    eventFilter_bounds qt fmt c⟩
  intro mm type hm
  refine ⟨resetParams_params fmt c mm type hm, ?_⟩
  intro p hp hv
  rw [resetParams_params fmt c mm type hm, List.mem_map] at hp
  obtain ⟨kv, _, rfl⟩ := hp
  exact defaultParameter_inBounds kv.1 kv.2 hv

/-- Claim C14 on the worked inputs: after `resetParams` for the model type 1, with the
defaults `S = 0` and `k = 5000`, both parameters lie in their bounds, and an update from
the table leaves the bounds of the worked parameters as they are. -/
theorem bounds_set_by_resetParams_only_witness :
    exampleChartEmpty.modelManager = some exampleModelDefaults ∧
    (resetParams exampleFmt exampleChartEmpty 1).params.map
      (fun p => (p.name, p.value, p.min, p.max)) =
        [("S", 0, 0, 100), ("k", 5000, 50, 500000)] ∧
    (∀ p ∈ (resetParams exampleFmt exampleChartEmpty 1).params,
      0 ≤ p.value → p.min ≤ p.value ∧ p.value ≤ p.max) ∧
    (∃ out, updateParamsFromTable exampleQt exampleChartEdited = some out ∧
      out.params.map (fun p => (p.name, p.min, p.max)) =
        exampleChartEdited.params.map (fun p => (p.name, p.min, p.max))) := by
  have h1 := (bounds_set_by_resetParams_only exampleQt exampleFmt exampleChartEmpty).1
    exampleModelDefaults 1 rfl
  have h2 := (bounds_set_by_resetParams_only exampleQt exampleFmt exampleChartEdited).2.2.1
  have hs : (updateParamsFromTable exampleQt exampleChartEdited).isSome = true := by decide!
  refine ⟨rfl, by decide!, h1.2, ?_⟩
  cases h : updateParamsFromTable exampleQt exampleChartEdited with
  | none =>
    rw [h] at hs
    exact absurd hs (by decide)
  | some out => exact ⟨out, rfl, h2 out h⟩

/-- Claim C14 as stated fails: each of the four operations leaves a value outside
`[min, max]`.  `resetParams` for the model type 0 gives the skin its default `-1` with the
bounds `[0, 100]`; `switchModel` from type 1 to type 0 carries `k = 5000` into the bounds
`[0.01, 100]`; `updateParamsFromTable` assigns the text `50` to the skin with the bounds
`[-10, 10]`; one wheel notch raises the skin from its upper bound `10` to `10.1`. -/
theorem value_bounds_counterexample :
    (resetParams exampleFmt exampleChartEmpty 0).params.map
      (fun p => (p.name, p.value, p.min, p.max, inBounds p)) =
        [("S", -1, 0, 100, false), ("k", 1, 1 / 100, 100, true)] ∧
    ((resetParams exampleFmt exampleChartEmpty 1).params.all inBounds = true ∧
     (switchModel exampleFmt (resetParams exampleFmt exampleChartEmpty 1) 0).params.map
      (fun p => (p.name, p.value, p.min, p.max, inBounds p)) =
        [("S", 0, 0, 100, true), ("k", 5000, 1 / 100, 100, false)]) ∧
    (exampleChartEdited.params.all inBounds = true ∧
     (updateParamsFromTable exampleQt exampleChartEdited).map
      (fun out => out.params.map (fun p => (p.name, p.value, p.min, p.max, inBounds p))) =
        some [("L", 2, 0, 100, true), ("Lf", 1, 0, 100, true),
              ("LfD", 1 / 20, 0, 1 / 10, true), ("S", 50, -10, 10, false)]) ∧
    (exampleChartWheel.params.all inBounds = true ∧
     (eventFilter exampleQt exampleFmt exampleChartWheel
        { item := some (0, 2), angleDeltaY := 120 }).1.params.map
      (fun p => (p.name, p.value, p.min, p.max, inBounds p)) =
        [("S", 101 / 10, -10, 10, false)]) := by
  refine ⟨by decide!, ⟨by decide!, by decide!⟩, ⟨by decide!, by decide!⟩,
    ⟨by decide!, by decide!⟩⟩

/-! ## Saved state -/

theorem setFirstNamed_shape (key : String) (val : ℚ) (ps : List FitParameter) :
    (setFirstNamed key val ps).map (fun p => (p.name, p.isFit, p.min, p.max, p.step)) =
      ps.map (fun p => (p.name, p.isFit, p.min, p.max, p.step)) := by
  induction ps with
  | nil => rfl
  | cons p rest ih =>
    unfold setFirstNamed
    by_cases h : p.name = key
    · simp [h]
    · simp only [h, if_false, List.map_cons, ih]

theorem updateRows_shape (qt : QtText) (rows : List TableRow) (ps out : List FitParameter)
    (h : updateRows qt rows ps = some out) :
    out.map (fun p => (p.name, p.isFit, p.min, p.max, p.step)) =
      ps.map (fun p => (p.name, p.isFit, p.min, p.max, p.step)) := by
  induction rows generalizing ps with
  | nil =>
    simp only [updateRows, Option.some.injEq] at h
    rw [← h]
  | cons row rest ih =>
    unfold updateRows at h
    cases hk : row.key with
    | none =>
      simp only [hk] at h
      exact ih ps h
    | some key =>
      cases ht : row.text with
      | none => simp [hk, ht] at h
      | some text =>
        cases hc : cellValue qt text with
        | none => simp [hk, ht, hc] at h
        | some val =>
          simp only [hk, ht, hc] at h
          rw [ih _ h, setFirstNamed_shape]

theorem updateParamsFromTable_shape (qt : QtText) (c out : FittingParameterChart)
    (h : updateParamsFromTable qt c = some out) :
    out.params.map (fun p => (p.name, p.isFit, p.min, p.max, p.step)) =
      c.params.map (fun p => (p.name, p.isFit, p.min, p.max, p.step)) := by
  unfold updateParamsFromTable at h
  cases ht : c.table with
  | none =>
    simp only [ht, Option.some.injEq] at h
    rw [← h]
  | some rows =>
    simp only [ht, Option.map_eq_some'] at h
    obtain ⟨ps, hps, rfl⟩ := h
    exact updateRows_shape qt rows c.params ps hps

theorem loadParam_append_hit (pObj : JsonParam) (pre : List FitParameter) (p : FitParameter)
    (ps : List FitParameter) (hpre : pObj.name ∉ pre.map (fun q => q.name))
    (hp : p.name = pObj.name) :
    loadParam pObj (pre ++ p :: ps) = pre ++ assignJson pObj p :: ps := by
  induction pre with
  | nil => simp [loadParam, hp]
  | cons a t ih =>
    have ha : a.name ≠ pObj.name := by
      intro e
      exact hpre (by simp [e])
    have ht : pObj.name ∉ t.map (fun q => q.name) := by
      intro e
      exact hpre (by simp only [List.map_cons, List.mem_cons]; exact Or.inr e)
    show loadParam pObj (a :: (t ++ p :: ps)) = a :: (t ++ assignJson pObj p :: ps)
    simp only [loadParam, ha, if_false, ih ht]

theorem foldl_loadParam (js : List JsonParam) (pre ps : List FitParameter)
    (hn : ps.map (fun q => q.name) = js.map (fun j => j.name))
    (hnodup : (js.map (fun j => j.name)).Nodup)
    (hpre : ∀ j ∈ js, j.name ∉ pre.map (fun q => q.name)) :
    js.foldl (fun currentParams pObj => loadParam pObj currentParams) (pre ++ ps) =
      pre ++ List.zipWith assignJson js ps := by
  induction js generalizing pre ps with
  | nil =>
    cases ps with
    | nil => simp
    | cons p t => simp at hn
  | cons j rest ih =>
    cases ps with
    | nil => simp at hn
    | cons p t =>
      simp only [List.map_cons, List.cons.injEq] at hn
      rw [List.foldl_cons, loadParam_append_hit j pre p t (hpre j (by simp)) hn.1]
      have e : pre ++ assignJson j p :: t = (pre ++ [assignJson j p]) ++ t := by simp
      rw [e, ih (pre ++ [assignJson j p]) t hn.2 (List.nodup_cons.mp hnodup).2]
      · simp
      · intro j2 hj2 hmem
        simp only [List.map_append, List.map_cons, List.map_nil, List.mem_append,
          List.mem_singleton] at hmem
        rcases hmem with h1 | h1
        · exact hpre j2 (by simp [hj2]) h1
        · have hj : j2.name = j.name := by rw [h1]; exact hn.1
          have hnot := (List.nodup_cons.mp hnodup).1
          exact hnot (List.mem_map.mpr ⟨j2, hj2, hj⟩)

theorem zipWith_assignJson_core (l ds : List FitParameter)
    (hn : ds.map (fun q => q.name) = l.map (fun q => q.name)) :
    (List.zipWith assignJson (l.map jsonOfParam) ds).map
        (fun p => (p.name, p.value, p.isFit, p.min, p.max, p.step, p.isVisible)) =
      l.map (fun p => (p.name, p.value, p.isFit, p.min, p.max, p.step, p.isVisible)) := by
  induction l generalizing ds with
  | nil => simp
  | cons q rest ih =>
    cases ds with
    | nil => simp at hn
    | cons d t =>
      simp only [List.map_cons, List.cons.injEq] at hn
      simp only [List.map_cons, List.zipWith_cons_cons, ih t hn.2]
      simp [assignJson, jsonOfParam, hn.1]

theorem getJsonState_some (qt : QtText) (w w2 : FittingWidget) (root : JsonState)
    (h : getJsonState qt w = some (w2, root)) :
    updateParamsFromTable qt w.paramChart = some w2.paramChart ∧
    root.isEmpty = false ∧ root.modelType = some w.currentModelType ∧
    root.parameters = some (w2.paramChart.params.map jsonOfParam) := by
  unfold getJsonState at h
  cases hc : updateParamsFromTable qt w.paramChart with
  | none => simp [hc] at h
  | some chart =>
    simp only [hc, Option.some.injEq, Prod.mk.injEq] at h
    obtain ⟨rfl, rfl⟩ := h
    exact ⟨rfl, rfl, rfl, rfl⟩

theorem loadFittingState_params (fmt : NumberText) (w : FittingWidget) (type : ModelType)
    (arr : List JsonParam) (root : JsonState) (mm : ModelManager)
    (hm : w.paramChart.modelManager = some mm)
    (he : root.isEmpty = false) (ht : root.modelType = some type)
    (hp : root.parameters = some arr) :
    (loadFittingState fmt w root).paramChart.params =
      arr.foldl (fun currentParams pObj => loadParam pObj currentParams)
        ((mm.getDefaultParameters type).map (fun kv => defaultParameter kv.1 kv.2)) := by
  unfold loadFittingState
  rw [he, ht, hp]
  simp only [Bool.false_eq_true, if_false, setParameters, refreshParamTable_params]
  rw [resetParams_params fmt w.paramChart mm type hm]

/-- Claim C13, as amended.  For a parameter list whose names are those of the default map
of the current model type of a model manager, without repetition, `getJsonState` first
updates the values from the table, which keeps the name, `isFit`, `min`, `max` and `step`
of every parameter, and `loadFittingState` on the exported state, in any widget with that
model manager, yields a list with the same name, value, `isFit`, `min`, `max`, `step`
and `isVisible` as the list after that update, exactly. -/
theorem saved_state_round_trip (qt : QtText) (fmt : NumberText) (w w2 : FittingWidget)
    (root : JsonState) (mm : ModelManager)
    (hnames : w.paramChart.params.map (fun p => p.name) =
      (mm.getDefaultParameters w.currentModelType).map Prod.fst)
    (hnodup : (w.paramChart.params.map (fun p => p.name)).Nodup)
    (hexp : getJsonState qt w = some (w2, root)) :
    updateParamsFromTable qt w.paramChart = some w2.paramChart ∧
    w2.paramChart.params.map (fun p => (p.name, p.isFit, p.min, p.max, p.step)) =
      w.paramChart.params.map (fun p => (p.name, p.isFit, p.min, p.max, p.step)) ∧
    (∀ w3 : FittingWidget, w3.paramChart.modelManager = some mm →
      (loadFittingState fmt w3 root).paramChart.params.map
          (fun p => (p.name, p.value, p.isFit, p.min, p.max, p.step, p.isVisible)) =
        w2.paramChart.params.map
          (fun p => (p.name, p.value, p.isFit, p.min, p.max, p.step, p.isVisible))) := by
  obtain ⟨hup, he, ht, hp⟩ := getJsonState_some qt w w2 root hexp
  have hshape := updateParamsFromTable_shape qt w.paramChart w2.paramChart hup
  have hn2 : w2.paramChart.params.map (fun p => p.name) =
      w.paramChart.params.map (fun p => p.name) := by
    have := congrArg (List.map (fun t : String × Bool × ℚ × ℚ × ℚ => t.1)) hshape
    simpa [List.map_map, Function.comp_def] using this
  refine ⟨hup, hshape, ?_⟩
  intro w3 hm3
  rw [loadFittingState_params fmt w3 w.currentModelType _ root mm hm3 he ht hp]
  have hd : ((mm.getDefaultParameters w.currentModelType).map
      (fun kv => defaultParameter kv.1 kv.2)).map (fun q => q.name) =
      w2.paramChart.params.map (fun q => q.name) := by
    rw [hn2, hnames]
    simp [List.map_map, Function.comp_def, defaultParameter]
  have hj : (w2.paramChart.params.map jsonOfParam).map (fun j => j.name) =
      w2.paramChart.params.map (fun q => q.name) := by
    simp [List.map_map, Function.comp_def, jsonOfParam]
  have hfold := foldl_loadParam (w2.paramChart.params.map jsonOfParam) []
    ((mm.getDefaultParameters w.currentModelType).map (fun kv => defaultParameter kv.1 kv.2))
    (by rw [hd, hj]) (by rw [hj, hn2]; exact hnodup) (by simp)
  simp only [List.nil_append] at hfold
  rw [hfold]
  exact zipWith_assignJson_core _ _ hd

/-- Claim C13 on the worked input: the widget that holds `k = 12.3456789` exports a state
whose reload agrees with the list after the update from the table. -/
theorem saved_state_round_trip_witness :
    exampleWidgetDigits.paramChart.modelManager = some exampleModelK ∧
    (exampleWidgetDigits.paramChart.params.map (fun p => p.name)).Nodup ∧
    ∃ w2 root, getJsonState exampleQtDecimal exampleWidgetDigits = some (w2, root) ∧
      w2.paramChart.params.map (fun p => (p.name, p.isFit, p.min, p.max, p.step)) =
        exampleWidgetDigits.paramChart.params.map
          (fun p => (p.name, p.isFit, p.min, p.max, p.step)) ∧
      (loadFittingState exampleFmtG6 w2 root).paramChart.params.map
          (fun p => (p.name, p.value, p.isFit, p.min, p.max, p.step, p.isVisible)) =
        w2.paramChart.params.map
          (fun p => (p.name, p.value, p.isFit, p.min, p.max, p.step, p.isVisible)) := by
  have hs : (getJsonState exampleQtDecimal exampleWidgetDigits).isSome = true := by decide!
  have hnd : (exampleWidgetDigits.paramChart.params.map (fun p => p.name)).Nodup := by
    decide
  refine ⟨rfl, hnd, ?_⟩
  cases h : getJsonState exampleQtDecimal exampleWidgetDigits with
  | none =>
    rw [h] at hs
    exact absurd hs (by decide)
  | some out =>
    obtain ⟨w2, root⟩ := out
    have hr := saved_state_round_trip exampleQtDecimal exampleFmtG6 exampleWidgetDigits w2
      root exampleModelK (by decide) hnd h
    have hw2 : w2.paramChart.modelManager = some exampleModelK := by
      have hup := hr.1
      unfold updateParamsFromTable at hup
      simp only [exampleWidgetDigits, Option.map_eq_some'] at hup
      obtain ⟨ps, _, hps⟩ := hup
      rw [← hps]
    exact ⟨w2, root, rfl, hr.2.1, hr.2.2 w2 hw2⟩

/-- Claim C13 as stated fails.  The widget after `resetParams` holds `k = 12.3456789` and
shows `12.3457` in the table; `getJsonState` reads the value back from the table, so the
reloaded list holds `k = 12.3457`, which differs from the value held before the export by
more than `1e-9`. -/
theorem table_value_export_counterexample :
    (resetParams exampleFmtG6
      { table := some [], params := [], modelManager := some exampleModelK } 0).params =
        exampleWidgetDigits.paramChart.params ∧
    (resetParams exampleFmtG6
      { table := some [], params := [], modelManager := some exampleModelK } 0).table =
        exampleWidgetDigits.paramChart.table ∧
    exampleWidgetDigits.paramChart.params.map (fun p => (p.name, p.value)) =
      [("k", 12.3456789)] ∧
    (getJsonState exampleQtDecimal exampleWidgetDigits).map (fun out =>
      (loadFittingState exampleFmtG6 out.1 out.2).paramChart.params.map
        (fun p => (p.name, p.value))) = some [("k", 12.3457)] ∧
    ¬ (|(12.3457 : ℚ) - 12.3456789| ≤ 1e-9) := by
  refine ⟨by decide!, by decide!, by decide!, by decide!, ?_⟩
  norm_num [abs_le]

/-! ## Closed evaluations at failing inputs -/

/-- Claim C25, at the failing input: for the cell text `,` (and for the full-width comma
alone) the list of parts with the empty ones skipped is empty, so `updateParamsFromTable`
takes `first()` of an empty list and has no defined result, whatever `QString::toDouble`
does. -/
theorem cellValue_undefined_on_comma_only (qt : QtText) :
    splitSkipEmpty (fun c => c == asciiComma || c == fullWidthComma) [asciiComma] = [] ∧
    cellValue qt "," = none ∧
    cellValue qt (String.mk [fullWidthComma]) = none ∧
    (updateParamsFromTable qt exampleWidgetCommaCell.paramChart).isNone = true := by
  have hcell : cellValue qt "," = none := by
    unfold cellValue
    rfl
  have hcell2 : cellValue qt (String.mk [fullWidthComma]) = none := by
    unfold cellValue
    rfl
  refine ⟨by decide!, hcell, hcell2, ?_⟩
  simp [exampleWidgetCommaCell, exampleWidget, updateParamsFromTable, updateRows, hcell]

/-- Claim C26, at the failing input: with a model manager and no fit-enabled parameter the
run switches the manager to low precision and signals completion; it never switches back
to high precision, while the run with fit-enabled parameters does. -/
theorem precision_left_low_without_fit_parameter :
    exampleWidget.modelManager = some exampleModel ∧
    (∀ p ∈ exampleParamsNoFit, p.isFit = false) ∧
    exampleRunNoFit = [Event.setHighPrecision false, Event.fitFinished] ∧
    Event.setHighPrecision true ∉ exampleRunNoFit ∧
    Event.setHighPrecision true ∈ exampleRun := by
  refine ⟨rfl, by decide!, by decide!, by decide!, by decide!⟩

/-- Claim C29, at the failing input: the forward model returns two pressure values at the
initial skin and one at the accepted one.  The accepted step has the SSE `1/4` and a
residual vector of length 1, and its snapshot carries the normalized error `1/8`, the SSE
divided by the residual count 2 of the map before the step, not `1/4`; the final snapshot
of the same map carries `1/4`. -/
theorem accepted_snapshot_divides_by_old_count :
    (initialState exampleNumerics (lowPrecision exampleWidgetShrinking) 0 exampleParamsSkin
      1).residuals.length = 2 ∧
    acceptedSteps exampleRunShrinking = [(1 / 4, [("S", 200 / 203)], [-1 / 2])] ∧
    Event.iterationUpdated (1 / 8) [("S", 200 / 203)] ([], [3 / 2], []) ∈
      exampleRunShrinking ∧
    snapshots exampleRunShrinking =
      [(1, [("S", 0)]), (1 / 8, [("S", 200 / 203)]), (1 / 4, [("S", 200 / 203)])] ∧
    ((1 : ℚ) / 4) / (([-1 / 2] : List ℚ).length : ℚ) ≠ 1 / 8 := by
  refine ⟨by decide!, by decide!, by decide!, by decide!, by norm_num⟩

/-- Claim C30, at the failing input: the table holds `Lf` alone, with the text `1,2`.  The
base map has the keys `Lf` and `LfD`; the two maps passed to the forward model have the
keys `L`, `Lf` and `LfD`, the read `currentParams["L"]` having inserted `L = 0`. -/
theorem sweep_map_gains_key :
    exampleWidgetSweepLf.modelManager = some exampleModel ∧
    (scanRawTexts exampleQt
      (getRawParamTexts exampleWidgetSweepLf.paramChart)).sensitivityKey = "Lf" ∧
    baseParamsOf exampleQt (getRawParamTexts exampleWidgetSweepLf.paramChart) =
      [("Lf", 1), ("LfD", 0)] ∧
    (updateModelCurve exampleNumerics exampleQt exampleFmt exampleWidgetSweepLf).map
        (fun out => modelMaps out.2) =
      some [[("L", 0), ("Lf", 1), ("LfD", 0)], [("L", 0), ("Lf", 2), ("LfD", 0)]] ∧
    QMap.keys (sweepParams [("Lf", 1), ("LfD", 0)] "Lf" 1) ≠
      QMap.keys [("Lf", (1 : ℚ)), ("LfD", 0)] := by
  refine ⟨rfl, by decide!, by decide!, by decide!, by decide!⟩

/-! ## Sweep parameter of a parameter table -/

theorem find?_congr_on {α : Type} (p q : α → Bool) (l : List α)
    (h : ∀ x ∈ l, p x = q x) : l.find? p = l.find? q := by
  induction l with
  | nil => rfl
  | cons a t ih =>
    rw [List.find?_cons, List.find?_cons, h a (List.mem_cons_self _ _),
      ih (fun x hx => h x (List.mem_cons_of_mem _ hx))]

theorem find?_first_of_pairwise {α : Type} (R : α → α → Prop) (p : α → Bool) (l : List α)
    (e : α) (hs : l.Pairwise R) (hf : l.find? p = some e) :
    ∀ x ∈ l, p x = true → x = e ∨ R e x := by
  induction l with
  | nil => intro x hx; cases hx
  | cons a t ih =>
    rw [List.pairwise_cons] at hs
    rw [List.find?_cons] at hf
    intro x hx hp
    cases hpa : p a with
    | true =>
      rw [hpa] at hf
      have hae : a = e := by simpa using hf
      subst hae
      rcases List.mem_cons.1 hx with h | h
      · exact Or.inl h
      · exact Or.inr (hs.1 x h)
    | false =>
      rw [hpa] at hf
      rcases List.mem_cons.1 hx with h | h
      · subst h
        rw [hpa] at hp
        cases hp
      · exact ih hs.2 hf x h hp

theorem scan_single_valued (qt : QtText) (l : QMap String) (st : SweepScan)
    (hl : ∀ e ∈ l, (parseSensitivityValues qt e.2).length ≤ 1) :
    (l.foldl (scanStep qt) st).sensitivityKey = st.sensitivityKey ∧
    (l.foldl (scanStep qt) st).sensitivityValues = st.sensitivityValues := by
  induction l generalizing st with
  | nil => exact ⟨rfl, rfl⟩
  | cons e t ih =>
    rw [List.foldl_cons]
    have hstep : (scanStep qt st e).sensitivityKey = st.sensitivityKey ∧
        (scanStep qt st e).sensitivityValues = st.sensitivityValues := by
      have hle := hl e (List.mem_cons_self _ _)
      unfold scanStep
      split
      · exact ⟨rfl, rfl⟩
      · rename_i v vs hp
        rw [hp] at hle
        rw [if_neg (fun hh => absurd hh.1 (by omega))]
        exact ⟨rfl, rfl⟩
    have := ih (scanStep qt st e) (fun x hx => hl x (List.mem_cons_of_mem _ hx))
    rw [this.1, this.2]
    exact hstep

/-- Claim C10.  For a parameter table whose parameter names are not empty, the raw-text
map is iterated in strictly ascending key order, and in `updateModelCurve` the designated
sweep parameter is the first entry in that order whose text parses to more than one value:
its key is the sweep key, it precedes every other entry with more than one parsed value,
and the retained sweep values are its full parsed list.  When no entry has more than one
parsed value the sweep key stays empty, no sweep value is retained and sensitivity mode
is off.  Only the sweep key is swept: in the map of every sweep value each key other than
the sweep key and the derived `LfD` keeps its base value, whatever the number of entries
with more than one parsed value. -/
theorem sweep_parameter_is_first_multivalued (qt : QtText) (c : FittingParameterChart)
    (hnames : ∀ e ∈ getRawParamTexts c, e.1 ≠ "") :
    let rawTexts := getRawParamTexts c
    let scan := scanRawTexts qt rawTexts
    let multi := fun (e : String × String) =>
      decide (1 < (parseSensitivityValues qt e.2).length)
    rawTexts.Pairwise (fun a b => a.1 < b.1) ∧
    (∀ e, rawTexts.find? multi = some e →
      scan.sensitivityKey = e.1 ∧
      scan.sensitivityValues = parseSensitivityValues qt e.2 ∧
      e ∈ rawTexts ∧ 1 < (parseSensitivityValues qt e.2).length ∧
      (∀ e2 ∈ rawTexts, 1 < (parseSensitivityValues qt e2.2).length →
        e2 = e ∨ e.1 < e2.1) ∧
      isSensitivityMode qt rawTexts = true) ∧
    (rawTexts.find? multi = none →
      scan.sensitivityKey = "" ∧ scan.sensitivityValues = [] ∧
      isSensitivityMode qt rawTexts = false) ∧
    ((∃ e ∈ rawTexts, 1 < (parseSensitivityValues qt e.2).length) →
      ∃ e, rawTexts.find? multi = some e) ∧
    ((∀ e ∈ rawTexts, (parseSensitivityValues qt e.2).length ≤ 1) →
      rawTexts.find? multi = none) ∧
    (∀ v k, k ≠ scan.sensitivityKey → k ≠ "LfD" →
      QMap.value (sweepParams (baseParamsOf qt rawTexts) scan.sensitivityKey v) k =
        QMap.value (baseParamsOf qt rawTexts) k) := by
  intro rawTexts scan multi
  have hsorted : rawTexts.Pairwise (fun a b => a.1 < b.1) := by
    have h := getRawParamTexts_sorted c
    unfold QMap.keys at h
    exact List.pairwise_map.1 h
  have hcongr : rawTexts.find? multi = rawTexts.find? (isSweepCandidate qt) := by
    apply find?_congr_on
    intro x hx
    simp only [multi, isSweepCandidate, hnames x hx, ne_eq, not_false_eq_true, decide_True,
      Bool.and_true]
  have hmain := scan_unlocked qt rawTexts
    { sensitivityKey := "", sensitivityValues := [], baseParams := [] } rfl
  have hmode := isSensitivityMode_eq_candidate qt rawTexts
  refine ⟨hsorted, ?_, ?_, ?_, ?_, ?_⟩
  · intro e hf
    have hf2 := hf
    rw [hcongr] at hf2
    rw [hf2] at hmain hmode
    have hp := List.find?_some hf
    have hmem := List.mem_of_find?_eq_some hf
    refine ⟨hmain.1, hmain.2, hmem, of_decide_eq_true hp, ?_, by rw [hmode]; rfl⟩
    intro e2 he2 hlen
    exact find?_first_of_pairwise _ multi rawTexts e hsorted hf e2 he2 (decide_eq_true hlen)
  · intro hf
    have hf2 := hf
    rw [hcongr] at hf2
    rw [hf2] at hmode
    have hall : ∀ e ∈ rawTexts, (parseSensitivityValues qt e.2).length ≤ 1 := by
      intro e he
      have := List.find?_eq_none.1 hf e he
      have h2 : ¬ 1 < (parseSensitivityValues qt e.2).length := by
        intro hh
        exact this (decide_eq_true hh)
      omega
    have hs := scan_single_valued qt rawTexts
      { sensitivityKey := "", sensitivityValues := [], baseParams := [] } hall
    exact ⟨hs.1, hs.2, by rw [hmode]; rfl⟩
  · rintro ⟨e, he, hlen⟩
    cases hf : rawTexts.find? multi with
    | some e2 => exact ⟨e2, rfl⟩
    | none =>
      exact absurd (decide_eq_true hlen) (List.find?_eq_none.1 hf e he)
  · intro hall
    rw [List.find?_eq_none]
    intro e he hp
    have := hall e he
    have h2 : 1 < (parseSensitivityValues qt e.2).length := of_decide_eq_true hp
    omega
  · intro v k hk hd
    exact sweepParams_value_other _ _ _ k hk hd

/-- Claim C10 on a worked table: the rows `k` with the text `3,4` and `S` with the text
`1,2,4` give the raw-text map with `S` before `k`; both texts have more than one value,
the sweep key is `S` and the sweep values are `1, 2, 4`. -/
theorem sweep_parameter_is_first_multivalued_witness :
    (∀ e ∈ getRawParamTexts exampleChartTwoSweeps, e.1 ≠ "") ∧
    getRawParamTexts exampleChartTwoSweeps = [("S", "1,2,4"), ("k", "3,4")] ∧
    parseSensitivityValues exampleQt "3,4" = [3, 4] ∧
    (scanRawTexts exampleQt (getRawParamTexts exampleChartTwoSweeps)).sensitivityKey = "S" ∧
    (scanRawTexts exampleQt (getRawParamTexts exampleChartTwoSweeps)).sensitivityValues
      = [1, 2, 4] ∧
    (∀ e2 ∈ getRawParamTexts exampleChartTwoSweeps,
      1 < (parseSensitivityValues exampleQt e2.2).length →
      e2 = ("S", "1,2,4") ∨ "S" < e2.1) ∧
    isSensitivityMode exampleQt (getRawParamTexts exampleChartTwoSweeps) = true := by
  have hn : ∀ e ∈ getRawParamTexts exampleChartTwoSweeps, e.1 ≠ "" := by decide!
  have h := (sweep_parameter_is_first_multivalued exampleQt exampleChartTwoSweeps hn).2.1
    ("S", "1,2,4") (by decide!)
  exact ⟨hn, by decide!, by decide!, h.1, by rw [h.2.1]; decide!, h.2.2.2.2.1, h.2.2.2.2.2⟩

/-! ## Fit button after a curve update -/

theorem standardCurve_button (num : Numerics) (w : FittingWidget) (mm : ModelManager)
    (baseParams : QMap ℚ) (targetT : List ℚ) (out : FittingWidget × List Event)
    (ho : standardCurve num w mm baseParams targetT = some out) :
    out.1.btnRunFitEnabled = w.btnRunFitEnabled := by
  unfold standardCurve at ho
  simp only at ho
  split at ho
  · cases ho
  · split at ho
    · cases ho; rfl
    · cases ho; rfl

theorem standardCurve_defined (num : Numerics) (w : FittingWidget) (mm : ModelManager)
    (baseParams : QMap ℚ) (targetT : List ℚ)
    (hr : plotReadsInRange
      (mm.calculateTheoreticalCurve w.highPrecision w.currentModelType baseParams
        (some targetT)).1
      (mm.calculateTheoreticalCurve w.highPrecision w.currentModelType baseParams
        (some targetT)).2.1 = true) :
    ∃ out, standardCurve num w mm baseParams targetT = some out := by
  unfold standardCurve
  simp only
  rw [plotCurves_model _ _ _ _ hr]
  simp only
  split
  · exact ⟨_, rfl⟩
  · exact ⟨_, rfl⟩

theorem updateModelCurve_button (num : Numerics) (qt : QtText) (fmt : NumberText)
    (w : FittingWidget) (mm : ModelManager) (hm : w.modelManager = some mm)
    (out : FittingWidget × List Event) (ho : updateModelCurve num qt fmt w = some out) :
    out.1.btnRunFitEnabled = !isSensitivityMode qt (getRawParamTexts w.paramChart) := by
  unfold updateModelCurve at ho
  rw [hm] at ho
  simp only at ho
  unfold isSensitivityMode
  split at ho
  · split at ho
    · cases ho
    · cases ho; rfl
  · exact standardCurve_button _ _ _ _ _ _ ho

theorem updateModelCurve_defined (num : Numerics) (qt : QtText) (fmt : NumberText)
    (w : FittingWidget) (mm : ModelManager) (hm : w.modelManager = some mm)
    (hr : ∀ m, plotReadsInRange
      (mm.calculateTheoreticalCurve w.highPrecision w.currentModelType m
        (some (if w.obsTime.isEmpty then defaultTargetT num else w.obsTime))).1
      (mm.calculateTheoreticalCurve w.highPrecision w.currentModelType m
        (some (if w.obsTime.isEmpty then defaultTargetT num else w.obsTime))).2.1 = true) :
    ∃ out, updateModelCurve num qt fmt w = some out := by
  cases hmode : isSensitivityMode qt (getRawParamTexts w.paramChart) with
  | true =>
    have hs := sweepLoop_eq fmt mm w.highPrecision w.currentModelType
      (baseParamsOf qt (getRawParamTexts w.paramChart))
      (scanRawTexts qt (getRawParamTexts w.paramChart)).sensitivityKey
      (if w.obsTime.isEmpty then defaultTargetT num else w.obsTime) 0
      (scanRawTexts qt (getRawParamTexts w.paramChart)).sensitivityValues (w.plot.take 2)
      (fun v _ => hr _)
    obtain ⟨out, ho, _⟩ := updateModelCurve_sweep num qt fmt w mm hm hmode _ hs
    exact ⟨out, ho⟩
  | false =>
    have hd : decide ((scanRawTexts qt (getRawParamTexts w.paramChart)).sensitivityKey ≠ "")
        = false := hmode
    unfold updateModelCurve
    rw [hm]
    simp only [hd, Bool.false_eq_true, if_false]
    exact standardCurve_defined _ _ _ _ _ (hr _)

/-- Claim C23.  With the model manager in place and parameter names that are not empty,
after every call of `updateModelCurve` the fit button is enabled if and only if no text
of the parameter table parses to more than one value, that is, if and only if the call
was not in sensitivity mode: a text with three parsed values, such as `10,20,30`, on any
parameter leaves the button disabled, and texts that all parse to at most one value leave
it enabled.  The call completes whenever every curve the forward model returns has a
pressure value at each index whose time is above `1e-8`. -/
theorem fit_button_after_curve_update (num : Numerics) (qt : QtText) (fmt : NumberText)
    (w : FittingWidget) (mm : ModelManager)
    (hm : w.modelManager = some mm)
    (hnames : ∀ e ∈ getRawParamTexts w.paramChart, e.1 ≠ "") :
    let rawTexts := getRawParamTexts w.paramChart
    let targetT := if w.obsTime.isEmpty then defaultTargetT num else w.obsTime
    let curve := fun m => mm.calculateTheoreticalCurve w.highPrecision w.currentModelType m
      (some targetT)
    (∀ out, updateModelCurve num qt fmt w = some out →
      (out.1.btnRunFitEnabled = true ↔
        ∀ e ∈ rawTexts, (parseSensitivityValues qt e.2).length ≤ 1) ∧
      (out.1.btnRunFitEnabled = true ↔ isSensitivityMode qt rawTexts = false) ∧
      (∀ e ∈ rawTexts, (parseSensitivityValues qt e.2).length = 3 →
        out.1.btnRunFitEnabled = false) ∧
      ((∀ e ∈ rawTexts, (parseSensitivityValues qt e.2).length ≤ 1) →
        out.1.btnRunFitEnabled = true)) ∧
    ((∀ m r, r < (curve m).1.length → (curve m).1.getD r 0 > 1e-8 →
        r < (curve m).2.1.length) →
      ∃ out, updateModelCurve num qt fmt w = some out) := by
  intro rawTexts targetT curve
  constructor
  · intro out ho
    have hb := updateModelCurve_button num qt fmt w mm hm out ho
    have hcand : ∀ x ∈ rawTexts, isSweepCandidate qt x =
        decide (1 < (parseSensitivityValues qt x.2).length) := by
      intro x hx
      simp only [isSweepCandidate, hnames x hx, ne_eq, not_false_eq_true, decide_True,
        Bool.and_true]
    have hiff : out.1.btnRunFitEnabled = true ↔
        ∀ e ∈ rawTexts, (parseSensitivityValues qt e.2).length ≤ 1 := by
      rw [hb, isSensitivityMode_eq_candidate]
      cases hf : (getRawParamTexts w.paramChart).find? (isSweepCandidate qt) with
      | none =>
        simp only [Option.isSome_none, Bool.not_false, true_iff]
        intro e he
        have h1 := List.find?_eq_none.mp hf e he
        rw [hcand e he] at h1
        have h2 : ¬ 1 < (parseSensitivityValues qt e.2).length :=
          fun hh => h1 (decide_eq_true hh)
        omega
      | some e =>
        simp only [Option.isSome_some, Bool.not_true, Bool.false_eq_true, false_iff]
        intro hall
        have h1 := List.find?_some hf
        have hmem := List.mem_of_find?_eq_some hf
        rw [hcand e hmem] at h1
        have h2 : 1 < (parseSensitivityValues qt e.2).length := of_decide_eq_true h1
        have := hall e hmem
        omega
    refine ⟨hiff, ?_, ?_, hiff.2⟩
    · rw [hb]
      cases isSensitivityMode qt rawTexts <;> simp
    · intro e he h3
      cases hv : out.1.btnRunFitEnabled with
      | false => rfl
      | true =>
        have := hiff.mp hv e he
        omega
  · intro hr
    exact updateModelCurve_defined num qt fmt w mm hm
      (fun m => (plotReadsInRange_iff _ _).2 (hr m))

/-- Claim C23 on the worked inputs: in scenario D the text `1,2,4` on `S` has three
parsed values and the fit button is disabled after the update; with the text `1` on `S`
and the text `3` on `k` the button, disabled before, is enabled after the update. -/
theorem fit_button_after_curve_update_witness :
    exampleWidgetSweep.modelManager = some exampleModel ∧
    (∀ e ∈ getRawParamTexts exampleWidgetSweep.paramChart, e.1 ≠ "") ∧
    ("S", "1,2,4") ∈ getRawParamTexts exampleWidgetSweep.paramChart ∧
    (parseSensitivityValues exampleQt "1,2,4").length = 3 ∧
    exampleWidgetSweep.btnRunFitEnabled = true ∧
    (∃ out, updateModelCurve exampleNumerics exampleQt exampleFmt exampleWidgetSweep
        = some out ∧ out.1.btnRunFitEnabled = false) ∧
    getRawParamTexts exampleWidgetSingle.paramChart = [("S", "1"), ("k", "3")] ∧
    exampleWidgetSingle.btnRunFitEnabled = false ∧
    (∃ out, updateModelCurve exampleNumerics exampleQt exampleFmt exampleWidgetSingle
        = some out ∧ out.1.btnRunFitEnabled = true) := by
  have hn : ∀ e ∈ getRawParamTexts exampleWidgetSweep.paramChart, e.1 ≠ "" := by decide!
  have hn2 : ∀ e ∈ getRawParamTexts exampleWidgetSingle.paramChart, e.1 ≠ "" := by decide!
  have h := fit_button_after_curve_update exampleNumerics exampleQt exampleFmt
    exampleWidgetSweep exampleModel rfl hn
  have h2 := fit_button_after_curve_update exampleNumerics exampleQt exampleFmt
    exampleWidgetSingle exampleModel rfl hn2
  have hmem : ("S", "1,2,4") ∈ getRawParamTexts exampleWidgetSweep.paramChart := by decide!
  have h3 : (parseSensitivityValues exampleQt "1,2,4").length = 3 := by decide!
  obtain ⟨out, ho⟩ := h.2 (fun _ _ hr _ => hr)
  obtain ⟨out2, ho2⟩ := h2.2 (fun _ _ hr _ => hr)
  exact ⟨rfl, hn, hmem, h3, rfl, ⟨out, ho, (h.1 out ho).2.2.1 ("S", "1,2,4") hmem h3⟩,
    by decide!, rfl, ⟨out2, ho2, (h2.1 out2 ho2).2.2.2 (by decide!)⟩⟩

/-! ## Final snapshot -/

theorem getLast?_getD_append {α : Type} (x : α) (a b : List α) :
    (a ++ b).getLast?.getD x = b.getLast?.getD (a.getLast?.getD x) := by
  rw [List.getLast?_append]
  cases b.getLast? <;> simp

theorem trialLoop_current (num : Numerics) (w : FittingWidget) (mm : ModelManager)
    (modelType : ModelType) (params : List FitParameter) (weight : ℚ) (fitIndices : List Nat)
    (H : List (List ℚ)) (g : List ℚ) (nRes iter n tryIter : Nat) (st : LMState) :
    currentAfter st (acceptedSteps (trialLoop num w mm modelType params weight fitIndices H g
      nRes iter n tryIter st).1) =
      ((trialLoop num w mm modelType params weight fitIndices H g nRes iter n tryIter
          st).2.1.currentSSE,
       (trialLoop num w mm modelType params weight fitIndices H g nRes iter n tryIter
          st).2.1.currentParamMap,
       (trialLoop num w mm modelType params weight fitIndices H g nRes iter n tryIter
          st).2.1.residuals) := by
  induction n generalizing tryIter st with
  | zero => rfl
  | succ n ih =>
    have hres := filterMap_modelCalls Event.accepted?
      (calculateResiduals num w (trialMapOf num params fitIndices H g st) modelType weight).2
      (fun _ _ _ => rfl) (calculateResiduals_events _ _ _ _ _)
    by_cases h : calculateSumSquaredError (calculateResiduals num w
        (trialMapOf num params fitIndices H g st) modelType weight).1 < st.currentSSE
    · rw [trialLoop_accept _ _ _ _ _ _ _ _ _ _ _ _ _ _ h]
      simp [currentAfter, acceptedSteps, hres, Event.accepted?]
    · rw [trialLoop_reject _ _ _ _ _ _ _ _ _ _ _ _ _ _ h]
      have := ih (tryIter + 1) { st with lambda := st.lambda * 10 }
      simp only [currentAfter, acceptedSteps] at this ⊢
      simp only [List.filterMap_append, hres, List.nil_append, List.filterMap_cons,
        Event.accepted?]
      exact this

theorem outerLoop_current (num : Numerics) (w : FittingWidget) (mm : ModelManager)
    (stop : Nat → Bool) (modelType : ModelType) (params : List FitParameter) (weight : ℚ)
    (fitIndices : List Nat) (maxIter n iter : Nat) (st : LMState) :
    currentAfter st (acceptedSteps (outerLoop num w mm stop modelType params weight
      fitIndices maxIter n iter st).1) =
      ((outerLoop num w mm stop modelType params weight fitIndices maxIter n iter
          st).2.currentSSE,
       (outerLoop num w mm stop modelType params weight fitIndices maxIter n iter
          st).2.currentParamMap,
       (outerLoop num w mm stop modelType params weight fitIndices maxIter n iter
          st).2.residuals) := by
  induction n generalizing iter st with
  | zero => rfl
  | succ n ih =>
    rcases outerLoop_cases num w mm stop modelType params weight fitIndices maxIter n iter st
      with h | ⟨jev, H, g, nRes, hjev, h | h⟩
    · rw [h]; rfl
    · rw [h]
      have hj := filterMap_modelCalls Event.accepted? jev (fun _ _ _ => rfl) hjev
      have ht := trialLoop_current num w mm modelType params weight fitIndices H g nRes iter
        5 0 st
      simp only [currentAfter, acceptedSteps] at ht ⊢
      simp only [List.filterMap_cons, Event.accepted?, List.filterMap_append, hj,
        List.nil_append]
      exact ht
    · rw [h]
      have hj := filterMap_modelCalls Event.accepted? jev (fun _ _ _ => rfl) hjev
      have ht := trialLoop_current num w mm modelType params weight fitIndices H g nRes iter
        5 0 st
      have hi := ih (iter + 1)
        (trialLoop num w mm modelType params weight fitIndices H g nRes iter 5 0 st).2.1
      simp only [currentAfter, acceptedSteps] at ht hi ⊢
      simp only [List.filterMap_cons, Event.accepted?, List.filterMap_append, hj,
        List.nil_append]
      rw [getLast?_getD_append, ht]
      exact hi

theorem updateDeps_derived (m : QMap ℚ) (hL : QMap.contains m "L" = true)
    (hLf : QMap.contains m "Lf" = true) (hpos : QMap.value m "L" > 1e-9) :
    QMap.value (updateDeps m) "LfD" = QMap.value m "Lf" / QMap.value m "L" := by
  unfold updateDeps
  simp only [hL, hLf, Bool.and_self, decide_eq_true hpos, if_true]
  exact QMap.value_insert_self _ _ _

theorem updateDeps_kept (m : QMap ℚ)
    (h : ¬ (QMap.contains m "L" = true ∧ QMap.contains m "Lf" = true ∧
      QMap.value m "L" > 1e-9)) : updateDeps m = m := by
  unfold updateDeps
  split
  · next hc =>
    simp only [Bool.and_eq_true, decide_eq_true_eq] at hc
    exact absurd ⟨hc.1.1, hc.1.2, hc.2⟩ h
  · rfl

theorem run_acceptedSteps (num : Numerics) (w : FittingWidget) (stop : Nat → Bool)
    (modelType : ModelType) (params : List FitParameter) (weight : ℚ) (mm : ModelManager)
    (h : fitIndicesOf params ≠ []) (hm : w.modelManager = some mm) :
    acceptedSteps (runLevenbergMarquardtOptimization num w stop modelType params weight) =
      acceptedSteps (fitLoop num w mm stop modelType params weight).1 := by
  rw [run_main _ _ _ _ _ _ mm h hm]
  have hres := filterMap_modelCalls Event.accepted?
    (calculateResiduals num (lowPrecision w) (initialParamMap params) modelType weight).2
    (fun _ _ _ => rfl) (calculateResiduals_events _ _ _ _ _)
  simp only [acceptedSteps] at hres ⊢
  simp [List.filterMap_append, hres, Event.accepted?]

theorem run_last_snapshot (num : Numerics) (w : FittingWidget) (stop : Nat → Bool)
    (modelType : ModelType) (params : List FitParameter) (weight : ℚ) (mm : ModelManager)
    (h : fitIndicesOf params ≠ []) (hm : w.modelManager = some mm) :
    (snapshots (runLevenbergMarquardtOptimization num w stop modelType params
      weight)).getLast? =
      some ((fitLoop num w mm stop modelType params weight).2.currentSSE /
          (fitLoop num w mm stop modelType params weight).2.residuals.length,
        updateDeps (fitLoop num w mm stop modelType params weight).2.currentParamMap) := by
  rw [run_main _ _ _ _ _ _ mm h hm]
  have hres := filterMap_modelCalls Event.snapshot?
    (calculateResiduals num (lowPrecision w) (initialParamMap params) modelType weight).2
    (fun _ _ _ => rfl) (calculateResiduals_events _ _ _ _ _)
  simp only [snapshots, List.filterMap_cons, List.filterMap_append, hres, Event.snapshot?,
    List.filterMap_nil, List.nil_append, List.append_nil, List.cons_append]
  rw [← List.cons_append, List.getLast?_append]
  rfl

/-- Claim C22.  With a model manager and at least one fit-enabled parameter, the last
snapshot of `runLevenbergMarquardtOptimization` carries the parameter map of the last
accepted step (the initial map when no step was accepted) after the derived parameter is
recomputed (`LfD = Lf / L` when `L` and `Lf` are present and `L > 1e-9`, every other key
as it was, and the map unchanged otherwise), and its normalized error is the SSE of the
last accepted step (the initial SSE when there is none) divided by the length of the
residual vector of that step. -/
theorem last_snapshot_of_last_accepted_step (num : Numerics) (w : FittingWidget)
    (stop : Nat → Bool) (modelType : ModelType) (params : List FitParameter) (weight : ℚ)
    (mm : ModelManager) (hm : w.modelManager = some mm)
    (hfit : ∃ p ∈ params, p.isFit = true) :
    let run := runLevenbergMarquardtOptimization num w stop modelType params weight
    let st0 := initialState num (lowPrecision w) modelType params weight
    let cur := currentAfter st0 (acceptedSteps run)
    st0.currentParamMap = initialParamMap params ∧
    st0.currentSSE = initialSSE num w modelType params weight ∧
    (acceptedSteps run = [] → cur = (st0.currentSSE, st0.currentParamMap, st0.residuals)) ∧
    (∀ step, (acceptedSteps run).getLast? = some step → cur = step) ∧
    (snapshots run).getLast? = some (cur.1 / cur.2.2.length, updateDeps cur.2.1) ∧
    (QMap.contains cur.2.1 "L" = true → QMap.contains cur.2.1 "Lf" = true →
      QMap.value cur.2.1 "L" > 1e-9 →
      QMap.value (updateDeps cur.2.1) "LfD" =
        QMap.value cur.2.1 "Lf" / QMap.value cur.2.1 "L") ∧
    (∀ k, k ≠ "LfD" → QMap.value (updateDeps cur.2.1) k = QMap.value cur.2.1 k) ∧
    (¬ (QMap.contains cur.2.1 "L" = true ∧ QMap.contains cur.2.1 "Lf" = true ∧
        QMap.value cur.2.1 "L" > 1e-9) → updateDeps cur.2.1 = cur.2.1) := by
  intro run st0 cur
  have h := fitIndicesOf_ne_nil params hfit
  have hcur : cur =
      ((fitLoop num w mm stop modelType params weight).2.currentSSE,
       (fitLoop num w mm stop modelType params weight).2.currentParamMap,
       (fitLoop num w mm stop modelType params weight).2.residuals) := by
    show currentAfter st0 (acceptedSteps run) = _
    rw [show acceptedSteps run = _ from run_acceptedSteps num w stop modelType params weight
      mm h hm]
    exact outerLoop_current num (lowPrecision w) mm stop modelType params weight
      (fitIndicesOf params) 50 50 0 st0
  refine ⟨rfl, rfl, ?_, ?_, ?_, updateDeps_derived _, fun k hk => updateDeps_value_ne _ k hk,
    updateDeps_kept _⟩
  · intro hnil
    show currentAfter st0 (acceptedSteps run) = _
    rw [hnil]
    rfl
  · intro step hstep
    show currentAfter st0 (acceptedSteps run) = _
    unfold currentAfter
    rw [hstep]
    rfl
  · rw [hcur]
    exact run_last_snapshot num w stop modelType params weight mm h hm

/-- Claim C22 on the worked run: its only accepted step has the SSE 0 and one residual, and
the last snapshot carries the accepted map and the normalized error `0 / 1`. -/
theorem last_snapshot_of_last_accepted_step_witness :
    exampleWidget.modelManager = some exampleModel ∧
    (∃ p ∈ exampleParams, p.isFit = true) ∧
    acceptedSteps exampleRun = [(0, exampleAcceptedMap, [0])] ∧
    (snapshots exampleRun).getLast? = some (0 / 1, updateDeps exampleAcceptedMap) := by
  have h := last_snapshot_of_last_accepted_step exampleNumerics exampleWidget
    (fun _ => false) 0 exampleParams 1 exampleModel rfl (by decide!)
  have hacc : acceptedSteps exampleRun = [(0, exampleAcceptedMap, [0])] := by decide!
  refine ⟨rfl, by decide!, hacc, ?_⟩
  have h5 := h.2.2.2.2.1
  have hc := h.2.2.2.1 (0, exampleAcceptedMap, [0]) (by
    show (acceptedSteps exampleRun).getLast? = _
    rw [hacc]
    rfl)
  rw [hc] at h5
  simpa using h5

/-! ## Frame of a run -/

theorem QMap.contains_insert_iff {β : Type} (m : QMap β) (k k2 : String) (v : β) :
    QMap.contains (QMap.insert m k v) k2 = true ↔ k2 = k ∨ QMap.contains m k2 = true := by
  by_cases h : k2 = k
  · subst h
    simp [QMap.contains_insert_self]
  · rw [QMap.contains_insert_ne m k k2 v h]
    simp [h]

theorem foldl_insertOn_contains {α : Type} (name : α → String) (val : α → ℚ) (l : List α)
    (m0 : QMap ℚ) (k : String) :
    QMap.contains (l.foldl (fun m x => QMap.insert m (name x) (val x)) m0) k = true ↔
      QMap.contains m0 k = true ∨ ∃ x ∈ l, name x = k := by
  induction l generalizing m0 with
  | nil => simp
  | cons a t ih =>
    rw [List.foldl_cons, ih, QMap.contains_insert_iff]
    constructor
    · rintro ((h | h) | ⟨x, hx, hk⟩)
      · exact Or.inr ⟨a, List.mem_cons_self _ _, h.symm⟩
      · exact Or.inl h
      · exact Or.inr ⟨x, List.mem_cons_of_mem _ hx, hk⟩
    · rintro (h | ⟨x, hx, hk⟩)
      · exact Or.inl (Or.inr h)
      · rcases List.mem_cons.mp hx with e | e
        · subst e
          exact Or.inl (Or.inl hk.symm)
        · exact Or.inr ⟨x, e, hk⟩

theorem updateDeps_contains (m : QMap ℚ) (k : String) :
    QMap.contains (updateDeps m) k = true ↔
      QMap.contains m k = true ∨
        (k = "LfD" ∧ QMap.contains m "L" = true ∧ QMap.contains m "Lf" = true ∧
          QMap.value m "L" > 1e-9) := by
  unfold updateDeps
  split
  · next hc =>
    simp only [Bool.and_eq_true, decide_eq_true_eq] at hc
    rw [QMap.contains_insert_iff]
    constructor
    · rintro (h | h)
      · exact Or.inr ⟨h, hc.1.1, hc.1.2, hc.2⟩
      · exact Or.inl h
    · rintro (h | ⟨h, _, _, _⟩)
      · exact Or.inr h
      · exact Or.inl h
  · next hc =>
    simp only [Bool.and_eq_true, decide_eq_true_eq] at hc
    constructor
    · intro h
      exact Or.inl h
    · rintro (h | ⟨_, hL, hLf, hpos⟩)
      · exact h
      · exact absurd ⟨⟨hL, hLf⟩, hpos⟩ hc

theorem frame_updateDeps (params : List FitParameter) (m : QMap ℚ)
    (h : FrameOk params m) : FrameOk params (updateDeps m) := by
  obtain ⟨h1, h2, h3, h4⟩ := h
  have hLne : ("L" : String) ≠ "LfD" := by decide
  have hLfne : ("Lf" : String) ≠ "LfD" := by decide
  refine ⟨?_, ?_, ?_, ?_⟩
  · intro p hp hfit hname
    rw [updateDeps_value_ne _ _ hname]
    exact h1 p hp hfit hname
  · intro p hp
    exact (updateDeps_contains m p.name).mpr (Or.inl (h2 p hp))
  · intro k hk
    rcases (updateDeps_contains m k).mp hk with h | ⟨h, _, _, _⟩
    · exact h3 k h
    · exact Or.inl h
  · intro hk
    rcases (updateDeps_contains m "LfD").mp hk with h | ⟨_, hL, hLf, _⟩
    · exact h4 h
    · right
      constructor
      · rcases h3 "L" hL with e | e
        · exact absurd e hLne
        · exact e
      · rcases h3 "Lf" hLf with e | e
        · exact absurd e hLfne
        · exact e

theorem frame_applyDelta (num : Numerics) (params : List FitParameter) (cur : QMap ℚ)
    (delta : List ℚ) (hnames : (params.map (fun p => p.name)).Nodup)
    (h : FrameOk params cur) :
    FrameOk params (applyDelta num params (fitIndicesOf params) cur delta) := by
  obtain ⟨h1, h2, h3, h4⟩ := h
  have hfitname : ∀ i ∈ List.range (fitIndicesOf params).length,
      (params.getD ((fitIndicesOf params).getD i 0) default) ∈ params ∧
      (params.getD ((fitIndicesOf params).getD i 0) default).isFit = true := by
    intro i hi
    rw [List.mem_range] at hi
    have hmem : (fitIndicesOf params).getD i 0 ∈ fitIndicesOf params := by
      rw [List.getD_eq_getElem _ 0 hi]; exact List.getElem_mem hi
    refine ⟨getD_mem_of_lt params _ (fitIndicesOf_lt params _ hmem), ?_⟩
    unfold fitIndicesOf at hmem
    rw [List.mem_filter] at hmem
    exact hmem.2
  have hcont : ∀ k, QMap.contains (applyDelta num params (fitIndicesOf params) cur delta) k
      = true ↔ QMap.contains cur k = true ∨ ∃ i ∈ List.range (fitIndicesOf params).length,
        (params.getD ((fitIndicesOf params).getD i 0) default).name = k := by
    intro k
    unfold applyDelta
    exact foldl_insertOn_contains
      (fun i => (params.getD ((fitIndicesOf params).getD i 0) default).name) _ _ cur k
  have hin : ∀ k, QMap.contains (applyDelta num params (fitIndicesOf params) cur delta) k
      = true → QMap.contains cur k = true := by
    intro k hk
    rcases (hcont k).mp hk with h | ⟨i, hi, hik⟩
    · exact h
    · rw [← hik]
      exact h2 _ (hfitname i hi).1
  refine ⟨?_, ?_, ?_, ?_⟩
  · intro p hp hfit hname
    rw [← h1 p hp hfit hname]
    unfold applyDelta
    apply foldl_insertOn_other
      (fun i => (params.getD ((fitIndicesOf params).getD i 0) default).name)
    intro i hi hik
    obtain ⟨hmem, hisfit⟩ := hfitname i hi
    obtain ⟨a, ha, hpa⟩ := List.getElem_of_mem hmem
    obtain ⟨b, hb, hpb⟩ := List.getElem_of_mem hp
    have hab : a = b := by
      apply names_injective params hnames a b ha hb
      rw [List.getD_eq_getElem params default ha, List.getD_eq_getElem params default hb,
        hpa, hpb]
      exact hik
    subst hab
    rw [hpa] at hpb
    rw [hpb] at hisfit
    rw [hisfit] at hfit
    exact absurd hfit (by decide)
  · intro p hp
    exact (hcont p.name).mpr (Or.inl (h2 p hp))
  · intro k hk
    exact h3 k (hin k hk)
  · intro hk
    exact h4 (hin _ hk)

theorem frame_initial (params : List FitParameter)
    (hnames : (params.map (fun p => p.name)).Nodup) :
    FrameOk params (initialParamMap params) := by
  unfold initialParamMap
  apply frame_updateDeps
  have hcont := foldl_insertOn_contains (fun p : FitParameter => p.name)
    (fun p => p.value) params []
  refine ⟨?_, ?_, ?_, ?_⟩
  · intro p hp _ _
    exact foldl_insertOn_hit (fun p : FitParameter => p.name) (fun p => p.value) params []
      p hp hnames
  · intro p hp
    exact (hcont p.name).mpr (Or.inr ⟨p, hp, rfl⟩)
  · intro k hk
    rcases (hcont k).mp hk with h | ⟨p, hp, hpk⟩
    · simp [QMap.contains] at h
    · exact Or.inr (List.mem_map.mpr ⟨p, hp, hpk⟩)
  · intro hk
    rcases (hcont "LfD").mp hk with h | ⟨p, hp, hpk⟩
    · simp [QMap.contains] at h
    · exact Or.inl (List.mem_map.mpr ⟨p, hp, hpk⟩)

theorem trialLoop_invariant (P : QMap ℚ → Prop) (num : Numerics) (w : FittingWidget)
    (mm : ModelManager) (modelType : ModelType) (params : List FitParameter) (weight : ℚ)
    (fitIndices : List Nat) (H : List (List ℚ)) (g : List ℚ) (nRes iter n tryIter : Nat)
    (st : LMState)
    (hstep : ∀ cur delta, P cur → P (updateDeps (applyDelta num params fitIndices cur delta)))
    (hst : P st.currentParamMap) :
    (∀ s ∈ snapshots (trialLoop num w mm modelType params weight fitIndices H g nRes iter n
      tryIter st).1, P s.2) ∧
    P (trialLoop num w mm modelType params weight fitIndices H g nRes iter n tryIter
      st).2.1.currentParamMap := by
  induction n generalizing tryIter st with
  | zero => exact ⟨by simp [trialLoop, snapshots], hst⟩
  | succ n ih =>
    have hres := filterMap_modelCalls Event.snapshot?
      (calculateResiduals num w (trialMapOf num params fitIndices H g st) modelType weight).2
      (fun _ _ _ => rfl) (calculateResiduals_events _ _ _ _ _)
    have htrial : P (trialMapOf num params fitIndices H g st) := hstep _ _ hst
    by_cases h : calculateSumSquaredError (calculateResiduals num w
        (trialMapOf num params fitIndices H g st) modelType weight).1 < st.currentSSE
    · rw [trialLoop_accept _ _ _ _ _ _ _ _ _ _ _ _ _ _ h]
      refine ⟨?_, htrial⟩
      intro s hs
      simp only [snapshots, List.filterMap_append, hres, List.nil_append,
        List.filterMap_cons, Event.snapshot?, List.filterMap_nil, List.mem_singleton] at hs
      rw [hs]
      exact htrial
    · rw [trialLoop_reject _ _ _ _ _ _ _ _ _ _ _ _ _ _ h]
      have := ih (tryIter + 1) { st with lambda := st.lambda * 10 } hst
      refine ⟨?_, this.2⟩
      intro s hs
      simp only [snapshots, List.filterMap_append, hres, List.nil_append,
        List.filterMap_cons, Event.snapshot?] at hs
      exact this.1 s hs

theorem outerLoop_invariant (P : QMap ℚ → Prop) (num : Numerics) (w : FittingWidget)
    (mm : ModelManager) (stop : Nat → Bool) (modelType : ModelType)
    (params : List FitParameter) (weight : ℚ) (fitIndices : List Nat) (maxIter n iter : Nat)
    (st : LMState)
    (hstep : ∀ cur delta, P cur → P (updateDeps (applyDelta num params fitIndices cur delta)))
    (hst : P st.currentParamMap) :
    (∀ s ∈ snapshots (outerLoop num w mm stop modelType params weight fitIndices maxIter n
      iter st).1, P s.2) ∧
    P (outerLoop num w mm stop modelType params weight fitIndices maxIter n iter
      st).2.currentParamMap := by
  induction n generalizing iter st with
  | zero => exact ⟨by simp [outerLoop, snapshots], hst⟩
  | succ n ih =>
    rcases outerLoop_cases num w mm stop modelType params weight fitIndices maxIter n iter st
      with h | ⟨jev, H, g, nRes, hjev, h | h⟩
    · rw [h]
      exact ⟨by simp [snapshots], hst⟩
    · rw [h]
      have hj := filterMap_modelCalls Event.snapshot? jev (fun _ _ _ => rfl) hjev
      have ht := trialLoop_invariant P num w mm modelType params weight fitIndices H g nRes
        iter 5 0 st hstep hst
      refine ⟨?_, ht.2⟩
      intro s hs
      simp only [snapshots, List.filterMap_cons, Event.snapshot?, List.filterMap_append, hj,
        List.nil_append] at hs
      exact ht.1 s hs
    · rw [h]
      have hj := filterMap_modelCalls Event.snapshot? jev (fun _ _ _ => rfl) hjev
      have ht := trialLoop_invariant P num w mm modelType params weight fitIndices H g nRes
        iter 5 0 st hstep hst
      have hi := ih (iter + 1) _ ht.2
      refine ⟨?_, hi.2⟩
      intro s hs
      simp only [snapshots, List.filterMap_cons, Event.snapshot?, List.filterMap_append, hj,
        List.nil_append, List.mem_append] at hs
      rcases hs with hs | hs
      · exact ht.1 s hs
      · exact hi.1 s hs

theorem run_invariant (P : QMap ℚ → Prop) (num : Numerics) (w : FittingWidget)
    (stop : Nat → Bool) (modelType : ModelType) (params : List FitParameter) (weight : ℚ)
    (hinit : P (initialParamMap params))
    (hdeps : ∀ m, P m → P (updateDeps m))
    (hstep : ∀ cur delta, P cur →
      P (updateDeps (applyDelta num params (fitIndicesOf params) cur delta))) :
    ∀ s ∈ snapshots (runLevenbergMarquardtOptimization num w stop modelType params weight),
      P s.2 := by
  by_cases h : fitIndicesOf params = []
  · rw [run_noFit _ _ _ _ _ _ h]
    cases w.modelManager <;> simp [snapshots, Event.snapshot?]
  · cases hm : w.modelManager with
    | none =>
      rw [run_noManager _ _ _ _ _ _ h hm]
      simp [snapshots, Event.snapshot?]
    | some mm =>
      rw [run_main _ _ _ _ _ _ mm h hm]
      have hres := filterMap_modelCalls Event.snapshot?
        (calculateResiduals num (lowPrecision w) (initialParamMap params) modelType
          weight).2 (fun _ _ _ => rfl) (calculateResiduals_events _ _ _ _ _)
      have hloop := outerLoop_invariant P num (lowPrecision w) mm stop modelType params
        weight (fitIndicesOf params) 50 50 0
        (initialState num (lowPrecision w) modelType params weight) hstep hinit
      intro s hs
      simp only [snapshots, List.filterMap_cons, List.filterMap_append, hres,
        Event.snapshot?, List.filterMap_nil, List.nil_append, List.append_nil,
        List.cons_append, List.mem_cons, List.mem_append, List.mem_singleton,
        List.not_mem_nil, or_false] at hs
      rcases hs with hs | hs | hs
      · rw [hs]; exact hinit
      · exact hloop.1 s hs
      · rw [hs]; exact hdeps _ hloop.2

/-- Claim C27.  For a parameter list with unique names, in every snapshot of
`runLevenbergMarquardtOptimization` every parameter that is not fit-enabled and is not
`LfD` has exactly the value of the input list, every name of the input list is a key of
the snapshot map, every key is a name of the input list or `LfD`, and `LfD` is a key only
when it is a name of the list or is derived from `L` and `Lf`, both names of the list. -/
theorem snapshots_change_active_parameters_only (num : Numerics) (w : FittingWidget)
    (stop : Nat → Bool) (modelType : ModelType) (params : List FitParameter) (weight : ℚ)
    (hnames : (params.map (fun p => p.name)).Nodup) :
    ∀ s ∈ snapshots (runLevenbergMarquardtOptimization num w stop modelType params weight),
      (∀ p ∈ params, p.isFit = false → p.name ≠ "LfD" → QMap.value s.2 p.name = p.value) ∧
      (∀ p ∈ params, QMap.contains s.2 p.name = true) ∧
      (∀ k, QMap.contains s.2 k = true → k = "LfD" ∨ k ∈ params.map (fun p => p.name)) ∧
      (QMap.contains s.2 "LfD" = true → "LfD" ∈ params.map (fun p => p.name) ∨
        ("L" ∈ params.map (fun p => p.name) ∧ "Lf" ∈ params.map (fun p => p.name))) :=
  run_invariant (FrameOk params) num w stop modelType params weight
    (frame_initial params hnames) (frame_updateDeps params)
    (fun cur delta h => frame_updateDeps params _
      (frame_applyDelta num params cur delta hnames h))

/-- Claim C27 on the worked run: it has three snapshots, and in the last one the
parameters `L` and `Lf`, which are not fit-enabled, have their input values 2 and 1. -/
theorem snapshots_change_active_parameters_only_witness :
    (exampleParams.map (fun p => p.name)).Nodup ∧
    (snapshots exampleRun).length = 3 ∧
    (0, updateDeps exampleAcceptedMap) ∈ snapshots exampleRun ∧
    QMap.value (updateDeps exampleAcceptedMap) "L" = 2 ∧
    QMap.value (updateDeps exampleAcceptedMap) "Lf" = 1 ∧
    QMap.keys (updateDeps exampleAcceptedMap) = ["L", "Lf", "LfD", "S"] := by
  have hmem : (0, updateDeps exampleAcceptedMap) ∈ snapshots exampleRun := by decide!
  have h := snapshots_change_active_parameters_only exampleNumerics exampleWidget
    (fun _ => false) 0 exampleParams 1 (by decide!) (0, updateDeps exampleAcceptedMap) hmem
  exact ⟨by decide!, by decide!, hmem,
    h.1 { name := "L", value := 2 } (by decide!) rfl (by decide),
    h.1 { name := "Lf", value := 1 } (by decide!) rfl (by decide), by decide!⟩

/-! ## Termination conditions -/

theorem outerLoop_step (num : Numerics) (w : FittingWidget) (mm : ModelManager)
    (stop : Nat → Bool) (modelType : ModelType) (params : List FitParameter) (weight : ℚ)
    (fitIndices : List Nat) (maxIter n iter : Nat) (st : LMState) :
    outerLoop num w mm stop modelType params weight fitIndices maxIter (n + 1) iter st =
      if stop iter = true ∨
          (st.residuals ≠ [] ∧ st.currentSSE / st.residuals.length < 3e-3) then ([], st)
      else if (iterationTrials num w mm modelType params weight fitIndices iter st).2.2
            = false ∧
          (iterationTrials num w mm modelType params weight fitIndices iter st).2.1.lambda
            > 1e10 then
        (Event.progress (iter * 100 / maxIter) :: Event.jacobian iter ::
          ((iterationJacobian num w modelType params weight fitIndices st).2 ++
           (iterationTrials num w mm modelType params weight fitIndices iter st).1),
         (iterationTrials num w mm modelType params weight fitIndices iter st).2.1)
      else
        ((Event.progress (iter * 100 / maxIter) :: Event.jacobian iter ::
          ((iterationJacobian num w modelType params weight fitIndices st).2 ++
           (iterationTrials num w mm modelType params weight fitIndices iter st).1)) ++
          (outerLoop num w mm stop modelType params weight fitIndices maxIter n (iter + 1)
            (iterationTrials num w mm modelType params weight fitIndices iter st).2.1).1,
         (outerLoop num w mm stop modelType params weight fitIndices maxIter n (iter + 1)
            (iterationTrials num w mm modelType params weight fitIndices iter st).2.1).2) := by
  rw [outerLoop]
  by_cases h1 : stop iter = true
  · simp [h1]
  · by_cases h2 : st.residuals ≠ [] ∧ st.currentSSE / st.residuals.length < 3e-3
    · have hb : (!st.residuals.isEmpty &&
          decide (st.currentSSE / st.residuals.length < 3e-3)) = true := by
        simp only [Bool.and_eq_true, Bool.not_eq_true', decide_eq_true_eq]
        refine ⟨?_, h2.2⟩
        cases hr : st.residuals with
        | nil => exact absurd hr h2.1
        | cons a t => rfl
      rw [if_neg h1, if_pos hb, if_pos (Or.inr h2)]
    · have hb : ¬ (!st.residuals.isEmpty &&
          decide (st.currentSSE / st.residuals.length < 3e-3)) = true := by
        intro hcon
        simp only [Bool.and_eq_true, Bool.not_eq_true', decide_eq_true_eq] at hcon
        apply h2
        refine ⟨?_, hcon.2⟩
        intro hr
        rw [hr] at hcon
        simp at hcon
      have hor : ¬ (stop iter = true ∨
          (st.residuals ≠ [] ∧ st.currentSSE / st.residuals.length < 3e-3)) := by
        rintro (h | h)
        · exact h1 h
        · exact h2 h
      rw [if_neg h1, if_neg hb, if_neg hor]
      by_cases h3 : (iterationTrials num w mm modelType params weight fitIndices iter st).2.2
            = false ∧
          (iterationTrials num w mm modelType params weight fitIndices iter st).2.1.lambda
            > 1e10
      · have hb3 : (!(iterationTrials num w mm modelType params weight fitIndices iter
            st).2.2 && decide ((iterationTrials num w mm modelType params weight fitIndices
              iter st).2.1.lambda > 1e10)) = true := by
          simp [h3.1, h3.2]
        rw [if_pos h3]
        simp only [iterationTrials, iterationJacobian] at hb3 ⊢
        rw [if_pos hb3]
      · have hb3 : ¬ (!(iterationTrials num w mm modelType params weight fitIndices iter
            st).2.2 && decide ((iterationTrials num w mm modelType params weight fitIndices
              iter st).2.1.lambda > 1e10)) = true := by
          intro hcon
          simp only [Bool.and_eq_true, Bool.not_eq_true', decide_eq_true_eq] at hcon
          exact h3 hcon
        rw [if_neg h3]
        simp only [iterationTrials, iterationJacobian] at hb3 ⊢
        rw [if_neg hb3]

theorem boundaryFrom_succ (num : Numerics) (w : FittingWidget) (mm : ModelManager)
    (modelType : ModelType) (params : List FitParameter) (weight : ℚ) (fitIndices : List Nat)
    (iter0 : Nat) (b0 : Boundary) (d : Nat) :
    boundaryFrom num w mm modelType params weight fitIndices iter0 b0 (d + 1) =
      boundaryFrom num w mm modelType params weight fitIndices (iter0 + 1)
        (nextBoundary num w mm modelType params weight fitIndices iter0 b0) d := by
  induction d with
  | zero => rfl
  | succ d ih =>
    show nextBoundary num w mm modelType params weight fitIndices (iter0 + (d + 1))
        (boundaryFrom num w mm modelType params weight fitIndices iter0 b0 (d + 1)) =
      nextBoundary num w mm modelType params weight fitIndices (iter0 + 1 + d)
        (boundaryFrom num w mm modelType params weight fitIndices (iter0 + 1)
          (nextBoundary num w mm modelType params weight fitIndices iter0 b0) d)
    rw [ih, show iter0 + (d + 1) = iter0 + 1 + d from by omega]

theorem iteration_head_jacobians (num : Numerics) (w : FittingWidget) (mm : ModelManager)
    (modelType : ModelType) (params : List FitParameter) (weight : ℚ) (fitIndices : List Nat)
    (maxIter iter : Nat) (st : LMState) (rest : List Event) :
    jacobianIters ((Event.progress (iter * 100 / maxIter) :: Event.jacobian iter ::
      ((iterationJacobian num w modelType params weight fitIndices st).2 ++
       (iterationTrials num w mm modelType params weight fitIndices iter st).1)) ++ rest) =
      iter :: jacobianIters rest := by
  have hj := filterMap_modelCalls Event.jacobianIter?
    (iterationJacobian num w modelType params weight fitIndices st).2 (fun _ _ _ => rfl)
    (computeJacobian_events _ _ _ _ _ _ _ _)
  have ht := (trialLoop_iters num w mm modelType params weight fitIndices
    (normalMatrix (iterationJacobian num w modelType params weight fitIndices st).1
      st.residuals.length fitIndices.length)
    (gradient (iterationJacobian num w modelType params weight fitIndices st).1 st.residuals
      st.residuals.length fitIndices.length)
    st.residuals.length iter 5 0 st).2
  simp only [jacobianIters] at ht ⊢
  simp only [iterationTrials, List.cons_append, List.filterMap_cons, Event.jacobianIter?,
    List.filterMap_append, hj, ht, List.nil_append]

theorem outerLoop_starts (num : Numerics) (w : FittingWidget) (mm : ModelManager)
    (stop : Nat → Bool) (modelType : ModelType) (params : List FitParameter) (weight : ℚ)
    (fitIndices : List Nat) (maxIter n iter : Nat) (st : LMState) (d : Nat) :
    iter + d ∈ jacobianIters (outerLoop num w mm stop modelType params weight fitIndices
      maxIter n iter st).1 ↔
    ∀ e, e ≤ d → startsIteration stop (iter + n) (iter + e)
      (boundaryFrom num w mm modelType params weight fitIndices iter (st, false) e) := by
  induction n generalizing iter st d with
  | zero =>
    constructor
    · intro h
      simp [outerLoop, jacobianIters] at h
    · intro h
      have h0 := (h 0 (Nat.zero_le _)).1
      omega
  | succ n ih =>
    rw [outerLoop_step]
    by_cases h1 : stop iter = true ∨
        (st.residuals ≠ [] ∧ st.currentSSE / st.residuals.length < 3e-3)
    · rw [if_pos h1]
      constructor
      · intro h
        simp [jacobianIters] at h
      · intro h
        obtain ⟨_, hs, hc, _⟩ := h 0 (Nat.zero_le _)
        rcases h1 with h1 | h1
        · rw [Nat.add_zero, h1] at hs
          exact absurd hs (by decide)
        · exact absurd h1 hc
    · rw [if_neg h1]
      have hstart0 : startsIteration stop (iter + (n + 1)) (iter + 0)
          (boundaryFrom num w mm modelType params weight fitIndices iter (st, false) 0) := by
        refine ⟨by omega, ?_, ?_, rfl⟩
        · show stop iter = false
          cases hs : stop iter with
          | false => rfl
          | true => exact absurd (Or.inl hs) h1
        · intro hc
          exact h1 (Or.inr hc)
      by_cases h3 : (iterationTrials num w mm modelType params weight fitIndices iter
            st).2.2 = false ∧
          (iterationTrials num w mm modelType params weight fitIndices iter st).2.1.lambda
            > 1e10
      · rw [if_pos h3]
        have hhead := iteration_head_jacobians num w mm modelType params weight fitIndices
          maxIter iter st []
        rw [List.append_nil] at hhead
        rw [hhead]
        have hflag : (boundaryFrom num w mm modelType params weight fitIndices iter
            (st, false) 1).2 = true := by
          show (!(iterationTrials num w mm modelType params weight fitIndices (iter + 0)
            st).2.2 && decide ((iterationTrials num w mm modelType params weight fitIndices
              (iter + 0) st).2.1.lambda > 1e10)) = true
          rw [Nat.add_zero]
          simp [h3.1, h3.2]
        constructor
        · intro h
          simp only [jacobianIters, List.filterMap_nil, List.mem_singleton] at h
          have hd : d = 0 := by omega
          subst hd
          intro e he
          have he0 : e = 0 := by omega
          subst he0
          exact hstart0
        · intro h
          cases d with
          | zero => simp
          | succ d =>
            have := (h 1 (by omega)).2.2.2
            rw [hflag] at this
            exact absurd this (by decide)
      · rw [if_neg h3]
        rw [iteration_head_jacobians]
        have hnext : nextBoundary num w mm modelType params weight fitIndices iter
            (st, false) =
            ((iterationTrials num w mm modelType params weight fitIndices iter st).2.1,
              false) := by
          show ((iterationTrials num w mm modelType params weight fitIndices iter st).2.1,
            (!(iterationTrials num w mm modelType params weight fitIndices iter st).2.2 &&
              decide ((iterationTrials num w mm modelType params weight fitIndices iter
                st).2.1.lambda > 1e10))) = _
          have : (!(iterationTrials num w mm modelType params weight fitIndices iter
              st).2.2 && decide ((iterationTrials num w mm modelType params weight
                fitIndices iter st).2.1.lambda > 1e10)) = false := by
            rw [Bool.eq_false_iff]
            intro hcon
            simp only [Bool.and_eq_true, Bool.not_eq_true', decide_eq_true_eq] at hcon
            exact h3 hcon
          rw [this]
        cases d with
        | zero =>
          constructor
          · intro _ e he
            have he0 : e = 0 := by omega
            subst he0
            exact hstart0
          · intro _
            simp
        | succ d =>
          have hidx : iter + (d + 1) = iter + 1 + d := by omega
          rw [List.mem_cons, hidx]
          have hih := ih (iter + 1)
            (iterationTrials num w mm modelType params weight fitIndices iter st).2.1 d
          constructor
          · intro h
            rcases h with h | h
            · omega
            · have hall := hih.mp h
              intro e he
              cases e with
              | zero => exact hstart0
              | succ e =>
                have := hall e (by omega)
                rw [boundaryFrom_succ, hnext,
                  show iter + (e + 1) = iter + 1 + e from by omega,
                  show iter + (n + 1) = iter + 1 + n from by omega]
                exact this
          · intro h
            right
            apply hih.mpr
            intro e he
            have := h (e + 1) (by omega)
            rw [boundaryFrom_succ, hnext,
              show iter + (e + 1) = iter + 1 + e from by omega,
              show iter + (n + 1) = iter + 1 + n from by omega] at this
            exact this

theorem run_jacobianIters (num : Numerics) (w : FittingWidget) (stop : Nat → Bool)
    (modelType : ModelType) (params : List FitParameter) (weight : ℚ) (mm : ModelManager)
    (h : fitIndicesOf params ≠ []) (hm : w.modelManager = some mm) :
    jacobianIters (runLevenbergMarquardtOptimization num w stop modelType params weight) =
      jacobianIters (fitLoop num w mm stop modelType params weight).1 := by
  rw [run_main _ _ _ _ _ _ mm h hm]
  have hres := filterMap_modelCalls Event.jacobianIter?
    (calculateResiduals num (lowPrecision w) (initialParamMap params) modelType weight).2
    (fun _ _ _ => rfl) (calculateResiduals_events _ _ _ _ _)
  simp only [jacobianIters] at hres ⊢
  simp [List.filterMap_append, hres, Event.jacobianIter?]

/-- Claim C21.  With a model manager and at least one fit-enabled parameter,
`runLevenbergMarquardtOptimization` builds the Jacobian of outer iteration `k` if and only
if at every iteration boundary `j <= k` the four conditions hold: `j < 50`, the
cancellation flag is not set, the normalized error `SSE / residualCount` of the current
(non-empty) residual vector is not below `3e-3`, and the iteration before did not end
without acceptance with `lambda > 1e10`.  In particular no Jacobian is built when the
initial normalized error is below `3e-3`, or when the flag is set at the start. -/
theorem iteration_started_iff_conditions (num : Numerics) (w : FittingWidget)
    (stop : Nat → Bool) (modelType : ModelType) (params : List FitParameter) (weight : ℚ)
    (mm : ModelManager) (hm : w.modelManager = some mm)
    (hfit : ∃ p ∈ params, p.isFit = true) :
    let run := runLevenbergMarquardtOptimization num w stop modelType params weight
    let st0 := initialState num (lowPrecision w) modelType params weight
    let boundary := boundaryFrom num (lowPrecision w) mm modelType params weight
      (fitIndicesOf params) 0 (st0, false)
    (∀ k, k ∈ jacobianIters run ↔ ∀ j, j ≤ k → startsIteration stop 50 j (boundary j)) ∧
    (st0.residuals ≠ [] → st0.currentSSE / st0.residuals.length < 3e-3 →
      jacobianIters run = []) ∧
    (stop 0 = true → jacobianIters run = []) := by
  intro run st0 boundary
  have h := fitIndicesOf_ne_nil params hfit
  have hrun : jacobianIters run =
      jacobianIters (fitLoop num w mm stop modelType params weight).1 :=
    run_jacobianIters num w stop modelType params weight mm h hm
  have hmain : ∀ k, k ∈ jacobianIters run ↔
      ∀ j, j ≤ k → startsIteration stop 50 j (boundary j) := by
    intro k
    rw [hrun]
    have := outerLoop_starts num (lowPrecision w) mm stop modelType params weight
      (fitIndicesOf params) 50 50 0 st0 k
    simp only [Nat.zero_add] at this
    exact this
  have hnone : ¬ startsIteration stop 50 0 (boundary 0) → jacobianIters run = [] := by
    intro hno
    obtain ⟨k, _, hk⟩ := outerLoop_jacobians num (lowPrecision w) mm stop modelType params
      weight (fitIndicesOf params) 50 50 0 st0
    rw [hrun]
    show jacobianIters (outerLoop num (lowPrecision w) mm stop modelType params weight
      (fitIndicesOf params) 50 50 0 st0).1 = []
    rw [hk]
    cases k with
    | zero => rfl
    | succ k =>
      exfalso
      apply hno
      have h0 : 0 ∈ jacobianIters run := by
        rw [hrun]
        show 0 ∈ jacobianIters (outerLoop num (lowPrecision w) mm stop modelType params
          weight (fitIndicesOf params) 50 50 0 st0).1
        rw [hk]
        simp [List.range'_succ]
      exact (hmain 0).mp h0 0 (le_refl _)
  refine ⟨hmain, ?_, ?_⟩
  · intro hne hlt
    apply hnone
    intro hs
    exact hs.2.2.1 ⟨hne, hlt⟩
  · intro hstop
    apply hnone
    intro hs
    have := hs.2.1
    rw [hstop] at this
    exact absurd this (by decide)

/-- Claim C21 on the worked run: the first iteration is started, its step is accepted with
the SSE 0, and the second iteration is not started. -/
theorem iteration_started_iff_conditions_witness :
    exampleWidget.modelManager = some exampleModel ∧
    (∃ p ∈ exampleParams, p.isFit = true) ∧
    jacobianIters exampleRun = [0] ∧
    startsIteration (fun _ => false) 50 0 (exampleState, false) ∧
    ¬ (∀ j, j ≤ 1 → startsIteration (fun _ => false) 50 j
      (boundaryFrom exampleNumerics (lowPrecision exampleWidget) exampleModel 0 exampleParams
        1 (fitIndicesOf exampleParams) 0 (exampleState, false) j)) := by
  have h := iteration_started_iff_conditions exampleNumerics exampleWidget (fun _ => false) 0
    exampleParams 1 exampleModel rfl (by decide!)
  have hj : jacobianIters exampleRun = [0] := by decide!
  refine ⟨rfl, by decide!, hj, ?_, ?_⟩
  · exact (h.1 0).mp (by
      show 0 ∈ jacobianIters exampleRun
      rw [hj]
      exact List.mem_singleton.mpr rfl) 0 (le_refl _)
  · intro hall
    have h1 : 1 ∈ jacobianIters exampleRun := (h.1 1).mpr hall
    rw [hj] at h1
    exact absurd h1 (by decide)

/-! ## Stall bound -/

theorem QMap.insert_insert_self {β : Type} (m : QMap β) (k : String) (v : β) :
    QMap.insert (QMap.insert m k v) k v = QMap.insert m k v := by
  induction m with
  | nil => simp [QMap.insert]
  | cons e rest ih =>
    obtain ⟨k2, v2⟩ := e
    by_cases h1 : k < k2
    · simp [QMap.insert, h1]
    · by_cases h2 : k = k2
      · subst h2
        simp [QMap.insert]
      · simp [QMap.insert, h1, h2, ih]

theorem updateDeps_idem (m : QMap ℚ) : updateDeps (updateDeps m) = updateDeps m := by
  have hLne : ("L" : String) ≠ "LfD" := by decide
  have hLfne : ("Lf" : String) ≠ "LfD" := by decide
  by_cases hc : QMap.contains m "L" = true ∧ QMap.contains m "Lf" = true ∧
      QMap.value m "L" > 1e-9
  · have h1 : updateDeps m = QMap.insert m "LfD" (QMap.value m "Lf" / QMap.value m "L") := by
      unfold updateDeps
      simp [hc.1, hc.2.1, hc.2.2]
    rw [h1]
    unfold updateDeps
    rw [QMap.contains_insert_ne _ _ _ _ hLne, QMap.contains_insert_ne _ _ _ _ hLfne,
      QMap.value_insert_ne _ _ _ _ hLne, QMap.value_insert_ne _ _ _ _ hLfne]
    simp only [hc.1, hc.2.1, Bool.and_self, decide_eq_true hc.2.2, if_true]
    exact QMap.insert_insert_self _ _ _
  · rw [updateDeps_kept m hc]
    exact updateDeps_kept m hc

theorem iterationTrials_all_rejected (num : Numerics) (w : FittingWidget) (mm : ModelManager)
    (modelType : ModelType) (params : List FitParameter) (weight : ℚ) (fitIndices : List Nat)
    (iter : Nat) (st : LMState)
    (hacc : acceptedSSEs (iterationTrials num w mm modelType params weight fitIndices iter
      st).1 = []) :
    (iterationTrials num w mm modelType params weight fitIndices iter st).2.2 = false ∧
    (iterationTrials num w mm modelType params weight fitIndices iter st).2.1 =
      { st with lambda := st.lambda * 10 ^ 5 } ∧
    trialIters (iterationTrials num w mm modelType params weight fitIndices iter st).1 =
      List.replicate 5 iter := by
  unfold iterationTrials at hacc ⊢
  rcases trialLoop_schedule num w mm modelType params weight fitIndices
    (normalMatrix (iterationJacobian num w modelType params weight fitIndices st).1
      st.residuals.length fitIndices.length)
    (gradient (iterationJacobian num w modelType params weight fitIndices st).1 st.residuals
      st.residuals.length fitIndices.length)
    st.residuals.length iter 5 0 st with ⟨_, k, _, _, hone, _⟩ | ⟨hfalse, hlen, _, hst⟩
  · rw [hacc] at hone
    simp at hone
  · refine ⟨hfalse, hst, ?_⟩
    obtain ⟨⟨k, _, hk⟩, _⟩ := trialLoop_iters num w mm modelType params weight fitIndices
      (normalMatrix (iterationJacobian num w modelType params weight fitIndices st).1
        st.residuals.length fitIndices.length)
      (gradient (iterationJacobian num w modelType params weight fitIndices st).1
        st.residuals st.residuals.length fitIndices.length)
      st.residuals.length iter 5 0 st
    rw [hk] at hlen ⊢
    rw [List.length_replicate] at hlen
    rw [hlen]

theorem iteration_head_trials (num : Numerics) (w : FittingWidget) (mm : ModelManager)
    (modelType : ModelType) (params : List FitParameter) (weight : ℚ) (fitIndices : List Nat)
    (maxIter iter : Nat) (st : LMState) (rest : List Event) :
    trialIters ((Event.progress (iter * 100 / maxIter) :: Event.jacobian iter ::
      ((iterationJacobian num w modelType params weight fitIndices st).2 ++
       (iterationTrials num w mm modelType params weight fitIndices iter st).1)) ++ rest) =
      trialIters (iterationTrials num w mm modelType params weight fitIndices iter st).1 ++
        trialIters rest ∧
    acceptedSSEs ((Event.progress (iter * 100 / maxIter) :: Event.jacobian iter ::
      ((iterationJacobian num w modelType params weight fitIndices st).2 ++
       (iterationTrials num w mm modelType params weight fitIndices iter st).1)) ++ rest) =
      acceptedSSEs (iterationTrials num w mm modelType params weight fitIndices iter st).1 ++
        acceptedSSEs rest := by
  have hj1 := filterMap_modelCalls Event.trialIter?
    (iterationJacobian num w modelType params weight fitIndices st).2 (fun _ _ _ => rfl)
    (computeJacobian_events _ _ _ _ _ _ _ _)
  have hj2 := filterMap_modelCalls Event.acceptedSSE?
    (iterationJacobian num w modelType params weight fitIndices st).2 (fun _ _ _ => rfl)
    (computeJacobian_events _ _ _ _ _ _ _ _)
  constructor
  · simp only [trialIters, List.cons_append, List.filterMap_cons, Event.trialIter?,
      List.filterMap_append, hj1, List.nil_append]
  · simp only [acceptedSSEs, List.cons_append, List.filterMap_cons, Event.acceptedSSE?,
      List.filterMap_append, hj2, List.nil_append]

theorem outerLoop_all_rejected (num : Numerics) (w : FittingWidget) (mm : ModelManager)
    (stop : Nat → Bool) (modelType : ModelType) (params : List FitParameter) (weight : ℚ)
    (fitIndices : List Nat) (maxIter n m iter : Nat) (st : LMState) (hn : n = m + 1)
    (hstop : stop iter = false)
    (hconv : ¬ (st.residuals ≠ [] ∧ st.currentSSE / st.residuals.length < 3e-3))
    (hacc : acceptedSSEs (outerLoop num w mm stop modelType params weight fitIndices maxIter
      n iter st).1 = []) :
    (st.lambda * 10 ^ 5 > 1e10 →
      jacobianIters (outerLoop num w mm stop modelType params weight fitIndices maxIter
        n iter st).1 = [iter] ∧
      trialIters (outerLoop num w mm stop modelType params weight fitIndices maxIter
        n iter st).1 = List.replicate 5 iter ∧
      (outerLoop num w mm stop modelType params weight fitIndices maxIter n iter
        st).2 = { st with lambda := st.lambda * 10 ^ 5 }) ∧
    (¬ st.lambda * 10 ^ 5 > 1e10 →
      jacobianIters (outerLoop num w mm stop modelType params weight fitIndices maxIter
        n iter st).1 = iter :: jacobianIters (outerLoop num w mm stop modelType params
          weight fitIndices maxIter m (iter + 1) { st with lambda := st.lambda * 10 ^ 5 }).1 ∧
      trialIters (outerLoop num w mm stop modelType params weight fitIndices maxIter
        n iter st).1 = List.replicate 5 iter ++ trialIters (outerLoop num w mm stop
          modelType params weight fitIndices maxIter m (iter + 1)
          { st with lambda := st.lambda * 10 ^ 5 }).1 ∧
      (outerLoop num w mm stop modelType params weight fitIndices maxIter n iter
        st).2 = (outerLoop num w mm stop modelType params weight fitIndices maxIter m
          (iter + 1) { st with lambda := st.lambda * 10 ^ 5 }).2 ∧
      acceptedSSEs (outerLoop num w mm stop modelType params weight fitIndices maxIter m
        (iter + 1) { st with lambda := st.lambda * 10 ^ 5 }).1 = []) := by
  subst hn
  have h1 : ¬ (stop iter = true ∨
      (st.residuals ≠ [] ∧ st.currentSSE / st.residuals.length < 3e-3)) := by
    rintro (h | h)
    · rw [hstop] at h
      exact absurd h (by decide)
    · exact hconv h
  rw [outerLoop_step, if_neg h1] at hacc ⊢
  have hacc_tr : acceptedSSEs (iterationTrials num w mm modelType params weight fitIndices
      iter st).1 = [] := by
    split at hacc
    · have := (iteration_head_trials num w mm modelType params weight fitIndices maxIter
        iter st []).2
      rw [List.append_nil] at this
      rw [this] at hacc
      simpa [acceptedSSEs] using hacc
    · rw [(iteration_head_trials num w mm modelType params weight fitIndices maxIter iter
        st _).2] at hacc
      exact (List.append_eq_nil.mp hacc).1
  obtain ⟨hfalse, hst, htr⟩ := iterationTrials_all_rejected num w mm modelType params weight
    fitIndices iter st hacc_tr
  constructor
  · intro hbig
    have h3 : (iterationTrials num w mm modelType params weight fitIndices iter st).2.2
          = false ∧
        (iterationTrials num w mm modelType params weight fitIndices iter st).2.1.lambda
          > 1e10 := by
      refine ⟨hfalse, ?_⟩
      rw [hst]
      exact hbig
    rw [if_pos h3]
    have hj := iteration_head_jacobians num w mm modelType params weight fitIndices maxIter
      iter st []
    have ht := (iteration_head_trials num w mm modelType params weight fitIndices maxIter
      iter st []).1
    rw [List.append_nil] at hj ht
    refine ⟨?_, ?_, hst⟩
    · rw [hj]; rfl
    · rw [ht, htr]; rfl
  · intro hsmall
    have h3 : ¬ ((iterationTrials num w mm modelType params weight fitIndices iter st).2.2
          = false ∧
        (iterationTrials num w mm modelType params weight fitIndices iter st).2.1.lambda
          > 1e10) := by
      rintro ⟨_, hl⟩
      rw [hst] at hl
      exact hsmall hl
    rw [if_neg h3] at hacc ⊢
    rw [(iteration_head_trials num w mm modelType params weight fitIndices maxIter iter
      st _).2] at hacc
    have hrest := (List.append_eq_nil.mp hacc).2
    rw [hst] at hrest ⊢
    refine ⟨?_, ?_, rfl, hrest⟩
    · rw [iteration_head_jacobians]
    · rw [(iteration_head_trials num w mm modelType params weight fitIndices maxIter iter
        st _).1, htr]

theorem run_trialIters (num : Numerics) (w : FittingWidget) (stop : Nat → Bool)
    (modelType : ModelType) (params : List FitParameter) (weight : ℚ) (mm : ModelManager)
    (h : fitIndicesOf params ≠ []) (hm : w.modelManager = some mm) :
    trialIters (runLevenbergMarquardtOptimization num w stop modelType params weight) =
      trialIters (fitLoop num w mm stop modelType params weight).1 ∧
    acceptedSSEs (runLevenbergMarquardtOptimization num w stop modelType params weight) =
      acceptedSSEs (fitLoop num w mm stop modelType params weight).1 := by
  rw [run_main _ _ _ _ _ _ mm h hm]
  have hres1 := filterMap_modelCalls Event.trialIter?
    (calculateResiduals num (lowPrecision w) (initialParamMap params) modelType weight).2
    (fun _ _ _ => rfl) (calculateResiduals_events _ _ _ _ _)
  have hres2 := filterMap_modelCalls Event.acceptedSSE?
    (calculateResiduals num (lowPrecision w) (initialParamMap params) modelType weight).2
    (fun _ _ _ => rfl) (calculateResiduals_events _ _ _ _ _)
  constructor
  · simp only [trialIters] at hres1 ⊢
    simp [List.filterMap_append, hres1, Event.trialIter?]
  · simp only [acceptedSSEs] at hres2 ⊢
    simp [List.filterMap_append, hres2, Event.acceptedSSE?]

/-- Claim C28.  Stall bound.  With a model manager and at least one fit-enabled parameter,
if the run is never cancelled, the initial normalized error (of a non-empty residual
vector) is not below `3e-3`, and no trial step is accepted, then
`runLevenbergMarquardtOptimization` builds exactly the Jacobians of the outer iterations
0, 1 and 2 and makes exactly 15 trial steps, five in each of them; `lambda` ends at
`0.01 * 10^15 = 1e13`; and the last snapshot carries the initial parameter map and the
initial SSE over the initial residual count. -/
theorem stall_after_three_iterations (num : Numerics) (w : FittingWidget)
    (stop : Nat → Bool) (modelType : ModelType) (params : List FitParameter) (weight : ℚ)
    (mm : ModelManager) (hm : w.modelManager = some mm)
    (hfit : ∃ p ∈ params, p.isFit = true)
    (hstop : ∀ k, stop k = false)
    (hinit : ¬ ((initialState num (lowPrecision w) modelType params weight).residuals ≠ [] ∧
      (initialState num (lowPrecision w) modelType params weight).currentSSE /
        (initialState num (lowPrecision w) modelType params weight).residuals.length < 3e-3))
    (hacc : acceptedSSEs (runLevenbergMarquardtOptimization num w stop modelType params
      weight) = []) :
    jacobianIters (runLevenbergMarquardtOptimization num w stop modelType params weight) =
      [0, 1, 2] ∧
    trialIters (runLevenbergMarquardtOptimization num w stop modelType params weight) =
      List.replicate 5 0 ++ (List.replicate 5 1 ++ List.replicate 5 2) ∧
    (trialIters (runLevenbergMarquardtOptimization num w stop modelType params
      weight)).length = 15 ∧
    (fitLoop num w mm stop modelType params weight).2.lambda = 10000000000000 ∧
    (snapshots (runLevenbergMarquardtOptimization num w stop modelType params
      weight)).getLast? =
      some (initialSSE num w modelType params weight /
          (initialState num (lowPrecision w) modelType params weight).residuals.length,
        initialParamMap params) := by
  have h := fitIndicesOf_ne_nil params hfit
  have hacc0 : acceptedSSEs (fitLoop num w mm stop modelType params weight).1 = [] := by
    rw [(run_trialIters num w stop modelType params weight mm h hm).2] at hacc
    exact hacc
  unfold fitLoop at hacc0
  have hl0 : (initialState num (lowPrecision w) modelType params weight).lambda = 0.01 := rfl
  obtain ⟨_, s1⟩ := outerLoop_all_rejected num (lowPrecision w) mm stop modelType params
    weight (fitIndicesOf params) 50 50 49 0 _ rfl (hstop 0) hinit hacc0
  obtain ⟨hj1, ht1, hf1, hacc1⟩ := s1 (by rw [hl0]; norm_num)
  have t2 := fun hc => outerLoop_all_rejected num (lowPrecision w) mm stop modelType params
    weight (fitIndicesOf params) 50 49 48 (0 + 1) _ rfl (hstop _) hc hacc1
  obtain ⟨_, s2⟩ := t2 hinit
  obtain ⟨hj2, ht2, hf2, hacc2⟩ := s2 (by
    show ¬ (initialState num (lowPrecision w) modelType params weight).lambda * 10 ^ 5
      * 10 ^ 5 > 1e10
    rw [hl0]; norm_num)
  have t3 := fun hc => outerLoop_all_rejected num (lowPrecision w) mm stop modelType params
    weight (fitIndicesOf params) 50 48 47 (0 + 1 + 1) _ rfl (hstop _) hc hacc2
  obtain ⟨s3, _⟩ := t3 hinit
  obtain ⟨hj3, ht3, hf3⟩ := s3 (by
    show (initialState num (lowPrecision w) modelType params weight).lambda * 10 ^ 5
      * 10 ^ 5 * 10 ^ 5 > 1e10
    rw [hl0]; norm_num)
  have hfinal : (fitLoop num w mm stop modelType params weight).2 =
      { initialState num (lowPrecision w) modelType params weight with
        lambda := (initialState num (lowPrecision w) modelType params weight).lambda
          * 10 ^ 5 * 10 ^ 5 * 10 ^ 5 } := by
    unfold fitLoop
    rw [hf1, hf2, hf3]
  have hjac : jacobianIters (runLevenbergMarquardtOptimization num w stop modelType params
      weight) = [0, 1, 2] := by
    rw [run_jacobianIters num w stop modelType params weight mm h hm]
    unfold fitLoop
    rw [hj1, hj2, hj3]
  have htri : trialIters (runLevenbergMarquardtOptimization num w stop modelType params
      weight) = List.replicate 5 0 ++ (List.replicate 5 1 ++ List.replicate 5 2) := by
    rw [(run_trialIters num w stop modelType params weight mm h hm).1]
    unfold fitLoop
    rw [ht1, ht2, ht3]
  refine ⟨hjac, htri, ?_, ?_, ?_⟩
  · rw [htri]; rfl
  · rw [hfinal]
    show (initialState num (lowPrecision w) modelType params weight).lambda * 10 ^ 5
      * 10 ^ 5 * 10 ^ 5 = 10000000000000
    rw [hl0]; norm_num
  · rw [run_last_snapshot num w stop modelType params weight mm h hm, hfinal]
    show some ((initialState num (lowPrecision w) modelType params weight).currentSSE /
        (initialState num (lowPrecision w) modelType params weight).residuals.length,
      updateDeps (initialParamMap params)) = _
    have hid : updateDeps (initialParamMap params) = initialParamMap params := by
      unfold initialParamMap
      exact updateDeps_idem _
    rw [hid]
    rfl

/-- Claim C28 on the run with the constant forward model: no step is accepted, three
Jacobians are built, 15 trial steps are made and the last snapshot carries the initial
map `S = 0` with the normalized error 1. -/
theorem stall_after_three_iterations_witness :
    exampleWidgetConstant.modelManager = some exampleModelConstant ∧
    (∃ p ∈ exampleParamsSkin, p.isFit = true) ∧
    acceptedSSEs exampleRunStalled = [] ∧
    jacobianIters exampleRunStalled = [0, 1, 2] ∧
    (trialIters exampleRunStalled).length = 15 ∧
    (snapshots exampleRunStalled).getLast? = some (1, [("S", 0)]) := by
  have hacc : acceptedSSEs exampleRunStalled = [] := by decide!
  have h := stall_after_three_iterations exampleNumerics exampleWidgetConstant
    (fun _ => false) 0 exampleParamsSkin 1 exampleModelConstant rfl (by decide!)
    (fun _ => rfl) (by decide!) hacc
  refine ⟨rfl, by decide!, hacc, h.1, h.2.2.1, ?_⟩
  have h5 := h.2.2.2.2
  have e1 : initialSSE exampleNumerics exampleWidgetConstant 0 exampleParamsSkin 1 /
      ((initialState exampleNumerics (lowPrecision exampleWidgetConstant) 0 exampleParamsSkin
        1).residuals.length : ℚ) = 1 := by decide!
  have e2 : initialParamMap exampleParamsSkin = [("S", 0)] := by decide!
  rw [e1, e2] at h5
  exact h5

/-! ## The damped system -/

theorem dampedSystem_eq (J : List (List ℚ)) (nRes nParams : Nat) (lambda : ℚ) :
    dampedSystem J nRes nParams lambda =
      (Matrix.of (fun (k : Fin nRes) (i : Fin nParams) => matEntry J k.val i.val)).transpose *
        Matrix.of (fun (k : Fin nRes) (i : Fin nParams) => matEntry J k.val i.val) +
      Matrix.diagonal (fun i : Fin nParams =>
        lambda * (1 + |matEntry (normalMatrix J nRes nParams) i.val i.val|)) := by
  ext i j
  simp only [dampedSystem, Matrix.of_apply, Matrix.add_apply, Matrix.mul_apply,
    Matrix.transpose_apply, Matrix.diagonal_apply]
  unfold dampedMatrix
  rw [matEntry_table _ nParams i.val j.val i.isLt j.isLt]
  have hH : ∀ a b : Fin nParams, matEntry (normalMatrix J nRes nParams) a.val b.val =
      ∑ k : Fin nRes, matEntry J k.val a.val * matEntry J k.val b.val := by
    intro a b
    rw [normalMatrix_entry J nRes nParams a.val b.val a.isLt b.isLt, Finset.sum_range]
  by_cases hij : i = j
  · subst hij
    simp only [if_true]
    rw [hH i i]
  · have hv : ¬ i.val = j.val := fun h => hij (Fin.ext h)
    simp only [hv, hij, if_false, add_zero]
    exact hH i j

theorem dampedSystem_quadratic (J : List (List ℚ)) (nRes nParams : Nat) (lambda : ℚ)
    (x : Fin nParams → ℚ) :
    Matrix.dotProduct x (Matrix.mulVec (dampedSystem J nRes nParams lambda) x) =
      (∑ k : Fin nRes, (∑ i : Fin nParams, matEntry J k.val i.val * x i) ^ 2) +
      ∑ i : Fin nParams,
        lambda * (1 + |matEntry (normalMatrix J nRes nParams) i.val i.val|) * x i ^ 2 := by
  rw [dampedSystem_eq, Matrix.add_mulVec, Matrix.dotProduct_add]
  congr 1
  · rw [← Matrix.mulVec_mulVec, Matrix.dotProduct_mulVec, Matrix.vecMul_transpose]
    simp only [Matrix.dotProduct, Matrix.mulVec, Matrix.of_apply, sq]
  · simp only [Matrix.dotProduct, Matrix.mulVec_diagonal, sq]
    exact Finset.sum_congr rfl (fun i _ => by ring)

theorem dampedSystem_posDef (J : List (List ℚ)) (nRes nParams : Nat) (lambda : ℚ)
    (hl : 0 < lambda) (x : Fin nParams → ℚ) (hx : x ≠ 0) :
    0 < Matrix.dotProduct x (Matrix.mulVec (dampedSystem J nRes nParams lambda) x) := by
  rw [dampedSystem_quadratic]
  have h1 : 0 ≤ ∑ k : Fin nRes, (∑ i : Fin nParams, matEntry J k.val i.val * x i) ^ 2 :=
    Finset.sum_nonneg (fun k _ => sq_nonneg _)
  have hcoef : ∀ i : Fin nParams,
      0 < lambda * (1 + |matEntry (normalMatrix J nRes nParams) i.val i.val|) := by
    intro i
    have := abs_nonneg (matEntry (normalMatrix J nRes nParams) i.val i.val)
    positivity
  obtain ⟨i0, hi0⟩ : ∃ i, x i ≠ 0 := by
    by_contra hcon
    apply hx
    funext i
    by_contra hi
    exact hcon ⟨i, hi⟩
  have h2 : 0 < ∑ i : Fin nParams,
      lambda * (1 + |matEntry (normalMatrix J nRes nParams) i.val i.val|) * x i ^ 2 := by
    apply Finset.sum_pos'
    · intro i _
      exact mul_nonneg (le_of_lt (hcoef i)) (sq_nonneg _)
    · exact ⟨i0, Finset.mem_univ _, mul_pos (hcoef i0) (by positivity)⟩
  linarith

theorem dampedSystem_unique (J : List (List ℚ)) (nRes nParams : Nat) (lambda : ℚ)
    (hl : 0 < lambda) (b : Fin nParams → ℚ) :
    ∃! x : Fin nParams → ℚ, Matrix.mulVec (dampedSystem J nRes nParams lambda) x = b := by
  have hinj : Function.Injective (Matrix.mulVec (dampedSystem J nRes nParams lambda)) := by
    intro x y hxy
    by_contra hne
    have hsub : x - y ≠ 0 := sub_ne_zero.mpr hne
    have hpos := dampedSystem_posDef J nRes nParams lambda hl (x - y) hsub
    rw [Matrix.mulVec_sub, hxy, sub_self, Matrix.dotProduct_zero] at hpos
    exact lt_irrefl _ hpos
  have hunit : IsUnit (dampedSystem J nRes nParams lambda) :=
    Matrix.mulVec_injective_iff_isUnit.mp hinj
  have hdet : IsUnit (dampedSystem J nRes nParams lambda).det :=
    (Matrix.isUnit_iff_isUnit_det _).mp hunit
  refine ⟨Matrix.mulVec (dampedSystem J nRes nParams lambda)⁻¹ b, ?_, ?_⟩
  · show Matrix.mulVec (dampedSystem J nRes nParams lambda)
      (Matrix.mulVec (dampedSystem J nRes nParams lambda)⁻¹ b) = b
    rw [Matrix.mulVec_mulVec, Matrix.mul_nonsing_inv _ hdet, Matrix.one_mulVec]
  · intro y hy
    apply hinj
    rw [hy, Matrix.mulVec_mulVec, Matrix.mul_nonsing_inv _ hdet, Matrix.one_mulVec]

theorem dampedSystem_symm (J : List (List ℚ)) (nRes nParams : Nat) (lambda : ℚ) :
    (dampedSystem J nRes nParams lambda).IsSymm := by
  unfold Matrix.IsSymm
  rw [dampedSystem_eq]
  simp [Matrix.transpose_add, Matrix.transpose_mul, Matrix.diagonal_transpose]

theorem trialLoop_lambda_pos (num : Numerics) (w : FittingWidget) (mm : ModelManager)
    (modelType : ModelType) (params : List FitParameter) (weight : ℚ) (fitIndices : List Nat)
    (H : List (List ℚ)) (g : List ℚ) (nRes iter n tryIter : Nat) (st : LMState)
    (h : 0 < st.lambda) :
    0 < (trialLoop num w mm modelType params weight fitIndices H g nRes iter n tryIter
      st).2.1.lambda := by
  rcases trialLoop_schedule num w mm modelType params weight fitIndices H g nRes iter n
    tryIter st with ⟨_, k, _, _, _, hl⟩ | ⟨_, _, _, hst⟩
  · rw [hl]
    positivity
  · rw [hst]
    show 0 < st.lambda * 10 ^ n
    positivity

theorem boundaryFrom_lambda_pos (num : Numerics) (w : FittingWidget) (mm : ModelManager)
    (modelType : ModelType) (params : List FitParameter) (weight : ℚ) (fitIndices : List Nat)
    (iter0 : Nat) (b0 : Boundary) (h : 0 < b0.1.lambda) (d : Nat) :
    0 < (boundaryFrom num w mm modelType params weight fitIndices iter0 b0 d).1.lambda := by
  induction d with
  | zero => exact h
  | succ d ih =>
    show 0 < (iterationTrials num w mm modelType params weight fitIndices (iter0 + d)
      (boundaryFrom num w mm modelType params weight fitIndices iter0 b0 d).1).2.1.lambda
    unfold iterationTrials
    exact trialLoop_lambda_pos _ _ _ _ _ _ _ _ _ _ _ _ _ _ ih

theorem outerLoop_lambda_pos (num : Numerics) (w : FittingWidget) (mm : ModelManager)
    (stop : Nat → Bool) (modelType : ModelType) (params : List FitParameter) (weight : ℚ)
    (fitIndices : List Nat) (maxIter n iter : Nat) (st : LMState) (h : 0 < st.lambda) :
    0 < (outerLoop num w mm stop modelType params weight fitIndices maxIter n iter
      st).2.lambda := by
  induction n generalizing iter st with
  | zero => exact h
  | succ n ih =>
    rcases outerLoop_cases num w mm stop modelType params weight fitIndices maxIter n iter st
      with hc | ⟨jev, H, g, nRes, _, hc | hc⟩
    · rw [hc]; exact h
    · rw [hc]
      exact trialLoop_lambda_pos _ _ _ _ _ _ _ _ _ _ _ _ _ _ h
    · rw [hc]
      exact ih _ _ (trialLoop_lambda_pos _ _ _ _ _ _ _ _ _ _ _ _ _ _ h)

/-- Claim C24.  The damping `lambda` is `0.01` at the start and strictly positive at every
iteration boundary of a run, in every trial step (where it is the boundary value times a
power of 10) and at the end of the loop.  For every Jacobian `J` and every `lambda > 0`
the damped matrix `J^T J + diag(lambda * (1 + |(J^T J)[i][i]|))` is symmetric and positive
definite, so for every right-hand side the system handed to `solveLinearSystem` has
exactly one solution. -/
theorem damped_system_never_singular (num : Numerics) (w : FittingWidget)
    (mm : ModelManager) (stop : Nat → Bool) (modelType : ModelType)
    (params : List FitParameter) (weight : ℚ) :
    (initialState num (lowPrecision w) modelType params weight).lambda = 0.01 ∧
    (∀ d ti : Nat, 0 < (boundaryFrom num (lowPrecision w) mm modelType params weight
      (fitIndicesOf params) 0
      (initialState num (lowPrecision w) modelType params weight, false) d).1.lambda
        * 10 ^ ti) ∧
    0 < (fitLoop num w mm stop modelType params weight).2.lambda ∧
    (∀ (J : List (List ℚ)) (nRes nParams : Nat) (lambda : ℚ), 0 < lambda →
      (dampedSystem J nRes nParams lambda).IsSymm ∧
      (∀ i j : Fin nParams, dampedSystem J nRes nParams lambda i j =
        (∑ k in Finset.range nRes, matEntry J k i.val * matEntry J k j.val) +
        if i = j then lambda * (1 + |∑ k in Finset.range nRes,
          matEntry J k i.val * matEntry J k i.val|) else 0) ∧
      (∀ x : Fin nParams → ℚ, x ≠ 0 →
        0 < Matrix.dotProduct x (Matrix.mulVec (dampedSystem J nRes nParams lambda) x)) ∧
      (∀ b : Fin nParams → ℚ,
        ∃! x : Fin nParams → ℚ,
          Matrix.mulVec (dampedSystem J nRes nParams lambda) x = b)) := by
  have h0 : 0 < (initialState num (lowPrecision w) modelType params weight).lambda := by
    show (0 : ℚ) < 0.01
    norm_num
  refine ⟨rfl, ?_, ?_, ?_⟩
  · intro d ti
    have := boundaryFrom_lambda_pos num (lowPrecision w) mm modelType params weight
      (fitIndicesOf params) 0
      (initialState num (lowPrecision w) modelType params weight, false) h0 d
    positivity
  · exact outerLoop_lambda_pos num (lowPrecision w) mm stop modelType params weight
      (fitIndicesOf params) 50 50 0 _ h0
  · intro J nRes nParams lambda hl
    refine ⟨dampedSystem_symm J nRes nParams lambda, ?_,
      fun x hx => dampedSystem_posDef J nRes nParams lambda hl x hx,
      fun b => dampedSystem_unique J nRes nParams lambda hl b⟩
    intro i j
    show matEntry (dampedMatrix (normalMatrix J nRes nParams) lambda nParams) i.val j.val = _
    unfold dampedMatrix
    rw [matEntry_table _ nParams i.val j.val i.isLt j.isLt]
    by_cases hij : i = j
    · subst hij
      simp only [if_true]
      rw [normalMatrix_entry J nRes nParams i.val i.val i.isLt i.isLt]
    · have hv : ¬ i.val = j.val := fun h => hij (Fin.ext h)
      simp only [hv, hij, if_false, add_zero]
      exact normalMatrix_entry J nRes nParams i.val j.val i.isLt j.isLt

/-- Claim C24 on a worked matrix: for the Jacobian with the two rows `[1]` and `[1]` and
the damping `0.01` the quadratic form is positive at `x = 1` and the system with the
right-hand side `2` has exactly one solution. -/
theorem damped_system_never_singular_witness :
    (0 : ℚ) < 1 / 100 ∧
    (fun _ : Fin 1 => (1 : ℚ)) ≠ 0 ∧
    0 < Matrix.dotProduct (fun _ : Fin 1 => (1 : ℚ))
      (Matrix.mulVec (dampedSystem [[1], [1]] 2 1 (1 / 100)) (fun _ => 1)) ∧
    (∃! x : Fin 1 → ℚ,
      Matrix.mulVec (dampedSystem [[1], [1]] 2 1 (1 / 100)) x = fun _ => 2) := by
  have hpos : (0 : ℚ) < 1 / 100 := by norm_num
  have hx : (fun _ : Fin 1 => (1 : ℚ)) ≠ 0 := by
    intro h
    have := congrFun h 0
    simp at this
  have h := (damped_system_never_singular exampleNumerics exampleWidget exampleModel
    (fun _ => false) 0 exampleParams 1).2.2.2 [[1], [1]] 2 1 (1 / 100) hpos
  exact ⟨hpos, hx, h.2.2.1 _ hx, h.2.2.2 _⟩

end WT
